import Mathlib

/-!
Adept UPC kernel benchmarks: dense BLAS-1/2 kernels, sparse kernels, stencils.

A shallow embedding of the kernels of `blas_op.c` and `stencil.c`.

Modelling conventions.

* A (shared or private) C array is a total map `Nat → α` from the linear index to
  the stored value; a store `a[k] = v` is `Function.update a k v`.  Where the buffer
  length is decided by the kernel itself from a file header, the state also records
  which indices are used: `in_bounds` for the SpMV ingestion (lengths `spmv_alloc`),
  `offsets_extent` and `entries_extent` for the CSC derivation (length `spgemm_alloc`).
* C `int` values are mathematical integers kept in the signed 32-bit range by
  `toInt32` after every arithmetic operation, `unsigned int` values by `toUInt32`
  (two's complement wrap-around, as the benchmark relies on).
* `float`/`double` values are modelled in exact arithmetic by `ℚ`.
* Loop counters, sizes and linear indices are natural numbers; the embedding covers
  the inputs for which the C `int` index arithmetic does not overflow.
* `upc_forall` is executed thread by thread: thread `0` runs all of its iterations,
  then thread `1`, and so on.  A thread executes iteration `i` exactly when the
  affinity expression designates it (`aff i % THREADS = MYTHREAD`; a shared pointer
  `&a[k]` to an array of block size one has affinity `k % THREADS`).
-/

namespace Adept

/-! ## Machine integers -/

/-- Value of a C `int` holding the mathematical integer `x` (wrap to signed 32 bits). -/
def toInt32 (x : Int) : Int := (x + 2 ^ 31) % 2 ^ 32 - 2 ^ 31

/-- Value of a C `unsigned int` holding the mathematical integer `x`. -/
def toUInt32 (x : Int) : Int := x % 2 ^ 32

/-! ## Control structures -/

/-- The C loop `for (i = lo; i < hi; i++) body`. -/
def for_loop {σ : Type} (lo hi : Nat) (body : Nat → σ → σ) (s : σ) : σ :=
  (List.range (hi - lo)).foldl (fun s d => body (lo + d) s) s

/-- The UPC loop `upc_forall (i = lo; i < hi; i++; aff) body`, run by all `THREADS`
threads one after the other; `body` receives `MYTHREAD` and `i`. -/
def upc_forall {σ : Type} (THREADS lo hi : Nat) (aff : Nat → Nat)
    (body : Nat → Nat → σ → σ) (s : σ) : σ :=
  for_loop 0 THREADS (fun MYTHREAD s =>
    for_loop lo hi (fun i s =>
      if aff i % THREADS = MYTHREAD then body MYTHREAD i s else s) s) s

/-! ## Dense kernels (`blas_op.c`) -/

/-- Kernel `int_dot_product`: the value of the shared scalar `result` after the reduction.
`v1`, `v2` are the two filled vectors; `tmp_result` is the freshly allocated slot
array and `result` starts from its static initialiser `0`. -/
def int_dot_product (THREADS size : Nat) (v1 v2 : Nat → Int) (tmp_alloc : Nat → Int) : Int :=
  let local_size := size / THREADS
  -- tmp_result[MYTHREAD] = 0;   (every thread)
  let tmp_result := for_loop 0 THREADS (fun MYTHREAD tmp => Function.update tmp MYTHREAD 0) tmp_alloc
  -- upc_forall(i=0; i<local_size*THREADS; i++; &v1[i])
  let tmp_result := upc_forall THREADS 0 (local_size * THREADS) (fun i => i)
    (fun MYTHREAD i tmp =>
      Function.update tmp MYTHREAD (toUInt32 (tmp MYTHREAD + toInt32 (v1 i * v2 i)))) tmp_result
  -- if (MYTHREAD==0) for(i=0;i<THREADS;i++) result = result + tmp_result[i];
  for_loop 0 THREADS (fun i result => toUInt32 (result + tmp_result i)) 0

/-- State of the floating-point dot products: the partial slots and the static shared
scalar `result`. -/
structure DotState where
  tmp_result : Nat → ℚ
  result : ℚ

/-- Kernel `float_dot_product`: the partial slots and the scalar `result` at the point where
`result` is printed. -/
def float_dot_product (THREADS size : Nat) (v1 v2 : Nat → ℚ) (tmp_alloc : Nat → ℚ) : DotState :=
  let local_size := size / THREADS
  -- tmp_result[MYTHREAD] = 0.0;
  let tmp_result := for_loop 0 THREADS (fun MYTHREAD tmp => Function.update tmp MYTHREAD 0) tmp_alloc
  -- upc_forall(i=0; i<local_size*THREADS; i++; &v1[i])
  let tmp_result := upc_forall THREADS 0 (local_size * THREADS) (fun i => i)
    (fun MYTHREAD i tmp => Function.update tmp MYTHREAD (tmp MYTHREAD + v1 i * v2 i)) tmp_result
  -- upc_barrier; then printf("Dot product result: %f\n", result);
  -- `static shared float result = 0.0;` is assigned by no statement of the function
  DotState.mk tmp_result 0

/-- Kernel `double_dot_product`: same statements as `float_dot_product`, on doubles. -/
def double_dot_product (THREADS size : Nat) (v1 v2 : Nat → ℚ) (tmp_alloc : Nat → ℚ) : DotState :=
  let local_size := size / THREADS
  let tmp_result := for_loop 0 THREADS (fun MYTHREAD tmp => Function.update tmp MYTHREAD 0) tmp_alloc
  let tmp_result := upc_forall THREADS 0 (local_size * THREADS) (fun i => i)
    (fun MYTHREAD i tmp => Function.update tmp MYTHREAD (tmp MYTHREAD + v1 i * v2 i)) tmp_result
  DotState.mk tmp_result 0

/-- The two shared vectors of `int_axpy`. -/
structure AxpyState where
  x : Nat → Int
  y : Nat → Int

/-- Kernel `int_axpy`: the vectors after the loop
`upc_forall(i=0; i<size; i++; &y[i]) y[i] = a * x[i] + y[i];`. -/
def int_axpy (THREADS size : Nat) (a : Int) (x y : Nat → Int) : AxpyState :=
  upc_forall THREADS 0 size (fun i => i)
    (fun _ i s => AxpyState.mk s.x
      (Function.update s.y i (toInt32 (toInt32 (a * s.x i) + s.y i))))
    (AxpyState.mk x y)

/-- The conversion `norm = sqrt(sum)` of `int_norm`: `sum` is converted to `double` (exactly),
the correctly rounded square root is taken and truncated to `int`.  For `0 ≤ sum < 2^31`
that is the integer square root; for a negative `sum` the square root is a NaN, whose
conversion to `int` is undefined. -/
def sqrt_to_int (sum : Int) : Option Int :=
  if 0 ≤ sum then some (Nat.sqrt sum.toNat : Int) else none

/-- Kernel `int_norm`: the value of the shared scalar `norm` (`sum` starts from its static
initialiser `0`). -/
def int_norm (THREADS size : Nat) (v : Nat → Int) (part_alloc : Nat → Int) : Option Int :=
  -- part_sum[MYTHREAD] = 0;
  let part_sum := for_loop 0 THREADS (fun MYTHREAD ps => Function.update ps MYTHREAD 0) part_alloc
  -- upc_forall (i=0; i<size; i++; &v[i])
  let part_sum := upc_forall THREADS 0 size (fun i => i)
    (fun MYTHREAD i ps =>
      Function.update ps MYTHREAD (toInt32 (ps MYTHREAD + toInt32 (v i * v i)))) part_sum
  -- if(MYTHREAD==0) for(i=0;i<THREADS;i++) sum = sum + part_sum[i];
  let sum := for_loop 0 THREADS (fun i sum => toInt32 (sum + part_sum i)) 0
  -- norm = sqrt(sum);
  sqrt_to_int sum

/-- Kernel `int_dmatvec_product`: the vector `y` after the matrix-vector loop; `A` and `x` are the
filled matrix and vector, `y` is the freshly allocated result vector, which no statement
initialises. -/
def int_dmatvec_product (THREADS size : Nat) (A x y : Nat → Int) : Nat → Int :=
  let local_size := size / THREADS
  -- upc_forall(i=0; i<local_size*THREADS; i++; &y[i])
  upc_forall THREADS 0 (local_size * THREADS) (fun i => i)
    (fun _ i y =>
      -- for(j=0; j<local_size*THREADS; j++)
      for_loop 0 (local_size * THREADS) (fun j y =>
        Function.update y i (toInt32 (y i + toInt32 (A (i * local_size * THREADS + j) * x j)))) y)
    y

/-! ## Sparse kernels (`blas_op.c`) -/

/-- The sentinel `ULONG_MAX` of the repetition argument. -/
def ULONG_MAX : Nat := 2 ^ 64 - 1

/-- The vectors of the sparse matrix-vector product. -/
structure SpmvState where
  x : Nat → ℚ
  b : Nat → ℚ

/-- The main algorithm loop of `double_spmatvec_product`: `r` repetitions of
`upc_forall(i=0; i<m-1; i++; i) for(j=row_idx[i]; j<row_idx[i+1]; j++)
   b[i] = b[i] + values[j] * x[col_idx[j]];`
where `m` is the number of row offsets read from the header. -/
def spmv_main_loop (THREADS r m : Nat) (row_idx col_idx : Nat → Nat) (values : Nat → ℚ)
    (s : SpmvState) : SpmvState :=
  for_loop 0 r (fun _ s =>
    upc_forall THREADS 0 (m - 1) (fun i => i)
      (fun _ i s =>
        for_loop (row_idx i) (row_idx (i + 1)) (fun j s =>
          SpmvState.mk s.x (Function.update s.b i (s.b i + values j * s.x (col_idx j)))) s)
      s) s

/-- Kernel `double_spmatvec_product` after ingestion: `x[i] = i + 1.5` and `b[i] = 0` are set once,
then the main loop runs `r` times (1000 times for the sentinel `ULONG_MAX`). -/
def double_spmatvec_product (THREADS r m : Nat) (row_idx col_idx : Nat → Nat)
    (values : Nat → ℚ) (x_alloc b_alloc : Nat → ℚ) : SpmvState :=
  -- if(r==ULONG_MAX) r=1000;
  let r := if r = ULONG_MAX then 1000 else r
  -- upc_forall(i=0; i<m-1; i++;i) { x[i]=i+1.5; b[i] = 0; }
  let s := upc_forall THREADS 0 (m - 1) (fun i => i)
    (fun _ i s => SpmvState.mk (Function.update s.x i ((i : ℚ) + 3 / 2)) (Function.update s.b i 0))
    (SpmvState.mk x_alloc b_alloc)
  spmv_main_loop THREADS r m row_idx col_idx values s

/-- Kernel `float_spmatvec_product` after ingestion (serial code): `x[i] = i + 1.5` is set,
`b` is the block returned by `malloc` and is not initialised, then the multiply loop runs
`r` times (1000 times for the sentinel `ULONG_MAX`). -/
def float_spmatvec_product (r m : Nat) (row_idx col_idx : Nat → Nat) (values : Nat → ℚ)
    (x_alloc b_alloc : Nat → ℚ) : SpmvState :=
  -- if(r==ULONG_MAX) r=1000;
  let r := if r = ULONG_MAX then 1000 else r
  -- for (i=0; i<m-1; i++) x[i]=i+1.5;
  let s := for_loop 0 (m - 1) (fun i s =>
    SpmvState.mk (Function.update s.x i ((i : ℚ) + 3 / 2)) s.b) (SpmvState.mk x_alloc b_alloc)
  -- for(rep=0;rep<r;rep++) for(i=0; i<m-1; i++) for(j=row_idx[i];j<row_idx[i+1];j++)
  --   b[i] = b[i] + values[j]* x[col_idx[j]];
  for_loop 0 r (fun _ s =>
    for_loop 0 (m - 1) (fun i s =>
      for_loop (row_idx i) (row_idx (i + 1)) (fun j s =>
        SpmvState.mk s.x (Function.update s.b i (s.b i + values j * s.x (col_idx j)))) s) s) s

/-- Entry `i` of the product `A x` for `A` in CSR arrays: the sum over the nonzeros `p` of row
`i` of `values[p] * x[col_idx[p]]` (reference notion). -/
def csr_row_dot (row_idx col_idx : Nat → Nat) (values : Nat → ℚ) (x : Nat → ℚ) (i : Nat) : ℚ :=
  ∑ p in Finset.Ico (row_idx i) (row_idx (i + 1)), values p * x (col_idx p)

/-- Element counts of the five buffers of the sparse matrix-vector kernels, as allocated
from the header values `nz`, `n`, `m`. -/
structure SpmvLengths where
  row_idx : Nat
  col_idx : Nat
  values : Nat
  x : Nat
  b : Nat

/-- The allocations of `float_spmatvec_product` and `double_spmatvec_product`:
`row_idx = malloc(m * sizeof(int)); col_idx = malloc(n * sizeof(int));
values = malloc(nz * sizeof(float)); x = malloc((m-1) * sizeof(float));
b = malloc((m-1) * sizeof(float));` (`upc_all_alloc(1, ...)` with the same sizes in the
double version). -/
def spmv_alloc (nz n m : Nat) : SpmvLengths :=
  SpmvLengths.mk m n nz (m - 1) (m - 1)

/-- The arrays filled by the CSR ingestion, the number `pos` of lines consumed by `fgets`
after the header line, and whether every store so far fell inside its buffer. -/
structure SpmvIngest where
  values : Nat → ℚ
  col_idx : Nat → Nat
  row_idx : Nat → Nat
  pos : Nat
  in_bounds : Bool

/-- CSR ingestion of `float_spmatvec_product` and `double_spmatvec_product` after the header
`sscanf(line, "%d %d %d", &nz, &n, &m)`: three loops of `fgets` + `sscanf`.
`line_double p` and `line_int p` are what `sscanf` with `%lf` (`%f`) and with `%d` read from
line `p` after the header. -/
def spmv_ingest (nz n m : Nat) (line_double : Nat → ℚ) (line_int : Nat → Nat)
    (values_alloc : Nat → ℚ) (col_alloc row_alloc : Nat → Nat) : SpmvIngest :=
  let len := spmv_alloc nz n m
  let s := SpmvIngest.mk values_alloc col_alloc row_alloc 0 true
  -- for(i=0;i<nz;i++){ fgets(line, sizeof(line), f); sscanf(line, "%lf", &t_d); values[i] = t_d; }
  let s := for_loop 0 nz (fun i s =>
    SpmvIngest.mk (Function.update s.values i (line_double s.pos)) s.col_idx s.row_idx
      (s.pos + 1) (s.in_bounds && decide (i < len.values))) s
  -- for(i=0;i<nz;i++){ fgets(line, sizeof(line), f); sscanf(line, "%d", &t_i); col_idx[i] = t_i; }
  let s := for_loop 0 nz (fun i s =>
    SpmvIngest.mk s.values (Function.update s.col_idx i (line_int s.pos)) s.row_idx
      (s.pos + 1) (s.in_bounds && decide (i < len.col_idx))) s
  -- for(i=0;i<m;i++){ fgets(line, sizeof(line), f); sscanf(line, "%d", &t_i); row_idx[i] = t_i; }
  for_loop 0 m (fun i s =>
    SpmvIngest.mk s.values s.col_idx (Function.update s.row_idx i (line_int s.pos))
      (s.pos + 1) (s.in_bounds && decide (i < len.row_idx))) s

/-- Element count of each of the buffers `row_csr_idx`, `col_csr_idx`, `A_csr`,
`row_csc_idx`, `col_csc_idx` and `B_csc` of `double_spgemm`: all six are allocated as
`malloc(*nz * sizeof(...))`. -/
def spgemm_alloc (nz : Nat) : Nat := nz

/-- The arrays and counters of the CSR to CSC derivation in `double_spgemm`, with two
records of the indices used so far: `offsets_extent` is one more than the largest index at
which `row_csr_idx` has been read or `col_csc_idx` stored to, and `entries_extent` one more
than the largest index used on `col_csr_idx`, `A_csr`, `B_csc` or `row_csc_idx`. -/
structure CscBuild where
  B_csc : Nat → ℚ
  row_csc_idx : Nat → Nat
  col_csc_idx : Nat → Nat
  count : Nat
  nz_count : Nat
  offsets_extent : Nat
  entries_extent : Nat

/-- Whether every access recorded in the derivation fell inside a buffer of `*nz`
elements. -/
def csc_in_bounds (nz : Nat) (s : CscBuild) : Bool :=
  decide (s.offsets_extent ≤ spgemm_alloc nz) && decide (s.entries_extent ≤ spgemm_alloc nz)

/-- The derivation of `B_csc` from `A_csr` in `double_spgemm` (`m` is the row count, after
`*m = *m - 1`); `count` starts from its initialiser `0`. -/
def csr_to_csc (m : Nat) (row_csr_idx col_csr_idx : Nat → Nat) (A_csr : Nat → ℚ)
    (B_alloc : Nat → ℚ) (row_csc_alloc col_csc_alloc : Nat → Nat) : CscBuild :=
  -- col_csc_idx[0]=0;
  let s0 := CscBuild.mk B_alloc row_csc_alloc (Function.update col_csc_alloc 0 0) 0 0 1 0
  for_loop 0 m (fun i s =>
    -- nz_count=0;
    let s := CscBuild.mk s.B_csc s.row_csc_idx s.col_csc_idx s.count 0 s.offsets_extent
      s.entries_extent
    for_loop 0 m (fun j s =>
      -- for(k=row_csr_idx[j]; k<row_csr_idx[j+1]; k++): the header reads both offsets
      let s := CscBuild.mk s.B_csc s.row_csc_idx s.col_csc_idx s.count s.nz_count
        (max s.offsets_extent (j + 2)) s.entries_extent
      let s := for_loop (row_csr_idx j) (row_csr_idx (j + 1)) (fun k s =>
        let s :=
          if col_csr_idx k = i then
            -- B_csc[count]=A_csr[nz_count]; row_csc_idx[count]=j; count++;
            CscBuild.mk (Function.update s.B_csc s.count (A_csr s.nz_count))
              (Function.update s.row_csc_idx s.count j) s.col_csc_idx (s.count + 1) s.nz_count
              s.offsets_extent
              (max s.entries_extent (max (k + 1) (max (s.nz_count + 1) (s.count + 1))))
          else
            CscBuild.mk s.B_csc s.row_csc_idx s.col_csc_idx s.count s.nz_count
              s.offsets_extent (max s.entries_extent (k + 1))
        -- nz_count++;
        CscBuild.mk s.B_csc s.row_csc_idx s.col_csc_idx s.count (s.nz_count + 1)
          s.offsets_extent s.entries_extent) s
      -- col_csc_idx[i+1]=count;
      CscBuild.mk s.B_csc s.row_csc_idx (Function.update s.col_csc_idx (i + 1) s.count)
        s.count s.nz_count (max s.offsets_extent (i + 2)) s.entries_extent) s) s0

/-- Body of the `k` loop of the CSC derivation (column `i`, row `j`, nonzero `k`). -/
def csc_scan_entry (col_csr_idx : Nat → Nat) (A_csr : Nat → ℚ) (i j k : Nat) (s : CscBuild) :
    CscBuild :=
  let s :=
    if col_csr_idx k = i then
      CscBuild.mk (Function.update s.B_csc s.count (A_csr s.nz_count))
        (Function.update s.row_csc_idx s.count j) s.col_csc_idx (s.count + 1) s.nz_count
        s.offsets_extent
        (max s.entries_extent (max (k + 1) (max (s.nz_count + 1) (s.count + 1))))
    else
      CscBuild.mk s.B_csc s.row_csc_idx s.col_csc_idx s.count s.nz_count
        s.offsets_extent (max s.entries_extent (k + 1))
  CscBuild.mk s.B_csc s.row_csc_idx s.col_csc_idx s.count (s.nz_count + 1)
    s.offsets_extent s.entries_extent

/-- Body of the `j` loop of the CSC derivation: the `k` loop over row `j`, then
`col_csc_idx[i+1]=count;`. -/
def csc_scan_row (row_csr_idx col_csr_idx : Nat → Nat) (A_csr : Nat → ℚ) (i j : Nat)
    (s : CscBuild) : CscBuild :=
  let s := CscBuild.mk s.B_csc s.row_csc_idx s.col_csc_idx s.count s.nz_count
    (max s.offsets_extent (j + 2)) s.entries_extent
  let s := for_loop (row_csr_idx j) (row_csr_idx (j + 1)) (csc_scan_entry col_csr_idx A_csr i j) s
  CscBuild.mk s.B_csc s.row_csc_idx (Function.update s.col_csc_idx (i + 1) s.count)
    s.count s.nz_count (max s.offsets_extent (i + 2)) s.entries_extent

/-- Body of the `i` loop of the CSC derivation: `nz_count=0;`, then the `j` loop over all
rows. -/
def csc_scan_column (m : Nat) (row_csr_idx col_csr_idx : Nat → Nat) (A_csr : Nat → ℚ) (i : Nat)
    (s : CscBuild) : CscBuild :=
  for_loop 0 m (csc_scan_row row_csr_idx col_csr_idx A_csr i)
    (CscBuild.mk s.B_csc s.row_csc_idx s.col_csc_idx s.count 0 s.offsets_extent
      s.entries_extent)

/-- The CSR nonzeros of row `j` that lie in column `c`, in storage order, as
`(row, value)` pairs; `lo` is the first nonzero of the row and `n` their number. -/
def csr_row_column (col_idx : Nat → Nat) (values : Nat → ℚ) (c j lo n : Nat) : List (Nat × ℚ) :=
  (((List.range n).map (fun d => lo + d)).filter (fun k => decide (col_idx k = c))).map
    (fun k => (j, values k))

/-- The CSR nonzeros whose column index is `c`, row by row in storage order, as
`(row, value)` pairs (reference notion). -/
def csr_column (m : Nat) (row_idx col_idx : Nat → Nat) (values : Nat → ℚ) (c : Nat) :
    List (Nat × ℚ) :=
  (List.range m).flatMap (fun j =>
    csr_row_column col_idx values c j (row_idx j) (row_idx (j + 1) - row_idx j))

/-- The entries `k` in `[col_csc_idx[c], col_csc_idx[c+1])` of CSC arrays, in storage order,
as `(row, value)` pairs (reference notion). -/
def csc_column (csc : CscBuild) (c : Nat) : List (Nat × ℚ) :=
  (List.range (csc.col_csc_idx (c + 1) - csc.col_csc_idx c)).map (fun d =>
    (csc.row_csc_idx (csc.col_csc_idx c + d), csc.B_csc (csc.col_csc_idx c + d)))

/-- The first `L.length` entries of the CSC arrays under construction are the pairs of the
list `L`, and `count` is their number. -/
def CscHolds (s : CscBuild) (L : List (Nat × ℚ)) : Prop :=
  s.count = L.length ∧ ∀ p, p < L.length → L[p]? = some (s.row_csc_idx p, s.B_csc p)

/-- One repetition of the multiply loop of `double_spgemm`; `temp_alloc j` is the content of
the block that `malloc` returns for the temporary column vector of column `j`. -/
def spgemm_rep (m n : Nat) (row_csr_idx col_csr_idx : Nat → Nat) (A_csr : Nat → ℚ)
    (csc : CscBuild) (temp_alloc : Nat → Nat → ℚ) (C : Nat → ℚ) : Nat → ℚ :=
  for_loop 0 n (fun j C =>
    -- double *temp_vec = malloc(*nz * sizeof(double));
    let temp_vec := temp_alloc j
    -- for(k = col_csc_idx[j]; k < col_csc_idx[j+1]; k++) temp_vec[row_csc_idx[k]]=B_csc[k];
    let temp_vec := for_loop (csc.col_csc_idx j) (csc.col_csc_idx (j + 1)) (fun k t =>
      Function.update t (csc.row_csc_idx k) (csc.B_csc k)) temp_vec
    for_loop 0 m (fun i C =>
      for_loop (row_csr_idx i) (row_csr_idx (i + 1)) (fun k C =>
        Function.update C (j + i * m) (C (j + i * m) + A_csr k * temp_vec (col_csr_idx k))) C)
      C) C

/-- Kernel `double_spgemm` after ingestion: `m_hdr` is the number of row offsets of the header, the
matrix has `m_hdr - 1` rows and columns, `C` comes zeroed from `calloc`, and the multiply
loop runs `r` times (100 times for the sentinel); `temp_alloc rep j` is the content of the
temporary block allocated for column `j` in repetition `rep`. -/
def double_spgemm (r m_hdr : Nat) (row_csr_idx col_csr_idx : Nat → Nat) (A_csr : Nat → ℚ)
    (B_alloc : Nat → ℚ) (row_csc_alloc col_csc_alloc : Nat → Nat)
    (temp_alloc : Nat → Nat → Nat → ℚ) : Nat → ℚ :=
  -- if(r==ULONG_MAX) r=100;
  let r := if r = ULONG_MAX then 100 else r
  -- *m = *m - 1; *n = *m;
  let m := m_hdr - 1
  let n := m
  let csc := csr_to_csc m row_csr_idx col_csr_idx A_csr B_alloc row_csc_alloc col_csc_alloc
  for_loop 0 r (fun rep C =>
    spgemm_rep m n row_csr_idx col_csr_idx A_csr csc (temp_alloc rep) C) (fun _ => 0)

/-- Dense entry `(i, k)` of the matrix stored in CSR arrays (reference notion used to state
the product). -/
def csr_entry (row_idx col_idx : Nat → Nat) (values : Nat → ℚ) (i k : Nat) : ℚ :=
  ∑ p in Finset.Ico (row_idx i) (row_idx (i + 1)), if col_idx p = k then values p else 0

/-- Dense entry `(k, j)` of the matrix stored in CSC arrays (reference notion used to state
the product). -/
def csc_entry (csc : CscBuild) (k j : Nat) : ℚ :=
  ∑ p in Finset.Ico (csc.col_csc_idx j) (csc.col_csc_idx (j + 1)),
    if csc.row_csc_idx p = k then csc.B_csc p else 0

/-! ## Stencil kernels (`stencil.c`)

`n = size - 2` is the interior width; for `size < 2` the C value is negative and the loops
`for (i = 1; i < n+1; i++)` are empty, as they are for the truncated natural `size - 2 = 0`. -/

/-- Number of sweeps, `#define REPS 100`. -/
def REPS : Nat := 100

/-- The two work buffers, with halos: `a0` (current) and `a1` (next). -/
structure Grid where
  a0 : Nat → ℚ
  a1 : Nat → ℚ

/-- What a stencil kernel did: whether the allocation error was reported, and the buffers
after the zeroing, seeding and sweeps it executed (`none` if it returned before touching
them). -/
structure StencilRun where
  error_reported : Bool
  swept : Option Grid

/-- Kernel `stencil27`: zeroing of `a0` and seeding of its interior; `rnd t c` is the pseudo-random
value thread `t` draws for the cell of linear index `c`. -/
def stencil27_init (THREADS size : Nat) (rnd : Nat → Nat → ℚ) (g : Grid) : Grid :=
  let n := size - 2
  let size3d := size * size * size
  let size2d := size * size
  -- upc_forall (i = 0; i < size3d; i++; &a0[i]) a0[i] = 0.0;
  let g := upc_forall THREADS 0 size3d (fun i => i)
    (fun _ i g => Grid.mk (Function.update g.a0 i 0) g.a1) g
  -- for (i = 1; i < n+1; i++) for j, for k: a0[...] = rand()/(1.0 + RAND_MAX)   (every thread)
  for_loop 0 THREADS (fun MYTHREAD g =>
    for_loop 1 (n + 1) (fun i g =>
      for_loop 1 (n + 1) (fun j g =>
        for_loop 1 (n + 1) (fun k g =>
          Grid.mk (Function.update g.a0 (i * size2d + j * size + k)
            (rnd MYTHREAD (i * size2d + j * size + k))) g.a1) g) g) g) g

/-- Kernel `stencil27`: the compute phase of one sweep. -/
def stencil27_compute (THREADS size : Nat) (g : Grid) : Grid :=
  let n := size - 2
  let size2d := size * size
  let fac : ℚ := 1 / 26
  -- upc_forall (i = 1; i < n+1; i++; i)
  upc_forall THREADS 1 (n + 1) (fun i => i) (fun _ i g =>
    for_loop 1 (n + 1) (fun j g =>
      for_loop 1 (n + 1) (fun k g =>
        Grid.mk g.a0 (Function.update g.a1 (i * size2d + j * size + k) ((
          g.a0 (i * size2d + (j - 1) * size + k) + g.a0 (i * size2d + (j + 1) * size + k) +
          g.a0 ((i - 1) * size2d + j * size + k) + g.a0 ((i + 1) * size2d + j * size + k) +
          g.a0 ((i - 1) * size2d + (j - 1) * size + k) + g.a0 ((i - 1) * size2d + (j + 1) * size + k) +
          g.a0 ((i + 1) * size2d + (j - 1) * size + k) + g.a0 ((i + 1) * size2d + (j + 1) * size + k) +
          g.a0 (i * size2d + (j - 1) * size + (k - 1)) + g.a0 (i * size2d + (j + 1) * size + (k - 1)) +
          g.a0 ((i - 1) * size2d + j * size + (k - 1)) + g.a0 ((i + 1) * size2d + j * size + (k - 1)) +
          g.a0 ((i - 1) * size2d + (j - 1) * size + (k - 1)) + g.a0 ((i - 1) * size2d + (j + 1) * size + (k - 1)) +
          g.a0 ((i + 1) * size2d + (j - 1) * size + (k - 1)) + g.a0 ((i + 1) * size2d + (j + 1) * size + (k - 1)) +
          g.a0 (i * size2d + (j - 1) * size + (k + 1)) + g.a0 (i * size2d + (j + 1) * size + (k + 1)) +
          g.a0 ((i - 1) * size2d + j * size + (k + 1)) + g.a0 ((i + 1) * size2d + j * size + (k + 1)) +
          g.a0 ((i - 1) * size2d + (j - 1) * size + (k + 1)) + g.a0 ((i - 1) * size2d + (j + 1) * size + (k + 1)) +
          g.a0 ((i + 1) * size2d + (j - 1) * size + (k + 1)) + g.a0 ((i + 1) * size2d + (j + 1) * size + (k + 1)) +
          g.a0 (i * size2d + j * size + (k - 1)) + g.a0 (i * size2d + j * size + (k + 1))
          ) * fac))) g) g) g

/-- Kernel `stencil27`: the copy phase of one sweep. -/
def stencil27_copy (THREADS size : Nat) (g : Grid) : Grid :=
  let n := size - 2
  let size2d := size * size
  -- upc_forall (i = 1; i < n+1; i++; i)
  upc_forall THREADS 1 (n + 1) (fun i => i) (fun _ i g =>
    for_loop 1 (n + 1) (fun j g =>
      for_loop 1 (n + 1) (fun k g =>
        Grid.mk (Function.update g.a0 (i * size2d + j * size + k)
          (g.a1 (i * size2d + j * size + k))) g.a1) g) g) g

/-- Kernel `stencil27`: initialisation followed by `sweeps` iterations of the main loop. -/
def stencil27_run (THREADS size sweeps : Nat) (rnd : Nat → Nat → ℚ) (g : Grid) : Grid :=
  for_loop 0 sweeps (fun _ g => stencil27_copy THREADS size (stencil27_compute THREADS size g))
    (stencil27_init THREADS size rnd g)

/-- Kernel `stencil27`: the whole kernel.  `a0_null`, `a1_null` tell whether `upc_all_alloc` returned
`NULL`; the test `if(a0==NULL||a1==NULL)` guards only the error message, and the function
goes on to the zeroing, the seeding and the `REPS` sweeps. -/
def stencil27 (THREADS size : Nat) (a0_null a1_null : Bool) (rnd : Nat → Nat → ℚ) (g : Grid) :
    StencilRun :=
  StencilRun.mk (a0_null || a1_null) (some (stencil27_run THREADS size REPS rnd g))

/-- Kernel `stencil19`: zeroing of `a0` and seeding of its interior; `rnd t c` is the pseudo-random
value thread `t` draws for the cell of linear index `c`. -/
def stencil19_init (THREADS size : Nat) (rnd : Nat → Nat → ℚ) (g : Grid) : Grid :=
  let n := size - 2
  let size3d := size * size * size
  let size2d := size * size
  -- upc_forall (i = 0; i < size3d; i++; &a0[i]) a0[i] = 0.0;
  let g := upc_forall THREADS 0 size3d (fun i => i)
    (fun _ i g => Grid.mk (Function.update g.a0 i 0) g.a1) g
  -- upc_forall (i = 1; i < n+1; i++; &a0[i]) for j, for k: a0[...] = rand()/(1.0 + RAND_MAX)
  upc_forall THREADS 1 (n + 1) (fun i => i) (fun MYTHREAD i g =>
    for_loop 1 (n + 1) (fun j g =>
      for_loop 1 (n + 1) (fun k g =>
        Grid.mk (Function.update g.a0 (i * size2d + j * size + k)
          (rnd MYTHREAD (i * size2d + j * size + k))) g.a1) g) g) g

/-- Kernel `stencil19`: the compute phase of one sweep. -/
def stencil19_compute (THREADS size : Nat) (g : Grid) : Grid :=
  let n := size - 2
  let size2d := size * size
  let fac : ℚ := 1 / 18
  -- upc_forall (i = 1; i < n+1; i++; i)
  upc_forall THREADS 1 (n + 1) (fun i => i) (fun _ i g =>
    for_loop 1 (n + 1) (fun j g =>
      for_loop 1 (n + 1) (fun k g =>
        Grid.mk g.a0 (Function.update g.a1 (i * size2d + j * size + k) ((
          g.a0 (i * size2d + (j - 1) * size + k) + g.a0 (i * size2d + (j + 1) * size + k) +
          g.a0 ((i - 1) * size2d + j * size + k) + g.a0 ((i + 1) * size2d + j * size + k) +
          g.a0 ((i - 1) * size2d + (j - 1) * size + k) + g.a0 ((i - 1) * size2d + (j + 1) * size + k) +
          g.a0 ((i + 1) * size2d + (j - 1) * size + k) + g.a0 ((i + 1) * size2d + (j + 1) * size + k) +
          g.a0 (i * size2d + (j - 1) * size + (k - 1)) + g.a0 (i * size2d + (j + 1) * size + (k - 1)) +
          g.a0 ((i - 1) * size2d + j * size + (k - 1)) + g.a0 ((i + 1) * size2d + j * size + (k - 1)) +
          g.a0 (i * size2d + (j - 1) * size + (k + 1)) + g.a0 (i * size2d + (j + 1) * size + (k + 1)) +
          g.a0 ((i - 1) * size2d + j * size + (k + 1)) + g.a0 ((i + 1) * size2d + j * size + (k + 1)) +
          g.a0 (i * size2d + j * size + (k - 1)) + g.a0 (i * size2d + j * size + (k + 1))
          ) * fac))) g) g) g

/-- Kernel `stencil19`: the copy phase of one sweep. -/
def stencil19_copy (THREADS size : Nat) (g : Grid) : Grid :=
  let n := size - 2
  let size2d := size * size
  -- upc_forall (i = 1; i < n+1; i++; i)
  upc_forall THREADS 1 (n + 1) (fun i => i) (fun _ i g =>
    for_loop 1 (n + 1) (fun j g =>
      for_loop 1 (n + 1) (fun k g =>
        Grid.mk (Function.update g.a0 (i * size2d + j * size + k)
          (g.a1 (i * size2d + j * size + k))) g.a1) g) g) g

/-- Kernel `stencil19`: initialisation followed by `sweeps` iterations of the main loop. -/
def stencil19_run (THREADS size sweeps : Nat) (rnd : Nat → Nat → ℚ) (g : Grid) : Grid :=
  for_loop 0 sweeps (fun _ g => stencil19_copy THREADS size (stencil19_compute THREADS size g))
    (stencil19_init THREADS size rnd g)

/-- Kernel `stencil19`: the whole kernel.  `a0_null`, `a1_null` tell whether `upc_all_alloc` returned
`NULL`; the test `if(a0==NULL||a1==NULL)` guards only the error message, and the function
goes on to the zeroing, the seeding and the `REPS` sweeps. -/
def stencil19 (THREADS size : Nat) (a0_null a1_null : Bool) (rnd : Nat → Nat → ℚ) (g : Grid) :
    StencilRun :=
  StencilRun.mk (a0_null || a1_null) (some (stencil19_run THREADS size REPS rnd g))

/-- Kernel `stencil9`: zeroing of `a0` and seeding of its interior. -/
def stencil9_init (THREADS size : Nat) (rnd : Nat → Nat → ℚ) (g : Grid) : Grid :=
  let n := size - 2
  let array_size := size * size
  -- upc_forall (i = 0; i < array_size; i++; &a0[i]) a0[i] = 0.0;
  let g := upc_forall THREADS 0 array_size (fun i => i)
    (fun _ i g => Grid.mk (Function.update g.a0 i 0) g.a1) g
  -- upc_forall (i = 1; i < n+1; i++; &a0[i]) for j: a0[i*size+j] = rand()/(1.0 + RAND_MAX)
  upc_forall THREADS 1 (n + 1) (fun i => i) (fun MYTHREAD i g =>
    for_loop 1 (n + 1) (fun j g =>
      Grid.mk (Function.update g.a0 (i * size + j) (rnd MYTHREAD (i * size + j))) g.a1) g) g

/-- Kernel `stencil9`: the compute phase of one sweep. -/
def stencil9_compute (THREADS size : Nat) (g : Grid) : Grid :=
  let n := size - 2
  let fac : ℚ := 1 / 8
  -- upc_forall (i = 1; i < n+1; i++; &a0[i*size+i])
  upc_forall THREADS 1 (n + 1) (fun i => i * size + i) (fun _ i g =>
    for_loop 1 (n + 1) (fun j g =>
      Grid.mk g.a0 (Function.update g.a1 (i * size + j) ((
        g.a0 (i * size + (j - 1)) + g.a0 (i * size + (j + 1)) +
        g.a0 ((i - 1) * size + j) + g.a0 ((i + 1) * size + j) +
        g.a0 ((i - 1) * size + (j - 1)) + g.a0 ((i - 1) * size + (j + 1)) +
        g.a0 ((i + 1) * size + (j - 1)) + g.a0 ((i + 1) * size + (j + 1))
        ) * fac))) g) g

/-- Kernel `stencil9`: the copy phase of one sweep. -/
def stencil9_copy (THREADS size : Nat) (g : Grid) : Grid :=
  let n := size - 2
  -- upc_forall (i = 1; i < n+1; i++; &a0[i*size+i])
  upc_forall THREADS 1 (n + 1) (fun i => i * size + i) (fun _ i g =>
    for_loop 1 (n + 1) (fun j g =>
      Grid.mk (Function.update g.a0 (i * size + j) (g.a1 (i * size + j))) g.a1) g) g

/-- Kernel `stencil9`: initialisation followed by `sweeps` iterations of the main loop. -/
def stencil9_run (THREADS size sweeps : Nat) (rnd : Nat → Nat → ℚ) (g : Grid) : Grid :=
  for_loop 0 sweeps (fun _ g => stencil9_copy THREADS size (stencil9_compute THREADS size g))
    (stencil9_init THREADS size rnd g)

/-- Kernel `stencil9`: the whole kernel.  `a0_null`, `a1_null` tell whether `upc_all_alloc` returned
`NULL`; the test `if(a0==NULL||a1==NULL)` guards only the error message, and the function
goes on to the zeroing, the seeding and the `REPS` sweeps. -/
def stencil9 (THREADS size : Nat) (a0_null a1_null : Bool) (rnd : Nat → Nat → ℚ) (g : Grid) :
    StencilRun :=
  StencilRun.mk (a0_null || a1_null) (some (stencil9_run THREADS size REPS rnd g))

/-- Kernel `stencil5`: zeroing of `a0` and seeding of its interior. -/
def stencil5_init (THREADS size : Nat) (rnd : Nat → Nat → ℚ) (g : Grid) : Grid :=
  let n := size - 2
  let array_size := size * size
  -- upc_forall (i = 0; i < array_size; i++; &a0[i]) a0[i] = 0.0;
  let g := upc_forall THREADS 0 array_size (fun i => i)
    (fun _ i g => Grid.mk (Function.update g.a0 i 0) g.a1) g
  -- upc_forall (i = 1; i < n+1; i++; &a0[i]) for j: a0[i*size+j] = rand()/(1.0 + RAND_MAX)
  upc_forall THREADS 1 (n + 1) (fun i => i) (fun MYTHREAD i g =>
    for_loop 1 (n + 1) (fun j g =>
      Grid.mk (Function.update g.a0 (i * size + j) (rnd MYTHREAD (i * size + j))) g.a1) g) g

/-- Kernel `stencil5`: the compute phase of one sweep. -/
def stencil5_compute (THREADS size : Nat) (g : Grid) : Grid :=
  let n := size - 2
  let fac : ℚ := 1 / 8
  -- upc_forall (i = 1; i < n+1; i++; &a1[i*size+i])
  upc_forall THREADS 1 (n + 1) (fun i => i * size + i) (fun _ i g =>
    for_loop 1 (n + 1) (fun j g =>
      Grid.mk g.a0 (Function.update g.a1 (i * size + j) ((
        g.a0 (i * size + (j - 1)) + g.a0 (i * size + (j + 1)) +
        g.a0 ((i - 1) * size + j) + g.a0 ((i + 1) * size + j)
        ) * fac))) g) g

/-- Kernel `stencil5`: the copy phase of one sweep. -/
def stencil5_copy (THREADS size : Nat) (g : Grid) : Grid :=
  let n := size - 2
  -- upc_forall (i = 1; i < n+1; i++; &a0[i*size+i])
  upc_forall THREADS 1 (n + 1) (fun i => i * size + i) (fun _ i g =>
    for_loop 1 (n + 1) (fun j g =>
      Grid.mk (Function.update g.a0 (i * size + j) (g.a1 (i * size + j))) g.a1) g) g

/-- Kernel `stencil5`: initialisation followed by `sweeps` iterations of the main loop. -/
def stencil5_run (THREADS size sweeps : Nat) (rnd : Nat → Nat → ℚ) (g : Grid) : Grid :=
  for_loop 0 sweeps (fun _ g => stencil5_copy THREADS size (stencil5_compute THREADS size g))
    (stencil5_init THREADS size rnd g)

/-- Kernel `stencil5`: the whole kernel.  `a0_null`, `a1_null` tell whether `upc_all_alloc` returned
`NULL`; the test `if(a0==NULL||a1==NULL)` guards only the error message, and the function
goes on to the zeroing, the seeding and the `REPS` sweeps. -/
def stencil5 (THREADS size : Nat) (a0_null a1_null : Bool) (rnd : Nat → Nat → ℚ) (g : Grid) :
    StencilRun :=
  StencilRun.mk (a0_null || a1_null) (some (stencil5_run THREADS size REPS rnd g))

/-! ## Distribution of the dense kernels -/

/-- The declaration `int local_size = size / THREADS;` of the dense kernels. -/
def local_size (THREADS size : Nat) : Nat := size / THREADS

/-- Thread with affinity to element `i` of an array declared `shared T *` (block size one,
as all distributed arrays of the dense and stencil kernels are): the elements are dealt out
to the threads cyclically. -/
def upc_threadof (THREADS i : Nat) : Nat := i % THREADS

/-- Execution schedule of `upc_forall (i = lo; i < hi; i++; aff)`: the pairs `(MYTHREAD, i)`
for which the body is executed, in execution order. -/
def upc_forall_schedule (THREADS lo hi : Nat) (aff : Nat → Nat) : List (Nat × Nat) :=
  upc_forall THREADS lo hi aff (fun MYTHREAD i log => log ++ [(MYTHREAD, i)]) []

/-- The vector of `int_scalar_mult`, with the record of the executed stores `v[i] = ...` as
pairs `(MYTHREAD, i)`. -/
structure ScalarMultState where
  v : Nat → Int
  updates : List (Nat × Nat)

/-- Kernel `int_scalar_mult`: the vector after the loop
`upc_forall(i=0; i<local_size*THREADS; i++; &v[i]) v[i] = a * v[i];` where `a` is an
`unsigned int` and `v[i]` an `int` (the product is formed in `unsigned int` and converted
back on the store). -/
def int_scalar_mult (THREADS size : Nat) (a : Int) (v : Nat → Int) : ScalarMultState :=
  upc_forall THREADS 0 (local_size THREADS size * THREADS) (fun i => i)
    (fun MYTHREAD i s =>
      ScalarMultState.mk
        (Function.update s.v i (toInt32 (toUInt32 (a * toUInt32 (s.v i)))))
        (s.updates ++ [(MYTHREAD, i)]))
    (ScalarMultState.mk v [])

/-- The fill loop of `int_scalar_mult`, run by thread 0 on the freshly allocated `v`:
`for(i=0; i<local_size*THREADS; i++){ v[i] = KISS; }`, with the record of the executed
stores as pairs `(MYTHREAD, i)`; `kiss k` is the value stored from the `k`-th evaluation
of the generator `KISS`. -/
def int_scalar_mult_fill (THREADS size : Nat) (kiss : Nat → Int) (v_alloc : Nat → Int) :
    ScalarMultState :=
  for_loop 0 (local_size THREADS size * THREADS) (fun i s =>
    ScalarMultState.mk (Function.update s.v i (kiss i)) (s.updates ++ [(0, i)]))
    (ScalarMultState.mk v_alloc [])

/-- The two vectors of `int_dot_product` while thread 0 fills them, with the record of the
executed pairs of stores `v1[i] = ...; v2[i] = ...;` as pairs `(MYTHREAD, i)`. -/
structure DotFillState where
  v1 : Nat → Int
  v2 : Nat → Int
  updates : List (Nat × Nat)

/-- The fill loop of `int_dot_product`, run by thread 0 on the freshly allocated vectors:
`for(i=0; i<local_size*THREADS; i++){ v1[i] = KISS; v2[i] = KISS; }`; `kiss k` is the
value stored from the `k`-th evaluation of the generator `KISS`. -/
def int_dot_product_fill (THREADS size : Nat) (kiss : Nat → Int)
    (v1_alloc v2_alloc : Nat → Int) : DotFillState :=
  let local_size := size / THREADS
  for_loop 0 (local_size * THREADS) (fun i s =>
    DotFillState.mk (Function.update s.v1 i (kiss (2 * i)))
      (Function.update s.v2 i (kiss (2 * i + 1))) (s.updates ++ [(0, i)]))
    (DotFillState.mk v1_alloc v2_alloc [])

/-- The pairs `(MYTHREAD, i)` for which the loop
`upc_forall(i=0; i<local_size*THREADS; i++; &v1[i])` of `int_dot_product` executes its
body, in execution order. -/
def int_dot_product_visits (THREADS size : Nat) : List (Nat × Nat) :=
  let local_size := size / THREADS
  upc_forall_schedule THREADS 0 (local_size * THREADS) (fun i => i)

/-- The main loop `for (iter = 0; iter < sweeps; iter++)` of `stencil27`, started on the
buffers `g`: each iteration is a compute phase followed by a copy phase. -/
def stencil27_sweeps (THREADS size sweeps : Nat) (g : Grid) : Grid :=
  for_loop 0 sweeps (fun _ g => stencil27_copy THREADS size (stencil27_compute THREADS size g)) g

/-- The main loop `for (iter = 0; iter < sweeps; iter++)` of `stencil19`, started on the
buffers `g`: each iteration is a compute phase followed by a copy phase. -/
def stencil19_sweeps (THREADS size sweeps : Nat) (g : Grid) : Grid :=
  for_loop 0 sweeps (fun _ g => stencil19_copy THREADS size (stencil19_compute THREADS size g)) g

/-- The main loop `for (iter = 0; iter < sweeps; iter++)` of `stencil9`, started on the
buffers `g`: each iteration is a compute phase followed by a copy phase. -/
def stencil9_sweeps (THREADS size sweeps : Nat) (g : Grid) : Grid :=
  for_loop 0 sweeps (fun _ g => stencil9_copy THREADS size (stencil9_compute THREADS size g)) g

/-- The main loop `for (iter = 0; iter < sweeps; iter++)` of `stencil5`, started on the
buffers `g`: each iteration is a compute phase followed by a copy phase. -/
def stencil5_sweeps (THREADS size sweeps : Nat) (g : Grid) : Grid :=
  for_loop 0 sweeps (fun _ g => stencil5_copy THREADS size (stencil5_compute THREADS size g)) g

/-- The stores of one phase of a `stencil27` sweep as pairs `(MYTHREAD, linear index)`, in
execution order.  The compute phase (stores to `a1`) and the copy phase (stores to `a0`) have
the same loop nest `upc_forall (i = 1; i < n+1; i++; i)`, `for j`, `for k` and the same
store index `i*size2d+j*size+k`. -/
def stencil27_writes (THREADS size : Nat) : List (Nat × Nat) :=
  let n := size - 2
  let size2d := size * size
  upc_forall THREADS 1 (n + 1) (fun i => i) (fun MYTHREAD i log =>
    for_loop 1 (n + 1) (fun j log =>
      for_loop 1 (n + 1) (fun k log =>
        log ++ [(MYTHREAD, i * size2d + j * size + k)]) log) log) []

/-- The stores of one phase of a `stencil19` sweep as pairs `(MYTHREAD, linear index)`, in
execution order.  The compute phase (stores to `a1`) and the copy phase (stores to `a0`) have
the same loop nest `upc_forall (i = 1; i < n+1; i++; i)`, `for j`, `for k` and the same
store index `i*size2d+j*size+k`. -/
def stencil19_writes (THREADS size : Nat) : List (Nat × Nat) :=
  let n := size - 2
  let size2d := size * size
  upc_forall THREADS 1 (n + 1) (fun i => i) (fun MYTHREAD i log =>
    for_loop 1 (n + 1) (fun j log =>
      for_loop 1 (n + 1) (fun k log =>
        log ++ [(MYTHREAD, i * size2d + j * size + k)]) log) log) []

/-- The stores of one phase of a `stencil9` sweep as pairs `(MYTHREAD, linear index)`, in
execution order.  The compute phase (stores to `a1`) and the copy phase (stores to `a0`) have
the same loop nest `upc_forall (i = 1; i < n+1; i++; ...)`, `for j`, the same store index
`i*size+j` and the same affinity: &a0[i*size+i]. -/
def stencil9_writes (THREADS size : Nat) : List (Nat × Nat) :=
  let n := size - 2
  upc_forall THREADS 1 (n + 1) (fun i => i * size + i) (fun MYTHREAD i log =>
    for_loop 1 (n + 1) (fun j log =>
      log ++ [(MYTHREAD, i * size + j)]) log) []

/-- The stores of one phase of a `stencil5` sweep as pairs `(MYTHREAD, linear index)`, in
execution order.  The compute phase (stores to `a1`) and the copy phase (stores to `a0`) have
the same loop nest `upc_forall (i = 1; i < n+1; i++; ...)`, `for j`, the same store index
`i*size+j` and the same affinity: &a1[i*size+i] in the compute phase, &a0[i*size+i] in the copy phase. -/
def stencil5_writes (THREADS size : Nat) : List (Nat × Nat) :=
  let n := size - 2
  upc_forall THREADS 1 (n + 1) (fun i => i * size + i) (fun MYTHREAD i log =>
    for_loop 1 (n + 1) (fun j log =>
      log ++ [(MYTHREAD, i * size + j)]) log) []

/-- The indices of `a0` that the compute phase of `stencil27` reads for the cell `(i,j,k)`,
in the order of the source expression. -/
def stencil27_reads (size i j k : Nat) : List Nat :=
  [i * (size * size) + (j - 1) * size + k,
   i * (size * size) + (j + 1) * size + k,
   (i - 1) * (size * size) + j * size + k,
   (i + 1) * (size * size) + j * size + k,
   (i - 1) * (size * size) + (j - 1) * size + k,
   (i - 1) * (size * size) + (j + 1) * size + k,
   (i + 1) * (size * size) + (j - 1) * size + k,
   (i + 1) * (size * size) + (j + 1) * size + k,
   i * (size * size) + (j - 1) * size + (k - 1),
   i * (size * size) + (j + 1) * size + (k - 1),
   (i - 1) * (size * size) + j * size + (k - 1),
   (i + 1) * (size * size) + j * size + (k - 1),
   (i - 1) * (size * size) + (j - 1) * size + (k - 1),
   (i - 1) * (size * size) + (j + 1) * size + (k - 1),
   (i + 1) * (size * size) + (j - 1) * size + (k - 1),
   (i + 1) * (size * size) + (j + 1) * size + (k - 1),
   i * (size * size) + (j - 1) * size + (k + 1),
   i * (size * size) + (j + 1) * size + (k + 1),
   (i - 1) * (size * size) + j * size + (k + 1),
   (i + 1) * (size * size) + j * size + (k + 1),
   (i - 1) * (size * size) + (j - 1) * size + (k + 1),
   (i - 1) * (size * size) + (j + 1) * size + (k + 1),
   (i + 1) * (size * size) + (j - 1) * size + (k + 1),
   (i + 1) * (size * size) + (j + 1) * size + (k + 1),
   i * (size * size) + j * size + (k - 1),
   i * (size * size) + j * size + (k + 1)]

/-- The indices of `a0` that the compute phase of `stencil19` reads for the cell `(i,j,k)`,
in the order of the source expression. -/
def stencil19_reads (size i j k : Nat) : List Nat :=
  [i * (size * size) + (j - 1) * size + k,
   i * (size * size) + (j + 1) * size + k,
   (i - 1) * (size * size) + j * size + k,
   (i + 1) * (size * size) + j * size + k,
   (i - 1) * (size * size) + (j - 1) * size + k,
   (i - 1) * (size * size) + (j + 1) * size + k,
   (i + 1) * (size * size) + (j - 1) * size + k,
   (i + 1) * (size * size) + (j + 1) * size + k,
   i * (size * size) + (j - 1) * size + (k - 1),
   i * (size * size) + (j + 1) * size + (k - 1),
   (i - 1) * (size * size) + j * size + (k - 1),
   (i + 1) * (size * size) + j * size + (k - 1),
   i * (size * size) + (j - 1) * size + (k + 1),
   i * (size * size) + (j + 1) * size + (k + 1),
   (i - 1) * (size * size) + j * size + (k + 1),
   (i + 1) * (size * size) + j * size + (k + 1),
   i * (size * size) + j * size + (k - 1),
   i * (size * size) + j * size + (k + 1)]

/-- The indices of `a0` that the compute phase of `stencil9` reads for the cell `(i,j)`,
in the order of the source expression. -/
def stencil9_reads (size i j : Nat) : List Nat :=
  [i * size + (j - 1),
   i * size + (j + 1),
   (i - 1) * size + j,
   (i + 1) * size + j,
   (i - 1) * size + (j - 1),
   (i - 1) * size + (j + 1),
   (i + 1) * size + (j - 1),
   (i + 1) * size + (j + 1)]

/-- The indices of `a0` that the compute phase of `stencil5` reads for the cell `(i,j)`,
in the order of the source expression. -/
def stencil5_reads (size i j : Nat) : List Nat :=
  [i * size + (j - 1),
   i * size + (j + 1),
   (i - 1) * size + j,
   (i + 1) * size + j]

/-- All halo cells of a planar `size × size` buffer are zero. -/
def HaloZero2 (size : Nat) (a : Nat → ℚ) : Prop :=
  ∀ i j, i < size → j < size → (i = 0 ∨ i = size - 1 ∨ j = 0 ∨ j = size - 1) →
    a (i * size + j) = 0

/-- All halo cells of a cubic `size × size × size` buffer are zero. -/
def HaloZero3 (size : Nat) (a : Nat → ℚ) : Prop :=
  ∀ i j k, i < size → j < size → k < size →
    (i = 0 ∨ i = size - 1 ∨ j = 0 ∨ j = size - 1 ∨ k = 0 ∨ k = size - 1) →
    a (i * (size * size) + j * size + k) = 0

/-! ## Loop lemmas -/

theorem for_loop_zero {σ : Type} (lo hi : Nat) (h : hi ≤ lo) (body : Nat → σ → σ) (s : σ) :
    for_loop lo hi body s = s := by
  unfold for_loop
  rw [Nat.sub_eq_zero_of_le h]
  rfl

theorem for_loop_succ {σ : Type} (lo n : Nat) (body : Nat → σ → σ) (s : σ) :
    for_loop lo (lo + (n + 1)) body s = body (lo + n) (for_loop lo (lo + n) body s) := by
  unfold for_loop
  rw [Nat.add_sub_cancel_left, Nat.add_sub_cancel_left, List.range_succ, List.foldl_append]
  rfl

/-- Loop invariant rule for `for_loop`. -/
theorem for_loop_inv {σ : Type} (Inv : σ → Prop) (lo hi : Nat) (body : Nat → σ → σ) (s : σ)
    (h0 : Inv s) (hstep : ∀ i, lo ≤ i → i < hi → ∀ s, Inv s → Inv (body i s)) :
    Inv (for_loop lo hi body s) := by
  rcases Nat.lt_or_ge lo hi with h | h
  · obtain ⟨n, rfl⟩ := Nat.exists_eq_add_of_le (Nat.le_of_lt h)
    clear h
    induction n with
    | zero => rw [for_loop_zero _ _ (Nat.le_of_eq (Nat.add_zero lo))]; exact h0
    | succ n ih =>
      rw [for_loop_succ]
      apply hstep _ (Nat.le_add_right _ _) (by omega)
      exact ih (fun i h1 h2 s hs => hstep i h1 (by omega) s hs)
  · rw [for_loop_zero _ _ h]; exact h0

/-- Every iteration `i` finds its precondition `Pre i`, establishes `Post i`, and leaves
the pre- and postconditions of the other iterations alone: then all postconditions hold
at loop exit. -/
theorem for_loop_post {σ : Type} (Pre Post : Nat → σ → Prop) (lo hi : Nat)
    (body : Nat → σ → σ) (s : σ)
    (h0 : ∀ i, lo ≤ i → i < hi → Pre i s)
    (hest : ∀ i, lo ≤ i → i < hi → ∀ s, Pre i s → Post i (body i s))
    (hpre : ∀ i k, lo ≤ i → i < hi → i ≠ k → ∀ s, Pre k s → Pre k (body i s))
    (hpost : ∀ i k, lo ≤ i → i < hi → i ≠ k → ∀ s, Post k s → Post k (body i s)) :
    ∀ i, lo ≤ i → i < hi → Post i (for_loop lo hi body s) := by
  rcases Nat.lt_or_ge lo hi with h | h
  · obtain ⟨n, rfl⟩ := Nat.exists_eq_add_of_le (Nat.le_of_lt h)
    clear h
    suffices H : (∀ i, lo ≤ i → i < lo + n → Post i (for_loop lo (lo + n) body s)) ∧
        (∀ i, lo + n ≤ i → Pre i s → Pre i (for_loop lo (lo + n) body s)) from H.1
    induction n with
    | zero =>
      rw [for_loop_zero _ _ (Nat.le_of_eq (Nat.add_zero lo))]
      exact ⟨fun i h1 h2 => absurd h2 (by omega), fun i _ hp => hp⟩
    | succ n ih =>
      have ih1 := ih (fun i h1 h2 => h0 i h1 (by omega))
        (fun i h1 h2 => hest i h1 (by omega))
        (fun i k h1 h2 => hpre i k h1 (by omega))
        (fun i k h1 h2 => hpost i k h1 (by omega))
      rw [for_loop_succ]
      constructor
      · intro i h1 h2
        rcases Nat.lt_or_ge i (lo + n) with h3 | h3
        · exact hpost (lo + n) i (by omega) (by omega) (by omega) _ (ih1.1 i h1 h3)
        · have hi : i = lo + n := by omega
          subst hi
          exact hest _ h1 (by omega) _ (ih1.2 _ (Nat.le_refl _) (h0 _ h1 (by omega)))
      · intro i h1 hp
        exact hpre (lo + n) i (by omega) (by omega) (by omega) _ (ih1.2 i (by omega) hp)
  · intro i h1 h2
    omega

theorem for_loop_from_zero_succ {σ : Type} (n : Nat) (body : Nat → σ → σ) (s : σ) :
    for_loop 0 (n + 1) body s = body n (for_loop 0 n body s) := by
  have h := for_loop_succ 0 n body s
  simpa using h

/-- Loop invariant rule for `upc_forall`. -/
theorem upc_forall_inv {σ : Type} (Inv : σ → Prop) (THREADS lo hi : Nat) (aff : Nat → Nat)
    (body : Nat → Nat → σ → σ) (s : σ) (h0 : Inv s)
    (hstep : ∀ t i, t < THREADS → aff i % THREADS = t → lo ≤ i → i < hi →
      ∀ s, Inv s → Inv (body t i s)) :
    Inv (upc_forall THREADS lo hi aff body s) := by
  unfold upc_forall
  apply for_loop_inv Inv _ _ _ _ h0
  intro t _ ht s hs
  apply for_loop_inv Inv _ _ _ _ hs
  intro i h1 h2 s hs
  by_cases hc : aff i % THREADS = t
  · rw [if_pos hc]; exact hstep t i ht hc h1 h2 s hs
  · rw [if_neg hc]; exact hs

/-- Owner-computes rule: with at least one thread every iteration of a `upc_forall` is
executed (by the thread its affinity designates), so per-iteration postconditions that the
other iterations leave alone all hold at loop exit. -/
theorem upc_forall_post {σ : Type} (Pre Post : Nat → σ → Prop) (THREADS lo hi : Nat)
    (aff : Nat → Nat) (body : Nat → Nat → σ → σ) (s : σ) (hT : 0 < THREADS)
    (h0 : ∀ i, lo ≤ i → i < hi → Pre i s)
    (hest : ∀ t i, t < THREADS → aff i % THREADS = t → lo ≤ i → i < hi →
      ∀ s, Pre i s → Post i (body t i s))
    (hpre : ∀ t i k, lo ≤ i → i < hi → i ≠ k → ∀ s, Pre k s → Pre k (body t i s))
    (hpost : ∀ t i k, lo ≤ i → i < hi → i ≠ k → ∀ s, Post k s → Post k (body t i s)) :
    ∀ i, lo ≤ i → i < hi → Post i (upc_forall THREADS lo hi aff body s) := by
  intro i hi1 hi2
  have key := for_loop_post
    (fun t s => ∀ i, lo ≤ i → i < hi → aff i % THREADS = t → Pre i s)
    (fun t s => ∀ i, lo ≤ i → i < hi → aff i % THREADS = t → Post i s)
    0 THREADS
    (fun MYTHREAD s => for_loop lo hi (fun i s =>
      if aff i % THREADS = MYTHREAD then body MYTHREAD i s else s) s) s
    (fun t _ _ i h1 h2 _ => h0 i h1 h2)
    (by
      intro t _ ht s hs
      have inner := for_loop_post
        (fun i s => aff i % THREADS = t → Pre i s)
        (fun i s => aff i % THREADS = t → Post i s)
        lo hi (fun i s => if aff i % THREADS = t then body t i s else s) s
        (fun i h1 h2 hc => hs i h1 h2 hc)
        (by
          intro i h1 h2 s hp hc
          simp only [if_pos hc]
          exact hest t i ht hc h1 h2 s (hp hc))
        (by
          intro i k h1 h2 hne s hp hc
          by_cases hci : aff i % THREADS = t
          · simp only [if_pos hci]; exact hpre t i k h1 h2 hne s (hp hc)
          · simp only [if_neg hci]; exact hp hc)
        (by
          intro i k h1 h2 hne s hp hc
          by_cases hci : aff i % THREADS = t
          · simp only [if_pos hci]; exact hpost t i k h1 h2 hne s (hp hc)
          · simp only [if_neg hci]; exact hp hc)
      intro i h1 h2 hc
      exact inner i h1 h2 hc)
    (by
      intro t k _ _ hne s hs i h1 h2 hc
      apply for_loop_inv (fun s => Pre i s) _ _ _ _ (hs i h1 h2 hc)
      intro j hj1 hj2 s hp
      by_cases hcj : aff j % THREADS = t
      · simp only [if_pos hcj]
        exact hpre t j i hj1 hj2 (by rintro rfl; exact hne (hcj.symm.trans hc)) s hp
      · simp only [if_neg hcj]; exact hp)
    (by
      intro t k _ _ hne s hs i h1 h2 hc
      apply for_loop_inv (fun s => Post i s) _ _ _ _ (hs i h1 h2 hc)
      intro j hj1 hj2 s hp
      by_cases hcj : aff j % THREADS = t
      · simp only [if_pos hcj]
        exact hpost t j i hj1 hj2 (by rintro rfl; exact hne (hcj.symm.trans hc)) s hp
      · simp only [if_neg hcj]; exact hp)
  exact key (aff i % THREADS) (Nat.zero_le _) (Nat.mod_lt _ hT) i hi1 hi2 rfl

theorem for_loop_single {σ : Type} (lo : Nat) (body : Nat → σ → σ) (s : σ) :
    for_loop lo (lo + 1) body s = body lo s := by
  have h := for_loop_succ lo 0 body s
  rw [for_loop_zero lo (lo + 0) (Nat.le_of_eq (Nat.add_zero lo))] at h
  simpa using h

/-- Invariant plus per-iteration postconditions for `for_loop`: every iteration keeps `Inv`,
establishes its own `Post i`, and keeps the postconditions of the other iterations. -/
theorem for_loop_establish {σ : Type} (Inv : σ → Prop) (Post : Nat → σ → Prop) (lo hi : Nat)
    (body : Nat → σ → σ) (s : σ) (h0 : Inv s)
    (hinv : ∀ i, lo ≤ i → i < hi → ∀ s, Inv s → Inv (body i s))
    (hest : ∀ i, lo ≤ i → i < hi → ∀ s, Inv s → Post i (body i s))
    (hpost : ∀ i k, lo ≤ i → i < hi → lo ≤ k → k < hi → i ≠ k →
      ∀ s, Inv s → Post k s → Post k (body i s)) :
    Inv (for_loop lo hi body s) ∧ ∀ i, lo ≤ i → i < hi → Post i (for_loop lo hi body s) := by
  refine ⟨for_loop_inv Inv lo hi body s h0 hinv, fun i h1 h2 => ?_⟩
  have key := for_loop_post (fun _ s => Inv s)
    (fun k s => Inv s ∧ (lo ≤ k → k < hi → Post k s)) lo hi body s
    (fun _ _ _ => h0)
    (fun i h1 h2 s hs => ⟨hinv i h1 h2 s hs, fun _ _ => hest i h1 h2 s hs⟩)
    (fun i k h1 h2 _ s hs => hinv i h1 h2 s hs)
    (fun i k h1 h2 hne s hs =>
      ⟨hinv i h1 h2 s hs.1, fun k1 k2 => hpost i k h1 h2 k1 k2 hne s hs.1 (hs.2 k1 k2)⟩)
  exact (key i h1 h2).2 h1 h2

/-- Invariant plus per-iteration postconditions for `upc_forall` with at least one thread. -/
theorem upc_forall_establish {σ : Type} (Inv : σ → Prop) (Post : Nat → σ → Prop)
    (THREADS lo hi : Nat) (aff : Nat → Nat) (body : Nat → Nat → σ → σ) (s : σ)
    (hT : 0 < THREADS) (h0 : Inv s)
    (hinv : ∀ t i, lo ≤ i → i < hi → ∀ s, Inv s → Inv (body t i s))
    (hest : ∀ t i, lo ≤ i → i < hi → ∀ s, Inv s → Post i (body t i s))
    (hpost : ∀ t i k, lo ≤ i → i < hi → lo ≤ k → k < hi → i ≠ k →
      ∀ s, Inv s → Post k s → Post k (body t i s)) :
    Inv (upc_forall THREADS lo hi aff body s) ∧
    ∀ i, lo ≤ i → i < hi → Post i (upc_forall THREADS lo hi aff body s) := by
  refine ⟨upc_forall_inv Inv THREADS lo hi aff body s h0
    (fun t i _ _ h1 h2 s hs => hinv t i h1 h2 s hs), fun i h1 h2 => ?_⟩
  have key := upc_forall_post (fun _ s => Inv s)
    (fun k s => Inv s ∧ (lo ≤ k → k < hi → Post k s)) THREADS lo hi aff body s hT
    (fun _ _ _ => h0)
    (fun t i _ _ h1 h2 s hs => ⟨hinv t i h1 h2 s hs, fun _ _ => hest t i h1 h2 s hs⟩)
    (fun t i k h1 h2 _ s hs => hinv t i h1 h2 s hs)
    (fun t i k h1 h2 hne s hs =>
      ⟨hinv t i h1 h2 s hs.1, fun k1 k2 => hpost t i k h1 h2 k1 k2 hne s hs.1 (hs.2 k1 k2)⟩)
  exact (key i h1 h2).2 h1 h2

/-- The two-dimensional loop nest of the planar stencils: a `upc_forall` over the rows with
a `for` loop over the columns inside. -/
theorem upc_forall_establish2 {σ : Type} (Inv : σ → Prop) (Post : Nat → Nat → σ → Prop)
    (THREADS lo hi lo2 hi2 : Nat) (aff : Nat → Nat) (step : Nat → Nat → Nat → σ → σ) (s : σ)
    (hT : 0 < THREADS) (h0 : Inv s)
    (hinv : ∀ t i j, lo ≤ i → i < hi → lo2 ≤ j → j < hi2 → ∀ s, Inv s → Inv (step t i j s))
    (hest : ∀ t i j, lo ≤ i → i < hi → lo2 ≤ j → j < hi2 → ∀ s, Inv s → Post i j (step t i j s))
    (hpost : ∀ t i j k l, lo ≤ i → i < hi → lo2 ≤ j → j < hi2 → lo ≤ k → k < hi → lo2 ≤ l →
      l < hi2 → (i ≠ k ∨ j ≠ l) → ∀ s, Inv s → Post k l s → Post k l (step t i j s)) :
    Inv (upc_forall THREADS lo hi aff
      (fun t i s => for_loop lo2 hi2 (fun j s => step t i j s) s) s) ∧
    ∀ i j, lo ≤ i → i < hi → lo2 ≤ j → j < hi2 →
      Post i j (upc_forall THREADS lo hi aff
        (fun t i s => for_loop lo2 hi2 (fun j s => step t i j s) s) s) := by
  have key := upc_forall_establish Inv (fun i s => ∀ j, lo2 ≤ j → j < hi2 → Post i j s)
    THREADS lo hi aff (fun t i s => for_loop lo2 hi2 (fun j s => step t i j s) s) s hT h0
    (fun t i h1 h2 s hs =>
      for_loop_inv Inv lo2 hi2 _ s hs (fun j j1 j2 s hs => hinv t i j h1 h2 j1 j2 s hs))
    (fun t i h1 h2 s hs =>
      (for_loop_establish Inv (fun j s => Post i j s) lo2 hi2 _ s hs
        (fun j j1 j2 s hs => hinv t i j h1 h2 j1 j2 s hs)
        (fun j j1 j2 s hs => hest t i j h1 h2 j1 j2 s hs)
        (fun j l j1 j2 l1 l2 hne s hs hp =>
          hpost t i j i l h1 h2 j1 j2 h1 h2 l1 l2 (Or.inr hne) s hs hp)).2)
    (fun t i k h1 h2 k1 k2 hne s hs hp l l1 l2 =>
      (for_loop_inv (fun s => Inv s ∧ Post k l s) lo2 hi2 _ s ⟨hs, hp l l1 l2⟩
        (fun j j1 j2 s hs =>
          ⟨hinv t i j h1 h2 j1 j2 s hs.1,
           hpost t i j k l h1 h2 j1 j2 k1 k2 l1 l2 (Or.inl hne) s hs.1 hs.2⟩)).2)
  exact ⟨key.1, fun i j h1 h2 j1 j2 => key.2 i h1 h2 j j1 j2⟩

/-- Invariant rule for the planar loop nest (`upc_forall` over rows, `for` over columns). -/
theorem nest2_inv {σ : Type} (Inv : σ → Prop) (THREADS lo hi lo2 hi2 : Nat) (aff : Nat → Nat)
    (step : Nat → Nat → Nat → σ → σ) (s : σ) (h0 : Inv s)
    (hstep : ∀ t i j, lo ≤ i → i < hi → lo2 ≤ j → j < hi2 → ∀ s, Inv s → Inv (step t i j s)) :
    Inv (upc_forall THREADS lo hi aff
      (fun t i s => for_loop lo2 hi2 (fun j s => step t i j s) s) s) :=
  upc_forall_inv Inv THREADS lo hi aff _ s h0 (fun t i _ _ h1 h2 s hs =>
    for_loop_inv Inv lo2 hi2 _ s hs (fun j j1 j2 s hs => hstep t i j h1 h2 j1 j2 s hs))

/-- Invariant rule for three nested `for` loops. -/
theorem for3_inv {σ : Type} (Inv : σ → Prop) (lo hi lo2 hi2 lo3 hi3 : Nat)
    (step : Nat → Nat → Nat → σ → σ) (s : σ) (h0 : Inv s)
    (hstep : ∀ i j k, lo ≤ i → i < hi → lo2 ≤ j → j < hi2 → lo3 ≤ k → k < hi3 →
      ∀ s, Inv s → Inv (step i j k s)) :
    Inv (for_loop lo hi (fun i s =>
      for_loop lo2 hi2 (fun j s => for_loop lo3 hi3 (fun k s => step i j k s) s) s) s) :=
  for_loop_inv Inv lo hi _ s h0 (fun i h1 h2 s hs =>
    for_loop_inv Inv lo2 hi2 _ s hs (fun j j1 j2 s hs =>
      for_loop_inv Inv lo3 hi3 _ s hs (fun k k1 k2 s hs =>
        hstep i j k h1 h2 j1 j2 k1 k2 s hs)))

/-- Invariant rule for the cubic loop nest (`upc_forall` over planes, two `for` loops). -/
theorem nest3_inv {σ : Type} (Inv : σ → Prop) (THREADS lo hi lo2 hi2 lo3 hi3 : Nat)
    (aff : Nat → Nat) (step : Nat → Nat → Nat → Nat → σ → σ) (s : σ) (h0 : Inv s)
    (hstep : ∀ t i j k, lo ≤ i → i < hi → lo2 ≤ j → j < hi2 → lo3 ≤ k → k < hi3 →
      ∀ s, Inv s → Inv (step t i j k s)) :
    Inv (upc_forall THREADS lo hi aff (fun t i s =>
      for_loop lo2 hi2 (fun j s => for_loop lo3 hi3 (fun k s => step t i j k s) s) s) s) :=
  upc_forall_inv Inv THREADS lo hi aff _ s h0 (fun t i _ _ h1 h2 s hs =>
    for_loop_inv Inv lo2 hi2 _ s hs (fun j j1 j2 s hs =>
      for_loop_inv Inv lo3 hi3 _ s hs (fun k k1 k2 s hs =>
        hstep t i j k h1 h2 j1 j2 k1 k2 s hs)))

/-- Invariant plus per-iteration postconditions for two nested `for` loops. -/
theorem for_loop_establish2 {σ : Type} (Inv : σ → Prop) (Post : Nat → Nat → σ → Prop)
    (lo hi lo2 hi2 : Nat) (step : Nat → Nat → σ → σ) (s : σ) (h0 : Inv s)
    (hinv : ∀ i j, lo ≤ i → i < hi → lo2 ≤ j → j < hi2 → ∀ s, Inv s → Inv (step i j s))
    (hest : ∀ i j, lo ≤ i → i < hi → lo2 ≤ j → j < hi2 → ∀ s, Inv s → Post i j (step i j s))
    (hpost : ∀ i j k l, lo ≤ i → i < hi → lo2 ≤ j → j < hi2 → lo ≤ k → k < hi → lo2 ≤ l →
      l < hi2 → (i ≠ k ∨ j ≠ l) → ∀ s, Inv s → Post k l s → Post k l (step i j s)) :
    Inv (for_loop lo hi (fun i s => for_loop lo2 hi2 (fun j s => step i j s) s) s) ∧
    ∀ i j, lo ≤ i → i < hi → lo2 ≤ j → j < hi2 →
      Post i j (for_loop lo hi (fun i s => for_loop lo2 hi2 (fun j s => step i j s) s) s) := by
  have key := for_loop_establish Inv (fun i s => ∀ j, lo2 ≤ j → j < hi2 → Post i j s)
    lo hi (fun i s => for_loop lo2 hi2 (fun j s => step i j s) s) s h0
    (fun i h1 h2 s hs =>
      for_loop_inv Inv lo2 hi2 _ s hs (fun j j1 j2 s hs => hinv i j h1 h2 j1 j2 s hs))
    (fun i h1 h2 s hs =>
      (for_loop_establish Inv (fun j s => Post i j s) lo2 hi2 _ s hs
        (fun j j1 j2 s hs => hinv i j h1 h2 j1 j2 s hs)
        (fun j j1 j2 s hs => hest i j h1 h2 j1 j2 s hs)
        (fun j l j1 j2 l1 l2 hne s hs hp =>
          hpost i j i l h1 h2 j1 j2 h1 h2 l1 l2 (Or.inr hne) s hs hp)).2)
    (fun i k h1 h2 k1 k2 hne s hs hp l l1 l2 =>
      (for_loop_inv (fun s => Inv s ∧ Post k l s) lo2 hi2 _ s ⟨hs, hp l l1 l2⟩
        (fun j j1 j2 s hs =>
          ⟨hinv i j h1 h2 j1 j2 s hs.1,
           hpost i j k l h1 h2 j1 j2 k1 k2 l1 l2 (Or.inl hne) s hs.1 hs.2⟩)).2)
  exact ⟨key.1, fun i j h1 h2 j1 j2 => key.2 i h1 h2 j j1 j2⟩

/-- The three-dimensional loop nest of the cubic stencils: a `upc_forall` over the planes
with two `for` loops inside. -/
theorem upc_forall_establish3 {σ : Type} (Inv : σ → Prop) (Post : Nat → Nat → Nat → σ → Prop)
    (THREADS lo hi lo2 hi2 lo3 hi3 : Nat) (aff : Nat → Nat)
    (step : Nat → Nat → Nat → Nat → σ → σ) (s : σ) (hT : 0 < THREADS) (h0 : Inv s)
    (hinv : ∀ t i j k, lo ≤ i → i < hi → lo2 ≤ j → j < hi2 → lo3 ≤ k → k < hi3 →
      ∀ s, Inv s → Inv (step t i j k s))
    (hest : ∀ t i j k, lo ≤ i → i < hi → lo2 ≤ j → j < hi2 → lo3 ≤ k → k < hi3 →
      ∀ s, Inv s → Post i j k (step t i j k s))
    (hpost : ∀ t i j k i2 j2 k2, lo ≤ i → i < hi → lo2 ≤ j → j < hi2 → lo3 ≤ k → k < hi3 →
      lo ≤ i2 → i2 < hi → lo2 ≤ j2 → j2 < hi2 → lo3 ≤ k2 → k2 < hi3 →
      (i ≠ i2 ∨ j ≠ j2 ∨ k ≠ k2) → ∀ s, Inv s → Post i2 j2 k2 s → Post i2 j2 k2 (step t i j k s)) :
    Inv (upc_forall THREADS lo hi aff (fun t i s =>
      for_loop lo2 hi2 (fun j s => for_loop lo3 hi3 (fun k s => step t i j k s) s) s) s) ∧
    ∀ i j k, lo ≤ i → i < hi → lo2 ≤ j → j < hi2 → lo3 ≤ k → k < hi3 →
      Post i j k (upc_forall THREADS lo hi aff (fun t i s =>
        for_loop lo2 hi2 (fun j s => for_loop lo3 hi3 (fun k s => step t i j k s) s) s) s) := by
  have key := upc_forall_establish Inv
    (fun i s => ∀ j k, lo2 ≤ j → j < hi2 → lo3 ≤ k → k < hi3 → Post i j k s)
    THREADS lo hi aff (fun t i s =>
      for_loop lo2 hi2 (fun j s => for_loop lo3 hi3 (fun k s => step t i j k s) s) s) s hT h0
    (fun t i h1 h2 s hs =>
      for_loop_inv Inv lo2 hi2 _ s hs (fun j j1 j2 s hs =>
        for_loop_inv Inv lo3 hi3 _ s hs (fun k k1 k2 s hs =>
          hinv t i j k h1 h2 j1 j2 k1 k2 s hs)))
    (fun t i h1 h2 s hs =>
      (for_loop_establish2 Inv (fun j k s => Post i j k s) lo2 hi2 lo3 hi3
        (fun j k s => step t i j k s) s hs
        (fun j k j1 j2 k1 k2 s hs => hinv t i j k h1 h2 j1 j2 k1 k2 s hs)
        (fun j k j1 j2 k1 k2 s hs => hest t i j k h1 h2 j1 j2 k1 k2 s hs)
        (fun j k j' k' j1 j2 k1 k2 j3 j4 k3 k4 hne s hs hp =>
          hpost t i j k i j' k' h1 h2 j1 j2 k1 k2 h1 h2 j3 j4 k3 k4 (Or.inr hne) s hs hp)).2)
    (fun t i i' h1 h2 i1 i2 hne s hs hp j' k' j3 j4 k3 k4 =>
      (for_loop_inv (fun s => Inv s ∧ Post i' j' k' s) lo2 hi2 _ s ⟨hs, hp j' k' j3 j4 k3 k4⟩
        (fun j j1 j2 s hs =>
          for_loop_inv (fun s => Inv s ∧ Post i' j' k' s) lo3 hi3 _ s hs
            (fun k k1 k2 s hs =>
              ⟨hinv t i j k h1 h2 j1 j2 k1 k2 s hs.1,
               hpost t i j k i' j' k' h1 h2 j1 j2 k1 k2 i1 i2 j3 j4 k3 k4 (Or.inl hne)
                 s hs.1 hs.2⟩))).2)
  exact ⟨key.1, fun i j k h1 h2 j1 j2 k1 k2 => key.2 i h1 h2 j k j1 j2 k1 k2⟩

/-! ## Wrap-around arithmetic -/

theorem toInt32_emod (x : Int) : toInt32 x % 2 ^ 32 = x % 2 ^ 32 := by
  unfold toInt32
  omega

theorem toUInt32_emod (x : Int) : toUInt32 x % 2 ^ 32 = x % 2 ^ 32 := by
  unfold toUInt32
  omega

theorem toInt32_of_range (x : Int) (h1 : -2 ^ 31 ≤ x) (h2 : x < 2 ^ 31) : toInt32 x = x := by
  unfold toInt32
  omega

theorem toInt32_range (x : Int) : -2 ^ 31 ≤ toInt32 x ∧ toInt32 x < 2 ^ 31 := by
  unfold toInt32
  omega

theorem toInt32_add_toInt32 (a b : Int) : toInt32 (toInt32 a + b) = toInt32 (a + b) := by
  unfold toInt32
  omega

theorem wrap_add_congr (wrap : Int → Int) (hw : ∀ x, wrap x % 2 ^ 32 = x % 2 ^ 32)
    (a b c : Int) (h : a % 2 ^ 32 = b % 2 ^ 32) :
    wrap (a + c) % 2 ^ 32 = (b + c) % 2 ^ 32 := by
  rw [hw]
  omega

/-- Summing slots with a wrap after every addition is the sum modulo `2^32`. -/
theorem sum_slots_wrap (wrap : Int → Int) (hw : ∀ x, wrap x % 2 ^ 32 = x % 2 ^ 32)
    (g : Nat → Int) (n : Nat) :
    for_loop 0 n (fun i r => wrap (r + g i)) 0 % 2 ^ 32
      = (∑ i in Finset.range n, g i) % 2 ^ 32 := by
  induction n with
  | zero => rw [for_loop_zero _ _ (Nat.le_refl _)]; simp
  | succ n ih =>
    rw [for_loop_from_zero_succ, Finset.sum_range_succ]
    exact wrap_add_congr wrap hw _ _ _ ih

/-- One thread's pass over the iteration space, accumulating into its own slot `t`. -/
theorem accumulate_slot (wrap : Int → Int) (hw : ∀ x, wrap x % 2 ^ 32 = x % 2 ^ 32)
    (c : Nat → Prop) [DecidablePred c] (w : Nat → Int) (t n : Nat) (tmp : Nat → Int) :
    (for_loop 0 n (fun i tmp =>
        if c i then Function.update tmp t (wrap (tmp t + w i)) else tmp) tmp) t % 2 ^ 32
      = (tmp t + ∑ i in Finset.range n, if c i then w i else 0) % 2 ^ 32 ∧
    ∀ k, k ≠ t → (for_loop 0 n (fun i tmp =>
        if c i then Function.update tmp t (wrap (tmp t + w i)) else tmp) tmp) k = tmp k := by
  induction n with
  | zero => rw [for_loop_zero _ _ (Nat.le_refl _)]; simp
  | succ n ih =>
    rw [for_loop_from_zero_succ, Finset.sum_range_succ]
    by_cases hc : c n
    · simp only [if_pos hc]
      refine ⟨?_, fun k hk => ?_⟩
      · rw [Function.update_same, wrap_add_congr wrap hw _ _ _ ih.1, add_assoc]
      · rw [Function.update_noteq hk]; exact ih.2 k hk
    · simp only [if_neg hc]
      refine ⟨?_, ih.2⟩
      rw [ih.1]; simp

/-- Every index belongs to exactly one residue class: the per-thread sums add up to the
whole sum. -/
theorem sum_over_threads (P n : Nat) (hP : 0 < P) (w : Nat → Int) :
    (∑ t in Finset.range P, ∑ i in Finset.range n, if i % P = t then w i else 0)
      = ∑ i in Finset.range n, w i := by
  rw [Finset.sum_comm]
  apply Finset.sum_congr rfl
  intro i _
  rw [Finset.sum_ite_eq]
  simp [Nat.mod_lt i hP]

theorem sum_emod_congr (n : Nat) (f g : Nat → Int)
    (h : ∀ i, i < n → f i % 2 ^ 32 = g i % 2 ^ 32) :
    (∑ i in Finset.range n, f i) % 2 ^ 32 = (∑ i in Finset.range n, g i) % 2 ^ 32 := by
  rw [Finset.sum_int_mod, Finset.sum_int_mod (Finset.range n) _ g]
  congr 1
  exact Finset.sum_congr rfl (fun i hi => h i (Finset.mem_range.mp hi))

/-- Every thread zeroes its own partial slot. -/
theorem zero_slots (P : Nat) (alloc : Nat → Int) :
    ∀ t, 0 ≤ t → t < P →
      (for_loop 0 P (fun MYTHREAD tmp => Function.update tmp MYTHREAD 0) alloc) t = 0 := by
  apply for_loop_post (fun _ _ => True) (fun t (s : Nat → Int) => s t = 0)
  · intros; trivial
  · intro i _ _ s _; simp
  · intros; trivial
  · intro i k _ _ hne s hs
    show Function.update s i 0 k = 0
    rw [Function.update_noteq (Ne.symm hne)]; exact hs

/-- The reduction pattern of the dense kernels: every thread accumulates the terms `w i` of
the indices it owns into its own (zeroed) slot, then the slots are summed; all additions
wrap.  The outcome is congruent to the full sum modulo `2^32`. -/
theorem slot_reduction (wrap : Int → Int) (hw : ∀ x, wrap x % 2 ^ 32 = x % 2 ^ 32)
    (P N : Nat) (hP : 1 ≤ P) (w : Nat → Int) (alloc : Nat → Int) :
    for_loop 0 P (fun i r => wrap (r +
        upc_forall P 0 N (fun i => i)
          (fun MYTHREAD i tmp => Function.update tmp MYTHREAD (wrap (tmp MYTHREAD + w i)))
          (for_loop 0 P (fun MYTHREAD tmp => Function.update tmp MYTHREAD 0) alloc) i)) 0
      % 2 ^ 32 = (∑ i in Finset.range N, w i) % 2 ^ 32 := by
  rw [sum_slots_wrap wrap hw]
  have hacc := for_loop_post (fun t (s : Nat → Int) => s t = 0)
    (fun t (s : Nat → Int) => s t % 2 ^ 32
      = (∑ i in Finset.range N, if i % P = t then w i else 0) % 2 ^ 32)
    0 P (fun MYTHREAD s => for_loop 0 N (fun i (s : Nat → Int) =>
      if i % P = MYTHREAD then
        Function.update s MYTHREAD (wrap (s MYTHREAD + w i)) else s) s)
    (for_loop 0 P (fun MYTHREAD tmp => Function.update tmp MYTHREAD 0) alloc)
    (zero_slots P alloc)
    (by
      intro t _ _ s hs
      have h := (accumulate_slot wrap hw (fun i => i % P = t) w t N s).1
      rw [hs, zero_add] at h
      exact h)
    (by
      intro t k _ _ hne s hs
      exact ((accumulate_slot wrap hw (fun i => i % P = t) w t N s).2 k (Ne.symm hne)).trans hs)
    (by
      intro t k _ _ hne s hs
      have h := (accumulate_slot wrap hw (fun i => i % P = t) w t N s).2 k (Ne.symm hne)
      exact (congrArg (· % 2 ^ 32) h).trans hs)
  have hacc2 : ∀ t, t < P → (upc_forall P 0 N (fun i => i)
      (fun MYTHREAD i tmp => Function.update tmp MYTHREAD (wrap (tmp MYTHREAD + w i)))
      (for_loop 0 P (fun MYTHREAD tmp => Function.update tmp MYTHREAD 0) alloc)) t % 2 ^ 32
      = (∑ i in Finset.range N, if i % P = t then w i else 0) % 2 ^ 32 :=
    fun t ht => hacc t (Nat.zero_le _) ht
  rw [sum_emod_congr P _ _ hacc2, sum_over_threads P N hP]

/-! ## Dot product -/

theorem int_dot_product_eq (P N : Nat) (hP : 1 ≤ P) (hdiv : P ∣ N) (v1 v2 tmp_alloc : Nat → Int) :
    int_dot_product P N v1 v2 tmp_alloc = (∑ i in Finset.range N, v1 i * v2 i) % 2 ^ 32 := by
  have hred := slot_reduction toUInt32 toUInt32_emod P N hP
    (fun i => toInt32 (v1 i * v2 i)) tmp_alloc
  have hrange : int_dot_product P N v1 v2 tmp_alloc % 2 ^ 32
      = int_dot_product P N v1 v2 tmp_alloc := by
    unfold int_dot_product
    obtain ⟨Q, rfl⟩ := Nat.exists_eq_add_of_le hP
    rw [Nat.add_comm 1 Q]
    simp only [@for_loop_from_zero_succ Int]
    unfold toUInt32
    exact Int.emod_emod_of_dvd _ (dvd_refl _)
  rw [← hrange]
  unfold int_dot_product
  simp only [Nat.div_mul_cancel hdiv]
  rw [hred]
  exact sum_emod_congr N _ _ (fun i _ => toInt32_emod _)

/-- C1: for `P ≥ 1` threads, a size `N` that is a multiple of `P` (and fits the `int` loop
counter) and all vectors `v1`, `v2`, the scalar `result` left by `int_dot_product` is the sum
of the products `v1[i] * v2[i]`, `0 ≤ i < N`, modulo `2^32`; two all-ones vectors give `N`. -/
theorem int_dot_product_correct (P N : Nat) (hP : 1 ≤ P) (hdiv : P ∣ N) (hN : N < 2 ^ 31)
    (v1 v2 tmp_alloc : Nat → Int) :
    int_dot_product P N v1 v2 tmp_alloc = (∑ i in Finset.range N, v1 i * v2 i) % 2 ^ 32 ∧
    int_dot_product P N (fun _ => 1) (fun _ => 1) tmp_alloc = (N : Int) := by
  refine ⟨int_dot_product_eq P N hP hdiv v1 v2 tmp_alloc, ?_⟩
  rw [int_dot_product_eq P N hP hdiv]
  simp only [mul_one, Finset.sum_const, Finset.card_range, nsmul_eq_mul]
  omega

theorem int_dot_product_correct_witness :
    (1 ≤ 2 ∧ 2 ∣ 4 ∧ 4 < 2 ^ 31) ∧
    (int_dot_product 2 4 (fun i => 65536 + i) (fun _ => 65537) (fun _ => 7)
        = (∑ i in Finset.range 4, ((65536 : Int) + i) * 65537) % 2 ^ 32 ∧
      int_dot_product 2 4 (fun _ => 1) (fun _ => 1) (fun _ => 7) = ((4 : Nat) : Int)) :=
  ⟨by decide, int_dot_product_correct 2 4 (by decide) (by decide) (by decide) _ _ _⟩

/-! ## Floating-point dot products -/

/-- C2 (code evaluated at the failing input): with 2 threads and two all-ones vectors of
length 4 the partial slots of `float_dot_product` and `double_dot_product` hold 2 each, but
the scalar `result` that is reported is still `0.0`, not `4.0`: the slots are never summed. -/
theorem float_double_dot_product_result_unsummed :
    (float_dot_product 2 4 (fun _ => 1) (fun _ => 1) (fun _ => 0)).result = 0 ∧
    (float_dot_product 2 4 (fun _ => 1) (fun _ => 1) (fun _ => 0)).result ≠ 4 ∧
    (float_dot_product 2 4 (fun _ => 1) (fun _ => 1) (fun _ => 0)).tmp_result 0 = 2 ∧
    (float_dot_product 2 4 (fun _ => 1) (fun _ => 1) (fun _ => 0)).tmp_result 1 = 2 ∧
    (double_dot_product 2 4 (fun _ => 1) (fun _ => 1) (fun _ => 0)).result = 0 ∧
    (double_dot_product 2 4 (fun _ => 1) (fun _ => 1) (fun _ => 0)).result ≠ 4 ∧
    (double_dot_product 2 4 (fun _ => 1) (fun _ => 1) (fun _ => 0)).tmp_result 0 = 2 ∧
    (double_dot_product 2 4 (fun _ => 1) (fun _ => 1) (fun _ => 0)).tmp_result 1 = 2 := by
  simp [float_dot_product, double_dot_product, upc_forall, for_loop, List.range_succ,
    Function.update]
  norm_num

/-! ## AXPY -/

theorem int_axpy_x (P N : Nat) (a : Int) (x y : Nat → Int) : (int_axpy P N a x y).x = x := by
  unfold int_axpy
  exact upc_forall_inv (fun s : AxpyState => s.x = x) P 0 N _ _ _ rfl
    (fun t i _ _ _ _ s hs => hs)

theorem int_axpy_y (P N : Nat) (hP : 1 ≤ P) (a : Int) (x y : Nat → Int) :
    ∀ i, i < N → (int_axpy P N a x y).y i = toInt32 (a * x i + y i) := by
  intro i hi
  unfold int_axpy
  refine upc_forall_post (fun i (s : AxpyState) => s.x = x ∧ s.y i = y i)
    (fun i (s : AxpyState) => s.y i = toInt32 (a * x i + y i)) P 0 N (fun i => i) _ _ hP
    ?_ ?_ ?_ ?_ i (Nat.zero_le _) hi
  · intro i _ _
    exact ⟨rfl, rfl⟩
  · intro t i _ _ _ _ s hs
    show Function.update s.y i (toInt32 (toInt32 (a * s.x i) + s.y i)) i = _
    rw [Function.update_same, toInt32_add_toInt32, hs.1, hs.2]
  · intro t i k _ _ hne s hs
    refine ⟨hs.1, ?_⟩
    show Function.update s.y i (toInt32 (toInt32 (a * s.x i) + s.y i)) k = _
    rw [Function.update_noteq (Ne.symm hne)]
    exact hs.2
  · intro t i k _ _ hne s hs
    show Function.update s.y i (toInt32 (toInt32 (a * s.x i) + s.y i)) k = _
    rw [Function.update_noteq (Ne.symm hne)]
    exact hs

/-- C3: for `P ≥ 1` threads, `N` a multiple of `P`, every scalar `a` and all vectors `x`, `y`,
after the `int_axpy` loop every `y[i]`, `i < N`, is `a*x[i] + y_old[i]` wrapped to 32 bits
and `x` is unchanged; `a = 0` leaves every (32-bit) `y[i]` unchanged, and `a = 1` with
all-ones `x` and `y` gives `y[i] = 2`. -/
theorem int_axpy_correct (P N : Nat) (hP : 1 ≤ P) (hdiv : P ∣ N) (a : Int) (x y : Nat → Int) :
    (∀ i, i < N → (int_axpy P N a x y).y i = toInt32 (a * x i + y i)) ∧
    (int_axpy P N a x y).x = x ∧
    (∀ i, i < N → -2 ^ 31 ≤ y i → y i < 2 ^ 31 → (int_axpy P N 0 x y).y i = y i) ∧
    (∀ i, i < N → (int_axpy P N 1 (fun _ => 1) (fun _ => 1)).y i = 2) := by
  refine ⟨int_axpy_y P N hP a x y, int_axpy_x P N a x y, ?_, ?_⟩
  · intro i hi h1 h2
    rw [int_axpy_y P N hP 0 x y i hi, zero_mul, zero_add]
    exact toInt32_of_range _ h1 h2
  · intro i hi
    rw [int_axpy_y P N hP 1 _ _ i hi]
    decide

theorem int_axpy_correct_witness :
    (1 ≤ 2 ∧ 2 ∣ 4) ∧
    ((∀ i : Nat, i < 4 → (int_axpy 2 4 3 (fun i => 2 ^ 30 + i) (fun i => 5 - i)).y i
        = toInt32 (3 * (2 ^ 30 + (i : Int)) + (5 - i))) ∧
     (int_axpy 2 4 3 (fun i => 2 ^ 30 + i) (fun i => 5 - i)).x
        = (fun i : Nat => 2 ^ 30 + (i : Int)) ∧
     (∀ i : Nat, i < 4 → -2 ^ 31 ≤ (5 - i : Int) → (5 - i : Int) < 2 ^ 31 →
        (int_axpy 2 4 0 (fun i => 2 ^ 30 + i) (fun i => 5 - i)).y i = 5 - i) ∧
     (∀ i, i < 4 → (int_axpy 2 4 1 (fun _ => 1) (fun _ => 1)).y i = 2)) :=
  ⟨by decide, int_axpy_correct 2 4 (by decide) (by decide) 3 (fun i => 2 ^ 30 + i) (fun i => 5 - i)⟩

/-! ## Euclidean norm -/

/-- C4 (counterexample): one thread, the vector `[65536]`: the square `2^32` wraps to `0`,
and the computed norm is `0`, not `65536`. -/
theorem int_norm_square_wraps :
    (1 ≤ 1 ∧ 1 ∣ 1 ∧ (0 : Int) < 65536 ∧ (65536 : Int) < 2 ^ 31) ∧
    int_norm 1 1 (fun i => if i = 0 then 65536 else 0) (fun _ => 0) = some 0 ∧
    int_norm 1 1 (fun i => if i = 0 then 65536 else 0) (fun _ => 0) ≠ some 65536 := by
  decide

theorem toInt32_eq_of_emod (x S : Int) (h : toInt32 x % 2 ^ 32 = S % 2 ^ 32) (h0 : 0 ≤ S)
    (h1 : S < 2 ^ 31) : toInt32 x = S := by
  have hr := toInt32_range x
  omega

theorem int_norm_sum (P N : Nat) (hP : 1 ≤ P) (v part_alloc : Nat → Int) (S : Int)
    (hS : (∑ i in Finset.range N, v i * v i) = S) (h0 : 0 ≤ S) (h1 : S < 2 ^ 31) :
    int_norm P N v part_alloc = sqrt_to_int S := by
  have hred := slot_reduction toInt32 toInt32_emod P N hP
    (fun i => toInt32 (v i * v i)) part_alloc
  rw [sum_emod_congr N _ (fun i => v i * v i) (fun i _ => toInt32_emod _), hS] at hred
  unfold int_norm
  simp only
  congr 1
  obtain ⟨Q, rfl⟩ := Nat.exists_eq_add_of_le hP
  rw [Nat.add_comm 1 Q] at hred ⊢
  rw [for_loop_from_zero_succ] at hred ⊢
  exact toInt32_eq_of_emod _ _ hred h0 h1

/-- C4 (amended): for `P ≥ 1` threads, `N` a multiple of `P` and a vector whose only nonzero
entry is `m` or `-m` with `m > 0` and `m * m < 2^31` (the square fits an `int`), the norm
computed by `int_norm` is `m`. -/
theorem int_norm_single_entry (P N : Nat) (hP : 1 ≤ P) (hdiv : P ∣ N) (v part_alloc : Nat → Int)
    (j : Nat) (hj : j < N) (m : Nat) (hm : 0 < m) (hvj : v j = m ∨ v j = -(m : Int))
    (hz : ∀ i, i < N → i ≠ j → v i = 0) (hsq : m * m < 2 ^ 31) :
    int_norm P N v part_alloc = some (m : Int) := by
  have hS : (∑ i in Finset.range N, v i * v i) = ((m * m : Nat) : Int) := by
    rw [Finset.sum_eq_single j]
    · rcases hvj with h | h <;> rw [h] <;> push_cast <;> ring
    · intro i hi hne
      rw [hz i (Finset.mem_range.mp hi) hne, zero_mul]
    · intro h
      exact absurd (Finset.mem_range.mpr hj) h
  rw [int_norm_sum P N hP v part_alloc _ hS (Int.natCast_nonneg _) (by exact_mod_cast hsq)]
  unfold sqrt_to_int
  rw [if_pos (Int.natCast_nonneg _), Int.toNat_natCast, Nat.sqrt_eq]

theorem int_norm_single_entry_witness :
    (1 ≤ 2 ∧ 2 ∣ 4 ∧ 2 < 4 ∧ 0 < 46340 ∧
      ((fun i : Nat => if i = 2 then (-46340 : Int) else 0) 2 = (46340 : Nat) ∨
       (fun i : Nat => if i = 2 then (-46340 : Int) else 0) 2 = -((46340 : Nat) : Int)) ∧
      (∀ i, i < 4 → i ≠ 2 → (fun i : Nat => if i = 2 then (-46340 : Int) else 0) i = 0) ∧
      46340 * 46340 < 2 ^ 31) ∧
    int_norm 2 4 (fun i => if i = 2 then -46340 else 0) (fun _ => 9) = some ((46340 : Nat) : Int) :=
  ⟨by decide,
   int_norm_single_entry 2 4 (by decide) (by decide) _ _ 2 (by decide) 46340 (by decide)
     (by decide) (by decide) (by decide)⟩

/-! ## Dense matrix-vector product -/

/-- C5 (code evaluated at the failing input): 2 threads, `A = [[1,2],[3,4]]`, `x = [1,1]`
and a freshly allocated `y` holding `[5, 0]`: the loop leaves `y = [8, 7]`, whereas the row
sums are `[3, 7]`; the old content of `y[0]` is added to the product. -/
theorem int_dmatvec_product_keeps_old_y :
    int_dmatvec_product 2 2 (fun k => k + 1) (fun _ => 1) (fun i => if i = 0 then 5 else 0) 0 = 8 ∧
    int_dmatvec_product 2 2 (fun k => k + 1) (fun _ => 1) (fun i => if i = 0 then 5 else 0) 1 = 7 ∧
    (∑ j in Finset.range 2, ((fun k : Nat => (k : Int) + 1) (0 * 2 + j)) * 1) = 3 ∧
    (∑ j in Finset.range 2, ((fun k : Nat => (k : Int) + 1) (1 * 2 + j)) * 1) = 7 := by
  decide

/-! ## Sparse kernels -/

/-- The CSC offsets and the row index that `csr_to_csc` builds for the 2 x 2 matrix with the
single nonzero `A[0,1] = 1`: column 0 is empty and column 1 holds one entry, in row 0. -/
theorem csc_single_entry :
    (csr_to_csc 2 (fun i => if i = 0 then 0 else 1) (fun _ => 1) (fun _ => 1)
      (fun _ => 0) (fun _ => 0) (fun _ => 0)).col_csc_idx 0 = 0 ∧
    (csr_to_csc 2 (fun i => if i = 0 then 0 else 1) (fun _ => 1) (fun _ => 1)
      (fun _ => 0) (fun _ => 0) (fun _ => 0)).col_csc_idx 1 = 0 ∧
    (csr_to_csc 2 (fun i => if i = 0 then 0 else 1) (fun _ => 1) (fun _ => 1)
      (fun _ => 0) (fun _ => 0) (fun _ => 0)).col_csc_idx 2 = 1 ∧
    (csr_to_csc 2 (fun i => if i = 0 then 0 else 1) (fun _ => 1) (fun _ => 1)
      (fun _ => 0) (fun _ => 0) (fun _ => 0)).row_csc_idx 0 = 0 := by
  decide

/-- C6 (code evaluated at the failing input): the 2 x 2 matrix with the single nonzero
`A[0,1] = 1` (row offsets `[0,1,1]`), temporary blocks that `malloc` returns filled with `7`:
column 0 of `B` is empty, so `temp_vec[1]` is read without having been written and
`C[0*2+0]` ends as `7`, whereas `(A B)[0,0] = 0`. -/
theorem double_spgemm_reads_unwritten_temp :
    double_spgemm 1 3 (fun i => if i = 0 then 0 else 1) (fun _ => 1) (fun _ => 1)
      (fun _ => 0) (fun _ => 0) (fun _ => 0) (fun _ _ _ => 7) (0 + 0 * 2) = 7 ∧
    (∑ k in Finset.range 2,
      csr_entry (fun i => if i = 0 then 0 else 1) (fun _ => 1) (fun _ => 1) 0 k *
      csc_entry (csr_to_csc 2 (fun i => if i = 0 then 0 else 1) (fun _ => 1) (fun _ => 1)
        (fun _ => 0) (fun _ => 0) (fun _ => 0)) k 0) = 0 := by
  have h := csc_single_entry
  constructor
  · unfold double_spgemm
    simp only [show (1 : Nat) ≠ ULONG_MAX by unfold ULONG_MAX; norm_num, if_false,
      show 3 - 1 = 2 from rfl]
    generalize csr_to_csc 2 (fun i => if i = 0 then 0 else 1) (fun _ => 1) (fun _ => 1)
      (fun _ => 0) (fun _ => 0) (fun _ => 0) = csc at h
    simp [spgemm_rep, for_loop, List.range_succ, Function.update, h.1, h.2.1, h.2.2.1,
      h.2.2.2]
  · generalize csr_to_csc 2 (fun i => if i = 0 then 0 else 1) (fun _ => 1) (fun _ => 1)
      (fun _ => 0) (fun _ => 0) (fun _ => 0) = csc at h
    simp [csr_entry, csc_entry, Finset.sum_range_succ, h.1, h.2.1]

/-- C7 (counterexample): the identity of order 1, one thread, two repetitions: the kernel
sets `x[0] = 1.5` and ends with `b[0] = 3`, which is not `x[0]`. -/
theorem double_spmatvec_identity_two_reps :
    (1 ≤ 2) ∧
    (double_spmatvec_product 1 2 2 (fun i => i) (fun k => k) (fun _ => 1)
        (fun _ => 0) (fun _ => 0)).x 0 = 3 / 2 ∧
    (double_spmatvec_product 1 2 2 (fun i => i) (fun k => k) (fun _ => 1)
        (fun _ => 0) (fun _ => 0)).b 0 = 3 ∧
    ¬ ((double_spmatvec_product 1 2 2 (fun i => i) (fun k => k) (fun _ => 1)
        (fun _ => 0) (fun _ => 0)).b 0 =
       (double_spmatvec_product 1 2 2 (fun i => i) (fun k => k) (fun _ => 1)
        (fun _ => 0) (fun _ => 0)).x 0) := by
  simp [double_spmatvec_product, ULONG_MAX, spmv_main_loop, upc_forall, for_loop,
    List.range_succ, Function.update]
  norm_num

/-- One repetition of the SpMV loop on an identity matrix adds `x[i]` to every `b[i]` and
leaves `x` alone. -/
theorem spmv_identity_rep (P n : Nat) (hP : 1 ≤ P) (row_idx col_idx : Nat → Nat)
    (values : Nat → ℚ) (hrow : ∀ i, i ≤ n → row_idx i = i) (hcol : ∀ k, k < n → col_idx k = k)
    (hval : ∀ k, k < n → values k = 1) (x : Nat → ℚ) (c : ℚ) (s : SpmvState)
    (hx : s.x = x) (hb : ∀ i, i < n → s.b i = c * x i) :
    (upc_forall P 0 n (fun i => i)
      (fun _ i s =>
        for_loop (row_idx i) (row_idx (i + 1)) (fun j s =>
          SpmvState.mk s.x (Function.update s.b i (s.b i + values j * s.x (col_idx j)))) s)
      s).x = x ∧
    ∀ i, i < n → (upc_forall P 0 n (fun i => i)
      (fun _ i s =>
        for_loop (row_idx i) (row_idx (i + 1)) (fun j s =>
          SpmvState.mk s.x (Function.update s.b i (s.b i + values j * s.x (col_idx j)))) s)
      s).b i = (c + 1) * x i := by
  have hbody : ∀ i, i < n → ∀ s : SpmvState,
      for_loop (row_idx i) (row_idx (i + 1)) (fun j s =>
          SpmvState.mk s.x (Function.update s.b i (s.b i + values j * s.x (col_idx j)))) s
        = SpmvState.mk s.x (Function.update s.b i (s.b i + s.x i)) := by
    intro i hi s
    rw [hrow i (Nat.le_of_lt hi), hrow (i + 1) hi, for_loop_single, hval i hi, hcol i hi, one_mul]
  constructor
  · apply upc_forall_inv (fun s : SpmvState => s.x = x) P 0 n _ _ _ hx
    intro t i _ _ _ hi s hs
    rw [hbody i hi]
    exact hs
  · intro i hi
    refine upc_forall_post (fun i (s : SpmvState) => s.x = x ∧ s.b i = c * x i)
      (fun i (s : SpmvState) => s.b i = (c + 1) * x i) P 0 n (fun i => i) _ _ hP
      ?_ ?_ ?_ ?_ i (Nat.zero_le _) hi
    · intro i _ hi
      exact ⟨hx, hb i hi⟩
    · intro t i _ _ _ hi s hs
      rw [hbody i hi]
      show Function.update s.b i (s.b i + s.x i) i = _
      rw [Function.update_same, hs.1, hs.2]
      ring
    · intro t i k _ hi hne s hs
      rw [hbody i hi]
      refine ⟨hs.1, ?_⟩
      show Function.update s.b i (s.b i + s.x i) k = _
      rw [Function.update_noteq (Ne.symm hne)]
      exact hs.2
    · intro t i k _ hi hne s hs
      rw [hbody i hi]
      show Function.update s.b i (s.b i + s.x i) k = _
      rw [Function.update_noteq (Ne.symm hne)]
      exact hs

theorem spmv_identity_loop (P n : Nat) (hP : 1 ≤ P) (row_idx col_idx : Nat → Nat)
    (values : Nat → ℚ) (hrow : ∀ i, i ≤ n → row_idx i = i) (hcol : ∀ k, k < n → col_idx k = k)
    (hval : ∀ k, k < n → values k = 1) (x : Nat → ℚ) (s : SpmvState)
    (hx : s.x = x) (hb : ∀ i, i < n → s.b i = 0) (r : Nat) :
    (spmv_main_loop P r (n + 1) row_idx col_idx values s).x = x ∧
    ∀ i, i < n → (spmv_main_loop P r (n + 1) row_idx col_idx values s).b i = (r : ℚ) * x i := by
  unfold spmv_main_loop
  simp only [Nat.add_sub_cancel]
  induction r with
  | zero =>
    rw [for_loop_zero _ _ (Nat.le_refl _)]
    exact ⟨hx, fun i hi => by rw [hb i hi]; simp⟩
  | succ r ih =>
    rw [for_loop_from_zero_succ]
    have h := spmv_identity_rep P n hP row_idx col_idx values hrow hcol hval x (r : ℚ) _
      ih.1 ih.2
    refine ⟨h.1, fun i hi => ?_⟩
    rw [h.2 i hi]
    push_cast
    ring

theorem spmv_init (P n : Nat) (hP : 1 ≤ P) (x_alloc b_alloc : Nat → ℚ) :
    ∀ i, i < n →
      (upc_forall P 0 n (fun i => i)
        (fun _ i s =>
          SpmvState.mk (Function.update s.x i ((i : ℚ) + 3 / 2)) (Function.update s.b i 0))
        (SpmvState.mk x_alloc b_alloc)).x i = (i : ℚ) + 3 / 2 ∧
      (upc_forall P 0 n (fun i => i)
        (fun _ i s =>
          SpmvState.mk (Function.update s.x i ((i : ℚ) + 3 / 2)) (Function.update s.b i 0))
        (SpmvState.mk x_alloc b_alloc)).b i = 0 := by
  intro i hi
  refine upc_forall_post (fun _ (_ : SpmvState) => True)
    (fun i (s : SpmvState) => s.x i = (i : ℚ) + 3 / 2 ∧ s.b i = 0) P 0 n (fun i => i) _ _ hP
    ?_ ?_ ?_ ?_ i (Nat.zero_le _) hi
  · intros; trivial
  · intro t i _ _ _ _ s _
    exact ⟨Function.update_same _ _ _, Function.update_same _ _ _⟩
  · intros; trivial
  · intro t i k _ _ hne s hs
    constructor
    · show Function.update s.x i _ k = _
      rw [Function.update_noteq (Ne.symm hne)]
      exact hs.1
    · show Function.update s.b i _ k = _
      rw [Function.update_noteq (Ne.symm hne)]
      exact hs.2

/-- C7 (amended): for the CSR identity matrix of order `n`, `P ≥ 1` threads, every vector
`x` and every repetition count `r`, the SpMV main loop started with `b = 0` ends with
`b[i] = r * x[i]` for every `i < n` (so `b = x` exactly when `r = 1` or `x[i] = 0`), and
leaves `x` unchanged; in the kernel, where `x[i] = i + 1.5`, `b[i] = r * (i + 1.5)` for
every `r` other than the sentinel. -/
theorem double_spmatvec_identity (P n : Nat) (hP : 1 ≤ P) (row_idx col_idx : Nat → Nat)
    (values : Nat → ℚ) (hrow : ∀ i, i ≤ n → row_idx i = i) (hcol : ∀ k, k < n → col_idx k = k)
    (hval : ∀ k, k < n → values k = 1) (x b : Nat → ℚ) (hb : ∀ i, i < n → b i = 0)
    (x_alloc b_alloc : Nat → ℚ) (r : Nat) (hr : r ≠ ULONG_MAX) :
    (∀ i, i < n →
      (spmv_main_loop P r (n + 1) row_idx col_idx values (SpmvState.mk x b)).b i = r * x i) ∧
    (spmv_main_loop P r (n + 1) row_idx col_idx values (SpmvState.mk x b)).x = x ∧
    (∀ i, i < n →
      (double_spmatvec_product P r (n + 1) row_idx col_idx values x_alloc b_alloc).b i
        = r * ((i : ℚ) + 3 / 2)) := by
  have h1 := spmv_identity_loop P n hP row_idx col_idx values hrow hcol hval x
    (SpmvState.mk x b) rfl hb r
  refine ⟨h1.2, h1.1, ?_⟩
  have hinit := spmv_init P n hP x_alloc b_alloc
  intro i hi
  unfold double_spmatvec_product
  simp only [if_neg hr, Nat.add_sub_cancel]
  have h2 := spmv_identity_loop P n hP row_idx col_idx values hrow hcol hval _ _ rfl
    (fun i hi => (hinit i hi).2) r
  rw [h2.2 i hi, (hinit i hi).1]

theorem double_spmatvec_identity_witness :
    (1 ≤ 2 ∧ (∀ i, i ≤ 3 → (fun i : Nat => i) i = i) ∧ (∀ k, k < 3 → (fun k : Nat => k) k = k) ∧
      (∀ k, k < 3 → (fun _ : Nat => (1 : ℚ)) k = 1) ∧
      (∀ i, i < 3 → (fun _ : Nat => (0 : ℚ)) i = 0) ∧ 2 ≠ ULONG_MAX) ∧
    ((∀ i, i < 3 →
      (spmv_main_loop 2 2 (3 + 1) (fun i => i) (fun k => k) (fun _ => 1)
        (SpmvState.mk (fun i => (i : ℚ) / 7) (fun _ => 0))).b i
          = (2 : Nat) * (fun i : Nat => (i : ℚ) / 7) i) ∧
    (spmv_main_loop 2 2 (3 + 1) (fun i => i) (fun k => k) (fun _ => 1)
        (SpmvState.mk (fun i => (i : ℚ) / 7) (fun _ => 0))).x = (fun i : Nat => (i : ℚ) / 7) ∧
    (∀ i : Nat, i < 3 →
      (double_spmatvec_product 2 2 (3 + 1) (fun i => i) (fun k => k) (fun _ => 1)
        (fun _ => 5) (fun _ => 5)).b i = (2 : Nat) * ((i : ℚ) + 3 / 2))) :=
  ⟨⟨by decide, fun _ _ => rfl, fun _ _ => rfl, fun _ _ => rfl, fun _ _ => rfl, by decide⟩,
   double_spmatvec_identity 2 3 (by decide) (fun i => i) (fun k => k) (fun _ => 1)
     (fun _ _ => rfl) (fun _ _ => rfl) (fun _ _ => rfl) (fun i => (i : ℚ) / 7) (fun _ => 0)
     (fun _ _ => rfl) (fun _ => 5) (fun _ => 5) 2 (by decide)⟩

/-! ## Stencils: linear indices -/

theorem idx2_inj (s i j k l : Nat) (hj : j < s) (hl : l < s) (h : i * s + j = k * s + l) :
    i = k ∧ j = l := by
  rcases Nat.lt_trichotomy i k with hik | hik | hik
  · have h1 : (i + 1) * s ≤ k * s := Nat.mul_le_mul_right s hik
    rw [Nat.add_mul, Nat.one_mul] at h1
    omega
  · subst hik
    exact ⟨rfl, by omega⟩
  · have h1 : (k + 1) * s ≤ i * s := Nat.mul_le_mul_right s hik
    rw [Nat.add_mul, Nat.one_mul] at h1
    omega

theorem idx2_eq_iff (s i j k l : Nat) (hj : j < s) (hl : l < s) :
    i * s + j = k * s + l ↔ i = k ∧ j = l :=
  ⟨idx2_inj s i j k l hj hl, fun h => by rw [h.1, h.2]⟩

theorem idx2_lt (s i j : Nat) (hi : i < s) (hj : j < s) : i * s + j < s * s := by
  have h1 : (i + 1) * s ≤ s * s := Nat.mul_le_mul_right s hi
  rw [Nat.add_mul, Nat.one_mul] at h1
  omega

theorem idx3_inj (s i j k i2 j2 k2 : Nat) (hj : j < s) (hk : k < s) (hj2 : j2 < s)
    (hk2 : k2 < s) (h : i * (s * s) + j * s + k = i2 * (s * s) + j2 * s + k2) :
    i = i2 ∧ j = j2 ∧ k = k2 := by
  have e1 : i * (s * s) + j * s + k = (i * s + j) * s + k := by ring
  have e2 : i2 * (s * s) + j2 * s + k2 = (i2 * s + j2) * s + k2 := by ring
  rw [e1, e2] at h
  obtain ⟨h1, h2⟩ := idx2_inj s _ k _ k2 hk hk2 h
  obtain ⟨h3, h4⟩ := idx2_inj s i j i2 j2 hj hj2 h1
  exact ⟨h3, h4, h2⟩

theorem idx3_lt (s i j k : Nat) (hi : i < s) (hj : j < s) (hk : k < s) :
    i * (s * s) + j * s + k < s * s * s := by
  have e1 : i * (s * s) + j * s + k = (i * s + j) * s + k := by ring
  rw [e1]
  have h1 := idx2_lt s i j hi hj
  have h2 : (i * s + j + 1) * s ≤ s * s * s := Nat.mul_le_mul_right s h1
  rw [Nat.add_mul, Nat.one_mul] at h2
  omega

/-- A store to an interior cell leaves the halo of a planar buffer zero. -/
theorem halo2_update (size : Nat) (a : Nat → ℚ) (h : HaloZero2 size a) (i j : Nat) (v : ℚ)
    (hi1 : 1 ≤ i) (hi2 : i < size - 2 + 1) (hj1 : 1 ≤ j) (hj2 : j < size - 2 + 1) :
    HaloZero2 size (Function.update a (i * size + j) v) := by
  intro k l hk hl hhalo
  rw [Function.update_noteq]
  · exact h k l hk hl hhalo
  · intro heq
    obtain ⟨h1, h2⟩ := idx2_inj size k l i j hl (by omega) heq
    omega

/-- A store to an interior cell leaves the halo of a cubic buffer zero. -/
theorem halo3_update (size : Nat) (a : Nat → ℚ) (h : HaloZero3 size a) (i j k : Nat) (v : ℚ)
    (hi1 : 1 ≤ i) (hi2 : i < size - 2 + 1) (hj1 : 1 ≤ j) (hj2 : j < size - 2 + 1)
    (hk1 : 1 ≤ k) (hk2 : k < size - 2 + 1) :
    HaloZero3 size (Function.update a (i * (size * size) + j * size + k) v) := by
  intro i2 j2 k2 hi hj hk hhalo
  rw [Function.update_noteq]
  · exact h i2 j2 k2 hi hj hk hhalo
  · intro heq
    obtain ⟨h1, h2, h3⟩ := idx3_inj size i2 j2 k2 i j k hj hk (by omega) (by omega) heq
    omega

/-- The zeroing loop `upc_forall (i = 0; i < len; i++; &a0[i]) a0[i] = 0.0;`. -/
theorem zero_all (P len : Nat) (hP : 1 ≤ P) (g : Grid) :
    ∀ x, x < len →
      (upc_forall P 0 len (fun i => i)
        (fun _ i g => Grid.mk (Function.update g.a0 i 0) g.a1) g).a0 x = 0 := by
  intro x hx
  refine (upc_forall_establish (fun _ : Grid => True) (fun i (s : Grid) => s.a0 i = 0)
    P 0 len (fun i => i) _ g hP trivial ?_ ?_ ?_).2 x (Nat.zero_le _) hx
  · intros; trivial
  · intro t i _ _ s _
    exact Function.update_same _ _ _
  · intro t i k _ _ _ _ hne s _ hs
    show Function.update s.a0 i 0 k = 0
    rw [Function.update_noteq (Ne.symm hne)]
    exact hs

/-! ## Stencils: the 5-point compute phase -/

/-- The compute phase of `stencil5` leaves `a0` alone and stores in every interior cell of
`a1` one eighth of the sum of the four edge neighbours in `a0`. -/
theorem stencil5_compute_spec (P size : Nat) (hP : 1 ≤ P) (g : Grid) :
    (stencil5_compute P size g).a0 = g.a0 ∧
    ∀ i j, 1 ≤ i → i < size - 2 + 1 → 1 ≤ j → j < size - 2 + 1 →
      (stencil5_compute P size g).a1 (i * size + j) =
        (g.a0 (i * size + (j - 1)) + g.a0 (i * size + (j + 1)) +
         g.a0 ((i - 1) * size + j) + g.a0 ((i + 1) * size + j)) * (1 / 8) := by
  have key := upc_forall_establish2 (fun s : Grid => s.a0 = g.a0)
    (fun i j (s : Grid) => s.a1 (i * size + j) =
        (g.a0 (i * size + (j - 1)) + g.a0 (i * size + (j + 1)) +
         g.a0 ((i - 1) * size + j) + g.a0 ((i + 1) * size + j)) * (1 / 8))
    P 1 (size - 2 + 1) 1 (size - 2 + 1) (fun i => i * size + i)
    (fun _ i j (g : Grid) => Grid.mk g.a0 (Function.update g.a1 (i * size + j) ((
        g.a0 (i * size + (j - 1)) + g.a0 (i * size + (j + 1)) +
        g.a0 ((i - 1) * size + j) + g.a0 ((i + 1) * size + j)) * (1 / 8))))
    g hP rfl
    (fun t i j _ _ _ _ s hs => hs)
    (by
      intro t i j _ _ _ _ s hs
      show Function.update s.a1 (i * size + j) _ (i * size + j) = _
      rw [Function.update_same, hs])
    (by
      intro t i j k l _ _ _ hj2 _ _ _ hl2 hne s _ hp
      show Function.update s.a1 (i * size + j) _ (k * size + l) = _
      rw [Function.update_noteq]
      · exact hp
      · intro heq
        obtain ⟨h1, h2⟩ := idx2_inj size k l i j (by omega) (by omega) heq
        omega)
  exact key

/-- C8 (counterexample): `size = 3`, one thread, `a0` equal to 1 at the interior cell
`(1,1)` and 0 elsewhere: after the compute phase `a1` holds 0 at `(1,1)`, which is not
strictly greater than 0. -/
theorem stencil5_seed_cell_gets_zero :
    (3 ≤ 3 ∧ 1 ≤ 1 ∧ 1 ≤ 3 - 2) ∧
    (stencil5_compute 1 3 (Grid.mk (fun x => if x = 1 * 3 + 1 then 1 else 0) (fun _ => 5))).a1
      (1 * 3 + 1) = 0 ∧
    ¬ (0 < (stencil5_compute 1 3
          (Grid.mk (fun x => if x = 1 * 3 + 1 then 1 else 0) (fun _ => 5))).a1 (1 * 3 + 1) ∧
       (stencil5_compute 1 3
          (Grid.mk (fun x => if x = 1 * 3 + 1 then 1 else 0) (fun _ => 5))).a1 (1 * 3 + 1) < 1) := by
  simp [stencil5_compute, upc_forall, for_loop, List.range_succ, Function.update]

theorem indicator_idx2 (s ci cj i j : Nat) (hj : j < s) (hcj : cj < s) :
    (if i * s + j = ci * s + cj then (1 : ℚ) else 0) = if i = ci ∧ j = cj then 1 else 0 := by
  simp only [idx2_eq_iff s i j ci cj hj hcj]

/-- C8 (amended): for every `size ≥ 3`, `P ≥ 1` threads and interior cell `c = (ci, cj)`: if
`a0` is 1 at `c` and 0 elsewhere, then after the compute phase of one `stencil5` sweep `a1`
is exactly 0 at `c` (the stencil reads the four edge neighbours, not the cell itself), and
it is `1/8`, strictly between 0 and 1, at every interior cell edge-adjacent to `c`. -/
theorem stencil5_single_seed (P size : Nat) (hP : 1 ≤ P) (hsize : 3 ≤ size) (ci cj : Nat)
    (hci1 : 1 ≤ ci) (hci2 : ci ≤ size - 2) (hcj1 : 1 ≤ cj) (hcj2 : cj ≤ size - 2)
    (a1 : Nat → ℚ) :
    (stencil5_compute P size
      (Grid.mk (fun x => if x = ci * size + cj then 1 else 0) a1)).a1 (ci * size + cj) = 0 ∧
    ∀ i j, 1 ≤ i → i ≤ size - 2 → 1 ≤ j → j ≤ size - 2 →
      ((i = ci ∧ (j = cj + 1 ∨ j + 1 = cj)) ∨ (j = cj ∧ (i = ci + 1 ∨ i + 1 = ci))) →
      (stencil5_compute P size
        (Grid.mk (fun x => if x = ci * size + cj then 1 else 0) a1)).a1 (i * size + j) = 1 / 8 ∧
      (0 : ℚ) < 1 / 8 ∧ (1 / 8 : ℚ) < 1 := by
  have spec := (stencil5_compute_spec P size hP
    (Grid.mk (fun x => if x = ci * size + cj then 1 else 0) a1)).2
  have hc : cj < size := by omega
  constructor
  · rw [spec ci cj hci1 (by omega) hcj1 (by omega)]
    simp only [indicator_idx2 size ci cj ci (cj - 1) (by omega) hc,
      indicator_idx2 size ci cj ci (cj + 1) (by omega) hc,
      indicator_idx2 size ci cj (ci - 1) cj hc hc,
      indicator_idx2 size ci cj (ci + 1) cj hc hc]
    split_ifs <;> first | omega | norm_num
  · intro i j hi1 hi2 hj1 hj2 hadj
    refine ⟨?_, by norm_num, by norm_num⟩
    rw [spec i j hi1 (by omega) hj1 (by omega)]
    simp only [indicator_idx2 size ci cj i (j - 1) (by omega) hc,
      indicator_idx2 size ci cj i (j + 1) (by omega) hc,
      indicator_idx2 size ci cj (i - 1) j (by omega) hc,
      indicator_idx2 size ci cj (i + 1) j (by omega) hc]
    split_ifs <;> first | omega | norm_num

theorem stencil5_single_seed_witness :
    (1 ≤ 2 ∧ 3 ≤ 5 ∧ 1 ≤ 2 ∧ 2 ≤ 5 - 2 ∧ 1 ≤ 3 ∧ 3 ≤ 5 - 2) ∧
    ((stencil5_compute 2 5
      (Grid.mk (fun x => if x = 2 * 5 + 3 then 1 else 0) (fun _ => 5))).a1 (2 * 5 + 3) = 0 ∧
    ∀ i j, 1 ≤ i → i ≤ 5 - 2 → 1 ≤ j → j ≤ 5 - 2 →
      ((i = 2 ∧ (j = 3 + 1 ∨ j + 1 = 3)) ∨ (j = 3 ∧ (i = 2 + 1 ∨ i + 1 = 2))) →
      (stencil5_compute 2 5
        (Grid.mk (fun x => if x = 2 * 5 + 3 then 1 else 0) (fun _ => 5))).a1 (i * 5 + j) = 1 / 8 ∧
      (0 : ℚ) < 1 / 8 ∧ (1 / 8 : ℚ) < 1) :=
  ⟨by decide,
   stencil5_single_seed 2 5 (by decide) (by decide) 2 3 (by decide) (by decide) (by decide)
     (by decide) (fun _ => 5)⟩

/-! ## Stencils: the halo stays zero -/

theorem halo2_of_zero (size : Nat) (a : Nat → ℚ) (h : ∀ x, x < size * size → a x = 0) :
    HaloZero2 size a :=
  fun i j hi hj _ => h _ (idx2_lt size i j hi hj)

theorem halo3_of_zero (size : Nat) (a : Nat → ℚ) (h : ∀ x, x < size * size * size → a x = 0) :
    HaloZero3 size a :=
  fun i j k hi hj hk _ => h _ (idx3_lt size i j k hi hj hk)

theorem stencil5_init_halo (P size : Nat) (hP : 1 ≤ P) (rnd : Nat → Nat → ℚ) (g : Grid) :
    HaloZero2 size (stencil5_init P size rnd g).a0 := by
  unfold stencil5_init
  exact nest2_inv (fun s : Grid => HaloZero2 size s.a0) P 1 (size - 2 + 1) 1 (size - 2 + 1) _
    (fun t i j (g : Grid) =>
      Grid.mk (Function.update g.a0 (i * size + j) (rnd t (i * size + j))) g.a1) _
    (halo2_of_zero size _ (zero_all P (size * size) hP g))
    (fun t i j h1 h2 j1 j2 s hs => halo2_update size s.a0 hs i j _ h1 h2 j1 j2)

theorem stencil5_sweep_halo (P size : Nat) (g : Grid) (h : HaloZero2 size g.a0) :
    HaloZero2 size (stencil5_copy P size (stencil5_compute P size g)).a0 := by
  have h1 : HaloZero2 size (stencil5_compute P size g).a0 := by
    unfold stencil5_compute
    exact nest2_inv (fun s : Grid => HaloZero2 size s.a0) P 1 (size - 2 + 1) 1 (size - 2 + 1) _
      (fun _ i j (g : Grid) => Grid.mk g.a0 (Function.update g.a1 (i * size + j) ((
        g.a0 (i * size + (j - 1)) + g.a0 (i * size + (j + 1)) +
        g.a0 ((i - 1) * size + j) + g.a0 ((i + 1) * size + j)) * (1 / 8)))) _ h
      (fun t i j _ _ _ _ s hs => hs)
  unfold stencil5_copy
  exact nest2_inv (fun s : Grid => HaloZero2 size s.a0) P 1 (size - 2 + 1) 1 (size - 2 + 1) _
    (fun _ i j (g : Grid) =>
      Grid.mk (Function.update g.a0 (i * size + j) (g.a1 (i * size + j))) g.a1) _ h1
    (fun t i j h1 h2 j1 j2 s hs => halo2_update size s.a0 hs i j _ h1 h2 j1 j2)

theorem stencil5_run_halo (P size k : Nat) (hP : 1 ≤ P) (rnd : Nat → Nat → ℚ) (g : Grid) :
    HaloZero2 size (stencil5_run P size k rnd g).a0 := by
  unfold stencil5_run
  exact for_loop_inv (fun s : Grid => HaloZero2 size s.a0) 0 k _ _
    (stencil5_init_halo P size hP rnd g) (fun _ _ _ s hs => stencil5_sweep_halo P size s hs)

theorem stencil9_init_halo (P size : Nat) (hP : 1 ≤ P) (rnd : Nat → Nat → ℚ) (g : Grid) :
    HaloZero2 size (stencil9_init P size rnd g).a0 := by
  unfold stencil9_init
  exact nest2_inv (fun s : Grid => HaloZero2 size s.a0) P 1 (size - 2 + 1) 1 (size - 2 + 1) _
    (fun t i j (g : Grid) =>
      Grid.mk (Function.update g.a0 (i * size + j) (rnd t (i * size + j))) g.a1) _
    (halo2_of_zero size _ (zero_all P (size * size) hP g))
    (fun t i j h1 h2 j1 j2 s hs => halo2_update size s.a0 hs i j _ h1 h2 j1 j2)

theorem stencil9_sweep_halo (P size : Nat) (g : Grid) (h : HaloZero2 size g.a0) :
    HaloZero2 size (stencil9_copy P size (stencil9_compute P size g)).a0 := by
  have h1 : HaloZero2 size (stencil9_compute P size g).a0 := by
    unfold stencil9_compute
    exact nest2_inv (fun s : Grid => HaloZero2 size s.a0) P 1 (size - 2 + 1) 1 (size - 2 + 1) _
      (fun _ i j (g : Grid) => Grid.mk g.a0 (Function.update g.a1 (i * size + j) ((
        g.a0 (i * size + (j - 1)) + g.a0 (i * size + (j + 1)) +
        g.a0 ((i - 1) * size + j) + g.a0 ((i + 1) * size + j) +
        g.a0 ((i - 1) * size + (j - 1)) + g.a0 ((i - 1) * size + (j + 1)) +
        g.a0 ((i + 1) * size + (j - 1)) + g.a0 ((i + 1) * size + (j + 1))) * (1 / 8)))) _ h
      (fun t i j _ _ _ _ s hs => hs)
  unfold stencil9_copy
  exact nest2_inv (fun s : Grid => HaloZero2 size s.a0) P 1 (size - 2 + 1) 1 (size - 2 + 1) _
    (fun _ i j (g : Grid) =>
      Grid.mk (Function.update g.a0 (i * size + j) (g.a1 (i * size + j))) g.a1) _ h1
    (fun t i j h1 h2 j1 j2 s hs => halo2_update size s.a0 hs i j _ h1 h2 j1 j2)

theorem stencil9_run_halo (P size k : Nat) (hP : 1 ≤ P) (rnd : Nat → Nat → ℚ) (g : Grid) :
    HaloZero2 size (stencil9_run P size k rnd g).a0 := by
  unfold stencil9_run
  exact for_loop_inv (fun s : Grid => HaloZero2 size s.a0) 0 k _ _
    (stencil9_init_halo P size hP rnd g) (fun _ _ _ s hs => stencil9_sweep_halo P size s hs)

theorem stencil27_init_halo (P size : Nat) (hP : 1 ≤ P) (rnd : Nat → Nat → ℚ) (g : Grid) :
    HaloZero3 size (stencil27_init P size rnd g).a0 := by
  unfold stencil27_init
  exact for_loop_inv (fun s : Grid => HaloZero3 size s.a0) 0 P _ _
    (halo3_of_zero size _ (zero_all P (size * size * size) hP g))
    (fun t _ _ s hs =>
      for3_inv (fun s : Grid => HaloZero3 size s.a0) 1 (size - 2 + 1) 1 (size - 2 + 1) 1
        (size - 2 + 1)
        (fun i j k (g : Grid) =>
          Grid.mk (Function.update g.a0 (i * (size * size) + j * size + k)
            (rnd t (i * (size * size) + j * size + k))) g.a1) s hs
        (fun i j k h1 h2 j1 j2 k1 k2 s hs =>
          halo3_update size s.a0 hs i j k _ h1 h2 j1 j2 k1 k2))

theorem stencil27_sweep_halo (P size : Nat) (g : Grid) (h : HaloZero3 size g.a0) :
    HaloZero3 size (stencil27_copy P size (stencil27_compute P size g)).a0 := by
  have h1 : HaloZero3 size (stencil27_compute P size g).a0 := by
    unfold stencil27_compute
    exact nest3_inv (fun s : Grid => HaloZero3 size s.a0) P 1 (size - 2 + 1) 1 (size - 2 + 1) 1
      (size - 2 + 1) _ _ _ h (fun t i j k _ _ _ _ _ _ s hs => hs)
  unfold stencil27_copy
  exact nest3_inv (fun s : Grid => HaloZero3 size s.a0) P 1 (size - 2 + 1) 1 (size - 2 + 1) 1
    (size - 2 + 1) _
    (fun _ i j k (g : Grid) =>
      Grid.mk (Function.update g.a0 (i * (size * size) + j * size + k)
        (g.a1 (i * (size * size) + j * size + k))) g.a1) _ h1
    (fun t i j k h1 h2 j1 j2 k1 k2 s hs => halo3_update size s.a0 hs i j k _ h1 h2 j1 j2 k1 k2)

theorem stencil27_run_halo (P size k : Nat) (hP : 1 ≤ P) (rnd : Nat → Nat → ℚ) (g : Grid) :
    HaloZero3 size (stencil27_run P size k rnd g).a0 := by
  unfold stencil27_run
  exact for_loop_inv (fun s : Grid => HaloZero3 size s.a0) 0 k _ _
    (stencil27_init_halo P size hP rnd g) (fun _ _ _ s hs => stencil27_sweep_halo P size s hs)

theorem stencil19_init_halo (P size : Nat) (hP : 1 ≤ P) (rnd : Nat → Nat → ℚ) (g : Grid) :
    HaloZero3 size (stencil19_init P size rnd g).a0 := by
  unfold stencil19_init
  exact nest3_inv (fun s : Grid => HaloZero3 size s.a0) P 1 (size - 2 + 1) 1 (size - 2 + 1) 1
    (size - 2 + 1) _
    (fun t i j k (g : Grid) =>
      Grid.mk (Function.update g.a0 (i * (size * size) + j * size + k)
        (rnd t (i * (size * size) + j * size + k))) g.a1) _
    (halo3_of_zero size _ (zero_all P (size * size * size) hP g))
    (fun t i j k h1 h2 j1 j2 k1 k2 s hs => halo3_update size s.a0 hs i j k _ h1 h2 j1 j2 k1 k2)

theorem stencil19_sweep_halo (P size : Nat) (g : Grid) (h : HaloZero3 size g.a0) :
    HaloZero3 size (stencil19_copy P size (stencil19_compute P size g)).a0 := by
  have h1 : HaloZero3 size (stencil19_compute P size g).a0 := by
    unfold stencil19_compute
    exact nest3_inv (fun s : Grid => HaloZero3 size s.a0) P 1 (size - 2 + 1) 1 (size - 2 + 1) 1
      (size - 2 + 1) _ _ _ h (fun t i j k _ _ _ _ _ _ s hs => hs)
  unfold stencil19_copy
  exact nest3_inv (fun s : Grid => HaloZero3 size s.a0) P 1 (size - 2 + 1) 1 (size - 2 + 1) 1
    (size - 2 + 1) _
    (fun _ i j k (g : Grid) =>
      Grid.mk (Function.update g.a0 (i * (size * size) + j * size + k)
        (g.a1 (i * (size * size) + j * size + k))) g.a1) _ h1
    (fun t i j k h1 h2 j1 j2 k1 k2 s hs => halo3_update size s.a0 hs i j k _ h1 h2 j1 j2 k1 k2)

theorem stencil19_run_halo (P size k : Nat) (hP : 1 ≤ P) (rnd : Nat → Nat → ℚ) (g : Grid) :
    HaloZero3 size (stencil19_run P size k rnd g).a0 := by
  unfold stencil19_run
  exact for_loop_inv (fun s : Grid => HaloZero3 size s.a0) 0 k _ _
    (stencil19_init_halo P size hP rnd g) (fun _ _ _ s hs => stencil19_sweep_halo P size s hs)

/-- C9: for each of the four stencil kernels, `P ≥ 1` threads, every size and every number
`k` of sweeps after the initialisation (zeroing of `a0`, seeding of the interior), every
halo cell of `a0` (some coordinate equal to `0` or to `size - 1`) is exactly 0. -/
theorem stencil_halo_stays_zero (P size k : Nat) (hP : 1 ≤ P) (hk : k ≤ REPS)
    (rnd : Nat → Nat → ℚ) (g : Grid) :
    (∀ i j l, i < size → j < size → l < size →
      (i = 0 ∨ i = size - 1 ∨ j = 0 ∨ j = size - 1 ∨ l = 0 ∨ l = size - 1) →
      (stencil27_run P size k rnd g).a0 (i * (size * size) + j * size + l) = 0) ∧
    (∀ i j l, i < size → j < size → l < size →
      (i = 0 ∨ i = size - 1 ∨ j = 0 ∨ j = size - 1 ∨ l = 0 ∨ l = size - 1) →
      (stencil19_run P size k rnd g).a0 (i * (size * size) + j * size + l) = 0) ∧
    (∀ i j, i < size → j < size → (i = 0 ∨ i = size - 1 ∨ j = 0 ∨ j = size - 1) →
      (stencil9_run P size k rnd g).a0 (i * size + j) = 0) ∧
    (∀ i j, i < size → j < size → (i = 0 ∨ i = size - 1 ∨ j = 0 ∨ j = size - 1) →
      (stencil5_run P size k rnd g).a0 (i * size + j) = 0) :=
  ⟨stencil27_run_halo P size k hP rnd g, stencil19_run_halo P size k hP rnd g,
   stencil9_run_halo P size k hP rnd g, stencil5_run_halo P size k hP rnd g⟩

theorem stencil_halo_stays_zero_witness :
    (1 ≤ 2 ∧ 3 ≤ REPS) ∧
    ((∀ i j l, i < 4 → j < 4 → l < 4 →
      (i = 0 ∨ i = 4 - 1 ∨ j = 0 ∨ j = 4 - 1 ∨ l = 0 ∨ l = 4 - 1) →
      (stencil27_run 2 4 3 (fun _ _ => 1 / 2) (Grid.mk (fun _ => 7) (fun _ => 7))).a0
        (i * (4 * 4) + j * 4 + l) = 0) ∧
    (∀ i j l, i < 4 → j < 4 → l < 4 →
      (i = 0 ∨ i = 4 - 1 ∨ j = 0 ∨ j = 4 - 1 ∨ l = 0 ∨ l = 4 - 1) →
      (stencil19_run 2 4 3 (fun _ _ => 1 / 2) (Grid.mk (fun _ => 7) (fun _ => 7))).a0
        (i * (4 * 4) + j * 4 + l) = 0) ∧
    (∀ i j, i < 4 → j < 4 → (i = 0 ∨ i = 4 - 1 ∨ j = 0 ∨ j = 4 - 1) →
      (stencil9_run 2 4 3 (fun _ _ => 1 / 2) (Grid.mk (fun _ => 7) (fun _ => 7))).a0
        (i * 4 + j) = 0) ∧
    (∀ i j, i < 4 → j < 4 → (i = 0 ∨ i = 4 - 1 ∨ j = 0 ∨ j = 4 - 1) →
      (stencil5_run 2 4 3 (fun _ _ => 1 / 2) (Grid.mk (fun _ => 7) (fun _ => 7))).a0
        (i * 4 + j) = 0)) :=
  ⟨by decide,
   stencil_halo_stays_zero 2 4 3 (by decide) (by decide) (fun _ _ => 1 / 2)
     (Grid.mk (fun _ => 7) (fun _ => 7))⟩

/-! ## Stencils: allocation failure -/

/-- C10 (code evaluated at the failing input): one thread, `size = 3`, `a0 == NULL`.  Each of
the four kernels reports the error and then still executes the zeroing, the seeding and the
`REPS` sweeps: the cell of index 0, which held 7, has been zeroed. -/
theorem stencil_alloc_failure_runs_on :
    ((stencil27 1 3 true false (fun _ _ => 1 / 2) (Grid.mk (fun _ => 7) (fun _ => 7))).error_reported
        = true ∧
      (stencil27 1 3 true false (fun _ _ => 1 / 2) (Grid.mk (fun _ => 7) (fun _ => 7))).swept
        = some (stencil27_run 1 3 REPS (fun _ _ => 1 / 2) (Grid.mk (fun _ => 7) (fun _ => 7))) ∧
      (stencil27_run 1 3 REPS (fun _ _ => 1 / 2) (Grid.mk (fun _ => 7) (fun _ => 7))).a0 0 = 0) ∧
    ((stencil19 1 3 true false (fun _ _ => 1 / 2) (Grid.mk (fun _ => 7) (fun _ => 7))).error_reported
        = true ∧
      (stencil19 1 3 true false (fun _ _ => 1 / 2) (Grid.mk (fun _ => 7) (fun _ => 7))).swept
        = some (stencil19_run 1 3 REPS (fun _ _ => 1 / 2) (Grid.mk (fun _ => 7) (fun _ => 7))) ∧
      (stencil19_run 1 3 REPS (fun _ _ => 1 / 2) (Grid.mk (fun _ => 7) (fun _ => 7))).a0 0 = 0) ∧
    ((stencil9 1 3 true false (fun _ _ => 1 / 2) (Grid.mk (fun _ => 7) (fun _ => 7))).error_reported
        = true ∧
      (stencil9 1 3 true false (fun _ _ => 1 / 2) (Grid.mk (fun _ => 7) (fun _ => 7))).swept
        = some (stencil9_run 1 3 REPS (fun _ _ => 1 / 2) (Grid.mk (fun _ => 7) (fun _ => 7))) ∧
      (stencil9_run 1 3 REPS (fun _ _ => 1 / 2) (Grid.mk (fun _ => 7) (fun _ => 7))).a0 0 = 0) ∧
    ((stencil5 1 3 true false (fun _ _ => 1 / 2) (Grid.mk (fun _ => 7) (fun _ => 7))).error_reported
        = true ∧
      (stencil5 1 3 true false (fun _ _ => 1 / 2) (Grid.mk (fun _ => 7) (fun _ => 7))).swept
        = some (stencil5_run 1 3 REPS (fun _ _ => 1 / 2) (Grid.mk (fun _ => 7) (fun _ => 7))) ∧
      (stencil5_run 1 3 REPS (fun _ _ => 1 / 2) (Grid.mk (fun _ => 7) (fun _ => 7))).a0 0 = 0) :=
  ⟨⟨rfl, rfl, stencil27_run_halo 1 3 REPS (by decide) _ _ 0 0 0 (by decide) (by decide)
      (by decide) (Or.inl rfl)⟩,
   ⟨rfl, rfl, stencil19_run_halo 1 3 REPS (by decide) _ _ 0 0 0 (by decide) (by decide)
      (by decide) (Or.inl rfl)⟩,
   ⟨rfl, rfl, stencil9_run_halo 1 3 REPS (by decide) _ _ 0 0 (by decide) (by decide)
      (Or.inl rfl)⟩,
   ⟨rfl, rfl, stencil5_run_halo 1 3 REPS (by decide) _ _ 0 0 (by decide) (by decide)
      (Or.inl rfl)⟩⟩

/-! ## Stencils: what the compute and copy phases store -/

/-- A planar compute phase (any affinity, any value that depends on `a0` only) leaves `a0`
alone and stores the value in every interior cell of `a1`. -/
theorem compute2_spec (P size : Nat) (hP : 1 ≤ P) (aff : Nat → Nat)
    (val : Grid → Nat → Nat → ℚ)
    (hval : ∀ s t : Grid, s.a0 = t.a0 → ∀ i j, val s i j = val t i j) (g : Grid) :
    (upc_forall P 1 (size - 2 + 1) aff (fun _ i g =>
      for_loop 1 (size - 2 + 1) (fun j g =>
        Grid.mk g.a0 (Function.update g.a1 (i * size + j) (val g i j))) g) g).a0 = g.a0 ∧
    ∀ i j, 1 ≤ i → i < size - 2 + 1 → 1 ≤ j → j < size - 2 + 1 →
      (upc_forall P 1 (size - 2 + 1) aff (fun _ i g =>
        for_loop 1 (size - 2 + 1) (fun j g =>
          Grid.mk g.a0 (Function.update g.a1 (i * size + j) (val g i j))) g) g).a1
        (i * size + j) = val g i j := by
  exact upc_forall_establish2 (fun s : Grid => s.a0 = g.a0)
    (fun i j (s : Grid) => s.a1 (i * size + j) = val g i j)
    P 1 (size - 2 + 1) 1 (size - 2 + 1) aff
    (fun _ i j (g : Grid) => Grid.mk g.a0 (Function.update g.a1 (i * size + j) (val g i j)))
    g hP rfl
    (fun t i j _ _ _ _ s hs => hs)
    (by
      intro t i j _ _ _ _ s hs
      show Function.update s.a1 (i * size + j) _ (i * size + j) = _
      rw [Function.update_same]
      exact hval s g hs i j)
    (by
      intro t i j k l _ _ _ hj2 _ _ _ hl2 hne s _ hp
      show Function.update s.a1 (i * size + j) _ (k * size + l) = _
      rw [Function.update_noteq]
      · exact hp
      · intro heq
        obtain ⟨h1, h2⟩ := idx2_inj size k l i j (by omega) (by omega) heq
        omega)

/-- A planar copy phase leaves `a1` alone, copies every interior cell of `a1` to `a0` and
leaves all other cells of `a0` alone. -/
theorem copy2_spec (P size : Nat) (hP : 1 ≤ P) (aff : Nat → Nat) (g : Grid) :
    (upc_forall P 1 (size - 2 + 1) aff (fun _ i g =>
      for_loop 1 (size - 2 + 1) (fun j g =>
        Grid.mk (Function.update g.a0 (i * size + j) (g.a1 (i * size + j))) g.a1) g) g).a1
      = g.a1 ∧
    (∀ x, (∀ i j, 1 ≤ i → i < size - 2 + 1 → 1 ≤ j → j < size - 2 + 1 → x ≠ i * size + j) →
      (upc_forall P 1 (size - 2 + 1) aff (fun _ i g =>
        for_loop 1 (size - 2 + 1) (fun j g =>
          Grid.mk (Function.update g.a0 (i * size + j) (g.a1 (i * size + j))) g.a1) g) g).a0 x
        = g.a0 x) ∧
    ∀ i j, 1 ≤ i → i < size - 2 + 1 → 1 ≤ j → j < size - 2 + 1 →
      (upc_forall P 1 (size - 2 + 1) aff (fun _ i g =>
        for_loop 1 (size - 2 + 1) (fun j g =>
          Grid.mk (Function.update g.a0 (i * size + j) (g.a1 (i * size + j))) g.a1) g) g).a0
        (i * size + j) = g.a1 (i * size + j) := by
  have key := upc_forall_establish2
    (fun s : Grid => s.a1 = g.a1 ∧
      ∀ x, (∀ i j, 1 ≤ i → i < size - 2 + 1 → 1 ≤ j → j < size - 2 + 1 → x ≠ i * size + j) →
        s.a0 x = g.a0 x)
    (fun i j (s : Grid) => s.a0 (i * size + j) = g.a1 (i * size + j))
    P 1 (size - 2 + 1) 1 (size - 2 + 1) aff
    (fun _ i j (g : Grid) =>
      Grid.mk (Function.update g.a0 (i * size + j) (g.a1 (i * size + j))) g.a1)
    g hP ⟨rfl, fun _ _ => rfl⟩
    (by
      intro t i j i1 i2 j1 j2 s hs
      refine ⟨hs.1, fun x hx => ?_⟩
      show Function.update s.a0 (i * size + j) _ x = _
      rw [Function.update_noteq (hx i j i1 i2 j1 j2)]
      exact hs.2 x hx)
    (by
      intro t i j _ _ _ _ s hs
      show Function.update s.a0 (i * size + j) _ (i * size + j) = _
      rw [Function.update_same, hs.1])
    (by
      intro t i j k l _ _ _ hj2 _ _ _ hl2 hne s _ hp
      show Function.update s.a0 (i * size + j) _ (k * size + l) = _
      rw [Function.update_noteq]
      · exact hp
      · intro heq
        obtain ⟨h1, h2⟩ := idx2_inj size k l i j (by omega) (by omega) heq
        omega)
  exact ⟨key.1.1, key.1.2, key.2⟩

/-- A cubic compute phase (any value that depends on `a0` only) leaves `a0` alone and
stores the value in every interior cell of `a1`. -/
theorem compute3_spec (P size : Nat) (hP : 1 ≤ P) (aff : Nat → Nat)
    (val : Grid → Nat → Nat → Nat → ℚ)
    (hval : ∀ s t : Grid, s.a0 = t.a0 → ∀ i j k, val s i j k = val t i j k) (g : Grid) :
    (upc_forall P 1 (size - 2 + 1) aff (fun _ i g =>
      for_loop 1 (size - 2 + 1) (fun j g =>
        for_loop 1 (size - 2 + 1) (fun k g =>
          Grid.mk g.a0 (Function.update g.a1 (i * (size * size) + j * size + k)
            (val g i j k))) g) g) g).a0 = g.a0 ∧
    ∀ i j k, 1 ≤ i → i < size - 2 + 1 → 1 ≤ j → j < size - 2 + 1 → 1 ≤ k → k < size - 2 + 1 →
      (upc_forall P 1 (size - 2 + 1) aff (fun _ i g =>
        for_loop 1 (size - 2 + 1) (fun j g =>
          for_loop 1 (size - 2 + 1) (fun k g =>
            Grid.mk g.a0 (Function.update g.a1 (i * (size * size) + j * size + k)
              (val g i j k))) g) g) g).a1
        (i * (size * size) + j * size + k) = val g i j k := by
  exact upc_forall_establish3 (fun s : Grid => s.a0 = g.a0)
    (fun i j k (s : Grid) => s.a1 (i * (size * size) + j * size + k) = val g i j k)
    P 1 (size - 2 + 1) 1 (size - 2 + 1) 1 (size - 2 + 1) aff
    (fun _ i j k (g : Grid) =>
      Grid.mk g.a0 (Function.update g.a1 (i * (size * size) + j * size + k) (val g i j k)))
    g hP rfl
    (fun t i j k _ _ _ _ _ _ s hs => hs)
    (by
      intro t i j k _ _ _ _ _ _ s hs
      show Function.update s.a1 (i * (size * size) + j * size + k) _ _ = _
      rw [Function.update_same]
      exact hval s g hs i j k)
    (by
      intro t i j k i2 j2 k2 _ _ _ hj2 _ hk2 _ _ _ hj4 _ hk4 hne s _ hp
      show Function.update s.a1 (i * (size * size) + j * size + k) _
        (i2 * (size * size) + j2 * size + k2) = _
      rw [Function.update_noteq]
      · exact hp
      · intro heq
        obtain ⟨h1, h2, h3⟩ := idx3_inj size i2 j2 k2 i j k (by omega) (by omega) (by omega)
          (by omega) heq
        omega)

/-- A cubic copy phase leaves `a1` alone, copies every interior cell of `a1` to `a0` and
leaves all other cells of `a0` alone. -/
theorem copy3_spec (P size : Nat) (hP : 1 ≤ P) (aff : Nat → Nat) (g : Grid) :
    (upc_forall P 1 (size - 2 + 1) aff (fun _ i g =>
      for_loop 1 (size - 2 + 1) (fun j g =>
        for_loop 1 (size - 2 + 1) (fun k g =>
          Grid.mk (Function.update g.a0 (i * (size * size) + j * size + k)
            (g.a1 (i * (size * size) + j * size + k))) g.a1) g) g) g).a1 = g.a1 ∧
    (∀ x, (∀ i j k, 1 ≤ i → i < size - 2 + 1 → 1 ≤ j → j < size - 2 + 1 → 1 ≤ k →
        k < size - 2 + 1 → x ≠ i * (size * size) + j * size + k) →
      (upc_forall P 1 (size - 2 + 1) aff (fun _ i g =>
        for_loop 1 (size - 2 + 1) (fun j g =>
          for_loop 1 (size - 2 + 1) (fun k g =>
            Grid.mk (Function.update g.a0 (i * (size * size) + j * size + k)
              (g.a1 (i * (size * size) + j * size + k))) g.a1) g) g) g).a0 x = g.a0 x) ∧
    ∀ i j k, 1 ≤ i → i < size - 2 + 1 → 1 ≤ j → j < size - 2 + 1 → 1 ≤ k → k < size - 2 + 1 →
      (upc_forall P 1 (size - 2 + 1) aff (fun _ i g =>
        for_loop 1 (size - 2 + 1) (fun j g =>
          for_loop 1 (size - 2 + 1) (fun k g =>
            Grid.mk (Function.update g.a0 (i * (size * size) + j * size + k)
              (g.a1 (i * (size * size) + j * size + k))) g.a1) g) g) g).a0
        (i * (size * size) + j * size + k) = g.a1 (i * (size * size) + j * size + k) := by
  have key := upc_forall_establish3
    (fun s : Grid => s.a1 = g.a1 ∧
      ∀ x, (∀ i j k, 1 ≤ i → i < size - 2 + 1 → 1 ≤ j → j < size - 2 + 1 → 1 ≤ k →
        k < size - 2 + 1 → x ≠ i * (size * size) + j * size + k) → s.a0 x = g.a0 x)
    (fun i j k (s : Grid) =>
      s.a0 (i * (size * size) + j * size + k) = g.a1 (i * (size * size) + j * size + k))
    P 1 (size - 2 + 1) 1 (size - 2 + 1) 1 (size - 2 + 1) aff
    (fun _ i j k (g : Grid) =>
      Grid.mk (Function.update g.a0 (i * (size * size) + j * size + k)
        (g.a1 (i * (size * size) + j * size + k))) g.a1)
    g hP ⟨rfl, fun _ _ => rfl⟩
    (by
      intro t i j k i1 i2 j1 j2 k1 k2 s hs
      refine ⟨hs.1, fun x hx => ?_⟩
      show Function.update s.a0 (i * (size * size) + j * size + k) _ x = _
      rw [Function.update_noteq (hx i j k i1 i2 j1 j2 k1 k2)]
      exact hs.2 x hx)
    (by
      intro t i j k _ _ _ _ _ _ s hs
      show Function.update s.a0 (i * (size * size) + j * size + k) _ _ = _
      rw [Function.update_same, hs.1])
    (by
      intro t i j k i2 j2 k2 _ _ _ hj2 _ hk2 _ _ _ hj4 _ hk4 hne s _ hp
      show Function.update s.a0 (i * (size * size) + j * size + k) _
        (i2 * (size * size) + j2 * size + k2) = _
      rw [Function.update_noteq]
      · exact hp
      · intro heq
        obtain ⟨h1, h2, h3⟩ := idx3_inj size i2 j2 k2 i j k (by omega) (by omega) (by omega)
          (by omega) heq
        omega)
  exact ⟨key.1.1, key.1.2, key.2⟩

/-! ## Stencils: one sweep -/

/-- One sweep of `stencil27` (compute phase, then copy phase): every interior cell of `a0`
receives the weighted neighbour sum of the pre-sweep `a0`, every other cell is unchanged. -/
theorem stencil27_sweep_spec (P size : Nat) (hP : 1 ≤ P) (g : Grid) :
    (∀ i j k, 1 ≤ i → i < size - 2 + 1 → 1 ≤ j → j < size - 2 + 1 → 1 ≤ k → k < size - 2 + 1 →
      (stencil27_copy P size (stencil27_compute P size g)).a0 (i * (size * size) + j * size + k) = (
        g.a0 (i * (size * size) + (j - 1) * size + k) + g.a0 (i * (size * size) + (j + 1) * size + k) +
        g.a0 ((i - 1) * (size * size) + j * size + k) + g.a0 ((i + 1) * (size * size) + j * size + k) +
        g.a0 ((i - 1) * (size * size) + (j - 1) * size + k) + g.a0 ((i - 1) * (size * size) + (j + 1) * size + k) +
        g.a0 ((i + 1) * (size * size) + (j - 1) * size + k) + g.a0 ((i + 1) * (size * size) + (j + 1) * size + k) +
        g.a0 (i * (size * size) + (j - 1) * size + (k - 1)) + g.a0 (i * (size * size) + (j + 1) * size + (k - 1)) +
        g.a0 ((i - 1) * (size * size) + j * size + (k - 1)) + g.a0 ((i + 1) * (size * size) + j * size + (k - 1)) +
        g.a0 ((i - 1) * (size * size) + (j - 1) * size + (k - 1)) + g.a0 ((i - 1) * (size * size) + (j + 1) * size + (k - 1)) +
        g.a0 ((i + 1) * (size * size) + (j - 1) * size + (k - 1)) + g.a0 ((i + 1) * (size * size) + (j + 1) * size + (k - 1)) +
        g.a0 (i * (size * size) + (j - 1) * size + (k + 1)) + g.a0 (i * (size * size) + (j + 1) * size + (k + 1)) +
        g.a0 ((i - 1) * (size * size) + j * size + (k + 1)) + g.a0 ((i + 1) * (size * size) + j * size + (k + 1)) +
        g.a0 ((i - 1) * (size * size) + (j - 1) * size + (k + 1)) + g.a0 ((i - 1) * (size * size) + (j + 1) * size + (k + 1)) +
        g.a0 ((i + 1) * (size * size) + (j - 1) * size + (k + 1)) + g.a0 ((i + 1) * (size * size) + (j + 1) * size + (k + 1)) +
        g.a0 (i * (size * size) + j * size + (k - 1)) + g.a0 (i * (size * size) + j * size + (k + 1))
        ) * (1 / 26)) ∧
    (∀ x, (∀ i j k, 1 ≤ i → i < size - 2 + 1 → 1 ≤ j → j < size - 2 + 1 → 1 ≤ k →
        k < size - 2 + 1 → x ≠ i * (size * size) + j * size + k) →
      (stencil27_copy P size (stencil27_compute P size g)).a0 x = g.a0 x) := by
  have hc : (stencil27_compute P size g).a0 = g.a0 ∧
      ∀ i j k, 1 ≤ i → i < size - 2 + 1 → 1 ≤ j → j < size - 2 + 1 → 1 ≤ k → k < size - 2 + 1 →
        (stencil27_compute P size g).a1 (i * (size * size) + j * size + k) = (
        g.a0 (i * (size * size) + (j - 1) * size + k) + g.a0 (i * (size * size) + (j + 1) * size + k) +
        g.a0 ((i - 1) * (size * size) + j * size + k) + g.a0 ((i + 1) * (size * size) + j * size + k) +
        g.a0 ((i - 1) * (size * size) + (j - 1) * size + k) + g.a0 ((i - 1) * (size * size) + (j + 1) * size + k) +
        g.a0 ((i + 1) * (size * size) + (j - 1) * size + k) + g.a0 ((i + 1) * (size * size) + (j + 1) * size + k) +
        g.a0 (i * (size * size) + (j - 1) * size + (k - 1)) + g.a0 (i * (size * size) + (j + 1) * size + (k - 1)) +
        g.a0 ((i - 1) * (size * size) + j * size + (k - 1)) + g.a0 ((i + 1) * (size * size) + j * size + (k - 1)) +
        g.a0 ((i - 1) * (size * size) + (j - 1) * size + (k - 1)) + g.a0 ((i - 1) * (size * size) + (j + 1) * size + (k - 1)) +
        g.a0 ((i + 1) * (size * size) + (j - 1) * size + (k - 1)) + g.a0 ((i + 1) * (size * size) + (j + 1) * size + (k - 1)) +
        g.a0 (i * (size * size) + (j - 1) * size + (k + 1)) + g.a0 (i * (size * size) + (j + 1) * size + (k + 1)) +
        g.a0 ((i - 1) * (size * size) + j * size + (k + 1)) + g.a0 ((i + 1) * (size * size) + j * size + (k + 1)) +
        g.a0 ((i - 1) * (size * size) + (j - 1) * size + (k + 1)) + g.a0 ((i - 1) * (size * size) + (j + 1) * size + (k + 1)) +
        g.a0 ((i + 1) * (size * size) + (j - 1) * size + (k + 1)) + g.a0 ((i + 1) * (size * size) + (j + 1) * size + (k + 1)) +
        g.a0 (i * (size * size) + j * size + (k - 1)) + g.a0 (i * (size * size) + j * size + (k + 1))
        ) * (1 / 26) :=
    compute3_spec P size hP (fun i => i) (fun g i j k => (
        g.a0 (i * (size * size) + (j - 1) * size + k) + g.a0 (i * (size * size) + (j + 1) * size + k) +
        g.a0 ((i - 1) * (size * size) + j * size + k) + g.a0 ((i + 1) * (size * size) + j * size + k) +
        g.a0 ((i - 1) * (size * size) + (j - 1) * size + k) + g.a0 ((i - 1) * (size * size) + (j + 1) * size + k) +
        g.a0 ((i + 1) * (size * size) + (j - 1) * size + k) + g.a0 ((i + 1) * (size * size) + (j + 1) * size + k) +
        g.a0 (i * (size * size) + (j - 1) * size + (k - 1)) + g.a0 (i * (size * size) + (j + 1) * size + (k - 1)) +
        g.a0 ((i - 1) * (size * size) + j * size + (k - 1)) + g.a0 ((i + 1) * (size * size) + j * size + (k - 1)) +
        g.a0 ((i - 1) * (size * size) + (j - 1) * size + (k - 1)) + g.a0 ((i - 1) * (size * size) + (j + 1) * size + (k - 1)) +
        g.a0 ((i + 1) * (size * size) + (j - 1) * size + (k - 1)) + g.a0 ((i + 1) * (size * size) + (j + 1) * size + (k - 1)) +
        g.a0 (i * (size * size) + (j - 1) * size + (k + 1)) + g.a0 (i * (size * size) + (j + 1) * size + (k + 1)) +
        g.a0 ((i - 1) * (size * size) + j * size + (k + 1)) + g.a0 ((i + 1) * (size * size) + j * size + (k + 1)) +
        g.a0 ((i - 1) * (size * size) + (j - 1) * size + (k + 1)) + g.a0 ((i - 1) * (size * size) + (j + 1) * size + (k + 1)) +
        g.a0 ((i + 1) * (size * size) + (j - 1) * size + (k + 1)) + g.a0 ((i + 1) * (size * size) + (j + 1) * size + (k + 1)) +
        g.a0 (i * (size * size) + j * size + (k - 1)) + g.a0 (i * (size * size) + j * size + (k + 1))
        ) * (1 / 26)) (fun s t h i j k => by simp only [h]) g
  have hcopy : (stencil27_copy P size (stencil27_compute P size g)).a1 = (stencil27_compute P size g).a1 ∧
      (∀ x, (∀ i j k, 1 ≤ i → i < size - 2 + 1 → 1 ≤ j → j < size - 2 + 1 → 1 ≤ k →
          k < size - 2 + 1 → x ≠ i * (size * size) + j * size + k) →
        (stencil27_copy P size (stencil27_compute P size g)).a0 x = (stencil27_compute P size g).a0 x) ∧
      ∀ i j k, 1 ≤ i → i < size - 2 + 1 → 1 ≤ j → j < size - 2 + 1 → 1 ≤ k → k < size - 2 + 1 →
        (stencil27_copy P size (stencil27_compute P size g)).a0 (i * (size * size) + j * size + k)
          = (stencil27_compute P size g).a1 (i * (size * size) + j * size + k) :=
    copy3_spec P size hP (fun i => i) (stencil27_compute P size g)
  constructor
  · intro i j k i1 i2 j1 j2 k1 k2
    rw [hcopy.2.2 i j k i1 i2 j1 j2 k1 k2, hc.2 i j k i1 i2 j1 j2 k1 k2]
  · intro x hx
    rw [hcopy.2.1 x hx, hc.1]

/-- One sweep of `stencil19` (compute phase, then copy phase): every interior cell of `a0`
receives the weighted neighbour sum of the pre-sweep `a0`, every other cell is unchanged. -/
theorem stencil19_sweep_spec (P size : Nat) (hP : 1 ≤ P) (g : Grid) :
    (∀ i j k, 1 ≤ i → i < size - 2 + 1 → 1 ≤ j → j < size - 2 + 1 → 1 ≤ k → k < size - 2 + 1 →
      (stencil19_copy P size (stencil19_compute P size g)).a0 (i * (size * size) + j * size + k) = (
        g.a0 (i * (size * size) + (j - 1) * size + k) + g.a0 (i * (size * size) + (j + 1) * size + k) +
        g.a0 ((i - 1) * (size * size) + j * size + k) + g.a0 ((i + 1) * (size * size) + j * size + k) +
        g.a0 ((i - 1) * (size * size) + (j - 1) * size + k) + g.a0 ((i - 1) * (size * size) + (j + 1) * size + k) +
        g.a0 ((i + 1) * (size * size) + (j - 1) * size + k) + g.a0 ((i + 1) * (size * size) + (j + 1) * size + k) +
        g.a0 (i * (size * size) + (j - 1) * size + (k - 1)) + g.a0 (i * (size * size) + (j + 1) * size + (k - 1)) +
        g.a0 ((i - 1) * (size * size) + j * size + (k - 1)) + g.a0 ((i + 1) * (size * size) + j * size + (k - 1)) +
        g.a0 (i * (size * size) + (j - 1) * size + (k + 1)) + g.a0 (i * (size * size) + (j + 1) * size + (k + 1)) +
        g.a0 ((i - 1) * (size * size) + j * size + (k + 1)) + g.a0 ((i + 1) * (size * size) + j * size + (k + 1)) +
        g.a0 (i * (size * size) + j * size + (k - 1)) + g.a0 (i * (size * size) + j * size + (k + 1))
        ) * (1 / 18)) ∧
    (∀ x, (∀ i j k, 1 ≤ i → i < size - 2 + 1 → 1 ≤ j → j < size - 2 + 1 → 1 ≤ k →
        k < size - 2 + 1 → x ≠ i * (size * size) + j * size + k) →
      (stencil19_copy P size (stencil19_compute P size g)).a0 x = g.a0 x) := by
  have hc : (stencil19_compute P size g).a0 = g.a0 ∧
      ∀ i j k, 1 ≤ i → i < size - 2 + 1 → 1 ≤ j → j < size - 2 + 1 → 1 ≤ k → k < size - 2 + 1 →
        (stencil19_compute P size g).a1 (i * (size * size) + j * size + k) = (
        g.a0 (i * (size * size) + (j - 1) * size + k) + g.a0 (i * (size * size) + (j + 1) * size + k) +
        g.a0 ((i - 1) * (size * size) + j * size + k) + g.a0 ((i + 1) * (size * size) + j * size + k) +
        g.a0 ((i - 1) * (size * size) + (j - 1) * size + k) + g.a0 ((i - 1) * (size * size) + (j + 1) * size + k) +
        g.a0 ((i + 1) * (size * size) + (j - 1) * size + k) + g.a0 ((i + 1) * (size * size) + (j + 1) * size + k) +
        g.a0 (i * (size * size) + (j - 1) * size + (k - 1)) + g.a0 (i * (size * size) + (j + 1) * size + (k - 1)) +
        g.a0 ((i - 1) * (size * size) + j * size + (k - 1)) + g.a0 ((i + 1) * (size * size) + j * size + (k - 1)) +
        g.a0 (i * (size * size) + (j - 1) * size + (k + 1)) + g.a0 (i * (size * size) + (j + 1) * size + (k + 1)) +
        g.a0 ((i - 1) * (size * size) + j * size + (k + 1)) + g.a0 ((i + 1) * (size * size) + j * size + (k + 1)) +
        g.a0 (i * (size * size) + j * size + (k - 1)) + g.a0 (i * (size * size) + j * size + (k + 1))
        ) * (1 / 18) :=
    compute3_spec P size hP (fun i => i) (fun g i j k => (
        g.a0 (i * (size * size) + (j - 1) * size + k) + g.a0 (i * (size * size) + (j + 1) * size + k) +
        g.a0 ((i - 1) * (size * size) + j * size + k) + g.a0 ((i + 1) * (size * size) + j * size + k) +
        g.a0 ((i - 1) * (size * size) + (j - 1) * size + k) + g.a0 ((i - 1) * (size * size) + (j + 1) * size + k) +
        g.a0 ((i + 1) * (size * size) + (j - 1) * size + k) + g.a0 ((i + 1) * (size * size) + (j + 1) * size + k) +
        g.a0 (i * (size * size) + (j - 1) * size + (k - 1)) + g.a0 (i * (size * size) + (j + 1) * size + (k - 1)) +
        g.a0 ((i - 1) * (size * size) + j * size + (k - 1)) + g.a0 ((i + 1) * (size * size) + j * size + (k - 1)) +
        g.a0 (i * (size * size) + (j - 1) * size + (k + 1)) + g.a0 (i * (size * size) + (j + 1) * size + (k + 1)) +
        g.a0 ((i - 1) * (size * size) + j * size + (k + 1)) + g.a0 ((i + 1) * (size * size) + j * size + (k + 1)) +
        g.a0 (i * (size * size) + j * size + (k - 1)) + g.a0 (i * (size * size) + j * size + (k + 1))
        ) * (1 / 18)) (fun s t h i j k => by simp only [h]) g
  have hcopy : (stencil19_copy P size (stencil19_compute P size g)).a1 = (stencil19_compute P size g).a1 ∧
      (∀ x, (∀ i j k, 1 ≤ i → i < size - 2 + 1 → 1 ≤ j → j < size - 2 + 1 → 1 ≤ k →
          k < size - 2 + 1 → x ≠ i * (size * size) + j * size + k) →
        (stencil19_copy P size (stencil19_compute P size g)).a0 x = (stencil19_compute P size g).a0 x) ∧
      ∀ i j k, 1 ≤ i → i < size - 2 + 1 → 1 ≤ j → j < size - 2 + 1 → 1 ≤ k → k < size - 2 + 1 →
        (stencil19_copy P size (stencil19_compute P size g)).a0 (i * (size * size) + j * size + k)
          = (stencil19_compute P size g).a1 (i * (size * size) + j * size + k) :=
    copy3_spec P size hP (fun i => i) (stencil19_compute P size g)
  constructor
  · intro i j k i1 i2 j1 j2 k1 k2
    rw [hcopy.2.2 i j k i1 i2 j1 j2 k1 k2, hc.2 i j k i1 i2 j1 j2 k1 k2]
  · intro x hx
    rw [hcopy.2.1 x hx, hc.1]

/-- One sweep of `stencil9` (compute phase, then copy phase): every interior cell of `a0`
receives the weighted neighbour sum of the pre-sweep `a0`, every other cell is unchanged. -/
theorem stencil9_sweep_spec (P size : Nat) (hP : 1 ≤ P) (g : Grid) :
    (∀ i j, 1 ≤ i → i < size - 2 + 1 → 1 ≤ j → j < size - 2 + 1 →
      (stencil9_copy P size (stencil9_compute P size g)).a0 (i * size + j) = (
        g.a0 (i * size + (j - 1)) + g.a0 (i * size + (j + 1)) +
        g.a0 ((i - 1) * size + j) + g.a0 ((i + 1) * size + j) +
        g.a0 ((i - 1) * size + (j - 1)) + g.a0 ((i - 1) * size + (j + 1)) +
        g.a0 ((i + 1) * size + (j - 1)) + g.a0 ((i + 1) * size + (j + 1))
        ) * (1 / 8)) ∧
    (∀ x, (∀ i j, 1 ≤ i → i < size - 2 + 1 → 1 ≤ j → j < size - 2 + 1 → x ≠ i * size + j) →
      (stencil9_copy P size (stencil9_compute P size g)).a0 x = g.a0 x) := by
  have hc : (stencil9_compute P size g).a0 = g.a0 ∧
      ∀ i j, 1 ≤ i → i < size - 2 + 1 → 1 ≤ j → j < size - 2 + 1 →
        (stencil9_compute P size g).a1 (i * size + j) = (
        g.a0 (i * size + (j - 1)) + g.a0 (i * size + (j + 1)) +
        g.a0 ((i - 1) * size + j) + g.a0 ((i + 1) * size + j) +
        g.a0 ((i - 1) * size + (j - 1)) + g.a0 ((i - 1) * size + (j + 1)) +
        g.a0 ((i + 1) * size + (j - 1)) + g.a0 ((i + 1) * size + (j + 1))
        ) * (1 / 8) :=
    compute2_spec P size hP (fun i => i * size + i) (fun g i j => (
        g.a0 (i * size + (j - 1)) + g.a0 (i * size + (j + 1)) +
        g.a0 ((i - 1) * size + j) + g.a0 ((i + 1) * size + j) +
        g.a0 ((i - 1) * size + (j - 1)) + g.a0 ((i - 1) * size + (j + 1)) +
        g.a0 ((i + 1) * size + (j - 1)) + g.a0 ((i + 1) * size + (j + 1))
        ) * (1 / 8)) (fun s t h i j => by simp only [h]) g
  have hcopy : (stencil9_copy P size (stencil9_compute P size g)).a1 = (stencil9_compute P size g).a1 ∧
      (∀ x, (∀ i j, 1 ≤ i → i < size - 2 + 1 → 1 ≤ j → j < size - 2 + 1 → x ≠ i * size + j) →
        (stencil9_copy P size (stencil9_compute P size g)).a0 x = (stencil9_compute P size g).a0 x) ∧
      ∀ i j, 1 ≤ i → i < size - 2 + 1 → 1 ≤ j → j < size - 2 + 1 →
        (stencil9_copy P size (stencil9_compute P size g)).a0 (i * size + j)
          = (stencil9_compute P size g).a1 (i * size + j) :=
    copy2_spec P size hP (fun i => i * size + i) (stencil9_compute P size g)
  constructor
  · intro i j i1 i2 j1 j2
    rw [hcopy.2.2 i j i1 i2 j1 j2, hc.2 i j i1 i2 j1 j2]
  · intro x hx
    rw [hcopy.2.1 x hx, hc.1]

/-- One sweep of `stencil5` (compute phase, then copy phase): every interior cell of `a0`
receives the weighted neighbour sum of the pre-sweep `a0`, every other cell is unchanged. -/
theorem stencil5_sweep_spec (P size : Nat) (hP : 1 ≤ P) (g : Grid) :
    (∀ i j, 1 ≤ i → i < size - 2 + 1 → 1 ≤ j → j < size - 2 + 1 →
      (stencil5_copy P size (stencil5_compute P size g)).a0 (i * size + j) = (
        g.a0 (i * size + (j - 1)) + g.a0 (i * size + (j + 1)) +
        g.a0 ((i - 1) * size + j) + g.a0 ((i + 1) * size + j)
        ) * (1 / 8)) ∧
    (∀ x, (∀ i j, 1 ≤ i → i < size - 2 + 1 → 1 ≤ j → j < size - 2 + 1 → x ≠ i * size + j) →
      (stencil5_copy P size (stencil5_compute P size g)).a0 x = g.a0 x) := by
  have hc : (stencil5_compute P size g).a0 = g.a0 ∧
      ∀ i j, 1 ≤ i → i < size - 2 + 1 → 1 ≤ j → j < size - 2 + 1 →
        (stencil5_compute P size g).a1 (i * size + j) = (
        g.a0 (i * size + (j - 1)) + g.a0 (i * size + (j + 1)) +
        g.a0 ((i - 1) * size + j) + g.a0 ((i + 1) * size + j)
        ) * (1 / 8) :=
    compute2_spec P size hP (fun i => i * size + i) (fun g i j => (
        g.a0 (i * size + (j - 1)) + g.a0 (i * size + (j + 1)) +
        g.a0 ((i - 1) * size + j) + g.a0 ((i + 1) * size + j)
        ) * (1 / 8)) (fun s t h i j => by simp only [h]) g
  have hcopy : (stencil5_copy P size (stencil5_compute P size g)).a1 = (stencil5_compute P size g).a1 ∧
      (∀ x, (∀ i j, 1 ≤ i → i < size - 2 + 1 → 1 ≤ j → j < size - 2 + 1 → x ≠ i * size + j) →
        (stencil5_copy P size (stencil5_compute P size g)).a0 x = (stencil5_compute P size g).a0 x) ∧
      ∀ i j, 1 ≤ i → i < size - 2 + 1 → 1 ≤ j → j < size - 2 + 1 →
        (stencil5_copy P size (stencil5_compute P size g)).a0 (i * size + j)
          = (stencil5_compute P size g).a1 (i * size + j) :=
    copy2_spec P size hP (fun i => i * size + i) (stencil5_compute P size g)
  constructor
  · intro i j i1 i2 j1 j2
    rw [hcopy.2.2 i j i1 i2 j1 j2, hc.2 i j i1 i2 j1 j2]
  · intro x hx
    rw [hcopy.2.1 x hx, hc.1]

/-! ## Stencils: the all-zero grid is a fixed point -/

theorem stencil27_sweeps_zero (P size k : Nat) (hP : 1 ≤ P) (g : Grid) (h : ∀ x, g.a0 x = 0) :
    ∀ x, (stencil27_sweeps P size k g).a0 x = 0 := by
  unfold stencil27_sweeps
  refine for_loop_inv (fun s : Grid => ∀ x, s.a0 x = 0) 0 k _ g h ?_
  intro _ _ _ s hs x
  have spec := stencil27_sweep_spec P size hP s
  by_cases hx : ∃ i j k, (1 ≤ i ∧ i < size - 2 + 1) ∧ (1 ≤ j ∧ j < size - 2 + 1) ∧
      (1 ≤ k ∧ k < size - 2 + 1) ∧ x = i * (size * size) + j * size + k
  · obtain ⟨i, j, k, ⟨i1, i2⟩, ⟨j1, j2⟩, ⟨k1, k2⟩, rfl⟩ := hx
    rw [spec.1 i j k i1 i2 j1 j2 k1 k2]
    simp only [hs, add_zero, zero_mul]
  · rw [spec.2 x (fun i j k i1 i2 j1 j2 k1 k2 e => hx ⟨i, j, k, ⟨i1, i2⟩, ⟨j1, j2⟩, ⟨k1, k2⟩, e⟩)]
    exact hs x

theorem stencil19_sweeps_zero (P size k : Nat) (hP : 1 ≤ P) (g : Grid) (h : ∀ x, g.a0 x = 0) :
    ∀ x, (stencil19_sweeps P size k g).a0 x = 0 := by
  unfold stencil19_sweeps
  refine for_loop_inv (fun s : Grid => ∀ x, s.a0 x = 0) 0 k _ g h ?_
  intro _ _ _ s hs x
  have spec := stencil19_sweep_spec P size hP s
  by_cases hx : ∃ i j k, (1 ≤ i ∧ i < size - 2 + 1) ∧ (1 ≤ j ∧ j < size - 2 + 1) ∧
      (1 ≤ k ∧ k < size - 2 + 1) ∧ x = i * (size * size) + j * size + k
  · obtain ⟨i, j, k, ⟨i1, i2⟩, ⟨j1, j2⟩, ⟨k1, k2⟩, rfl⟩ := hx
    rw [spec.1 i j k i1 i2 j1 j2 k1 k2]
    simp only [hs, add_zero, zero_mul]
  · rw [spec.2 x (fun i j k i1 i2 j1 j2 k1 k2 e => hx ⟨i, j, k, ⟨i1, i2⟩, ⟨j1, j2⟩, ⟨k1, k2⟩, e⟩)]
    exact hs x

theorem stencil9_sweeps_zero (P size k : Nat) (hP : 1 ≤ P) (g : Grid) (h : ∀ x, g.a0 x = 0) :
    ∀ x, (stencil9_sweeps P size k g).a0 x = 0 := by
  unfold stencil9_sweeps
  refine for_loop_inv (fun s : Grid => ∀ x, s.a0 x = 0) 0 k _ g h ?_
  intro _ _ _ s hs x
  have spec := stencil9_sweep_spec P size hP s
  by_cases hx : ∃ i j, (1 ≤ i ∧ i < size - 2 + 1) ∧ (1 ≤ j ∧ j < size - 2 + 1) ∧
      x = i * size + j
  · obtain ⟨i, j, ⟨i1, i2⟩, ⟨j1, j2⟩, rfl⟩ := hx
    rw [spec.1 i j i1 i2 j1 j2]
    simp only [hs, add_zero, zero_mul]
  · rw [spec.2 x (fun i j i1 i2 j1 j2 e => hx ⟨i, j, ⟨i1, i2⟩, ⟨j1, j2⟩, e⟩)]
    exact hs x

theorem stencil5_sweeps_zero (P size k : Nat) (hP : 1 ≤ P) (g : Grid) (h : ∀ x, g.a0 x = 0) :
    ∀ x, (stencil5_sweeps P size k g).a0 x = 0 := by
  unfold stencil5_sweeps
  refine for_loop_inv (fun s : Grid => ∀ x, s.a0 x = 0) 0 k _ g h ?_
  intro _ _ _ s hs x
  have spec := stencil5_sweep_spec P size hP s
  by_cases hx : ∃ i j, (1 ≤ i ∧ i < size - 2 + 1) ∧ (1 ≤ j ∧ j < size - 2 + 1) ∧
      x = i * size + j
  · obtain ⟨i, j, ⟨i1, i2⟩, ⟨j1, j2⟩, rfl⟩ := hx
    rw [spec.1 i j i1 i2 j1 j2]
    simp only [hs, add_zero, zero_mul]
  · rw [spec.2 x (fun i j i1 i2 j1 j2 e => hx ⟨i, j, ⟨i1, i2⟩, ⟨j1, j2⟩, e⟩)]
    exact hs x

/-- C15: for each of the four stencil shapes, `P ≥ 1` threads, every size and every `k ≥ 0`:
if every cell of `a0` is zero, then after `k` sweeps every cell of `a0` is still zero. -/
theorem stencil_zero_fixed_point (P size k : Nat) (hP : 1 ≤ P) (g : Grid)
    (h : ∀ x, g.a0 x = 0) :
    (∀ x, (stencil27_sweeps P size k g).a0 x = 0) ∧
    (∀ x, (stencil19_sweeps P size k g).a0 x = 0) ∧
    (∀ x, (stencil9_sweeps P size k g).a0 x = 0) ∧
    (∀ x, (stencil5_sweeps P size k g).a0 x = 0) :=
  ⟨stencil27_sweeps_zero P size k hP g h, stencil19_sweeps_zero P size k hP g h,
   stencil9_sweeps_zero P size k hP g h, stencil5_sweeps_zero P size k hP g h⟩

theorem stencil_zero_fixed_point_witness :
    (1 ≤ 2 ∧ ∀ x, (Grid.mk (fun _ => 0) (fun _ => 7)).a0 x = 0) ∧
    ((∀ x, (stencil27_sweeps 2 4 3 (Grid.mk (fun _ => 0) (fun _ => 7))).a0 x = 0) ∧
    (∀ x, (stencil19_sweeps 2 4 3 (Grid.mk (fun _ => 0) (fun _ => 7))).a0 x = 0) ∧
    (∀ x, (stencil9_sweeps 2 4 3 (Grid.mk (fun _ => 0) (fun _ => 7))).a0 x = 0) ∧
    (∀ x, (stencil5_sweeps 2 4 3 (Grid.mk (fun _ => 0) (fun _ => 7))).a0 x = 0)) :=
  ⟨⟨by decide, fun _ => rfl⟩,
   stencil_zero_fixed_point 2 4 3 (by decide) (Grid.mk (fun _ => 0) (fun _ => 7))
     (fun _ => rfl)⟩

/-! ## Stencils: the neighbour sets -/

/-- C19: in the sequential schedule, for `size ≥ 3`, every grid and every interior cell
`(i,j,k)`, one sweep of `stencil27` sets the cell to `1/26` times the sum of the pre-sweep
values at the 26 offsets of `{-1,0,1}^3` other than `(0,0,0)`, and one sweep of `stencil19`
sets it to `1/18` times the sum over the 18 offsets with one or two nonzero components
(offset component `d - 1` for `d = 0, 1, 2`; each offset occurs once in the sum). -/
theorem stencil27_stencil19_neighbours (P size : Nat) (hP : 1 ≤ P) (hsize : 3 ≤ size)
    (g : Grid) (i j k : Nat) (hi1 : 1 ≤ i) (hi2 : i ≤ size - 2) (hj1 : 1 ≤ j)
    (hj2 : j ≤ size - 2) (hk1 : 1 ≤ k) (hk2 : k ≤ size - 2) :
    (stencil27_copy P size (stencil27_compute P size g)).a0 (i * (size * size) + j * size + k)
      = (1 / 26) * ∑ di in Finset.range 3, ∑ dj in Finset.range 3, ∑ dk in Finset.range 3,
          (if di = 1 ∧ dj = 1 ∧ dk = 1 then 0
           else g.a0 ((i + di - 1) * (size * size) + (j + dj - 1) * size + (k + dk - 1))) ∧
    (stencil19_copy P size (stencil19_compute P size g)).a0 (i * (size * size) + j * size + k)
      = (1 / 18) * ∑ di in Finset.range 3, ∑ dj in Finset.range 3, ∑ dk in Finset.range 3,
          (if (if di = 1 then 0 else 1) + (if dj = 1 then 0 else 1) + (if dk = 1 then 0 else 1)
                = 1 ∨
              (if di = 1 then 0 else 1) + (if dj = 1 then 0 else 1) + (if dk = 1 then 0 else 1)
                = 2
           then g.a0 ((i + di - 1) * (size * size) + (j + dj - 1) * size + (k + dk - 1))
           else 0) := by
  constructor
  · rw [(stencil27_sweep_spec P size hP g).1 i j k hi1 (by omega) hj1 (by omega) hk1 (by omega)]
    simp [Finset.sum_range_succ]
    ring
  · rw [(stencil19_sweep_spec P size hP g).1 i j k hi1 (by omega) hj1 (by omega) hk1 (by omega)]
    simp [Finset.sum_range_succ]
    ring

theorem stencil27_stencil19_neighbours_witness :
    (1 ≤ 2 ∧ 3 ≤ 4 ∧ 1 ≤ 1 ∧ 1 ≤ 4 - 2 ∧ 1 ≤ 2 ∧ 2 ≤ 4 - 2 ∧ 1 ≤ 1 ∧ 1 ≤ 4 - 2) ∧
    ((stencil27_copy 2 4 (stencil27_compute 2 4 (Grid.mk (fun x => x) (fun _ => 7)))).a0
        (1 * (4 * 4) + 2 * 4 + 1)
      = (1 / 26) * ∑ di in Finset.range 3, ∑ dj in Finset.range 3, ∑ dk in Finset.range 3,
          (if di = 1 ∧ dj = 1 ∧ dk = 1 then 0
           else (Grid.mk (fun x => x) (fun _ => 7)).a0
             ((1 + di - 1) * (4 * 4) + (2 + dj - 1) * 4 + (1 + dk - 1))) ∧
    (stencil19_copy 2 4 (stencil19_compute 2 4 (Grid.mk (fun x => x) (fun _ => 7)))).a0
        (1 * (4 * 4) + 2 * 4 + 1)
      = (1 / 18) * ∑ di in Finset.range 3, ∑ dj in Finset.range 3, ∑ dk in Finset.range 3,
          (if (if di = 1 then 0 else 1) + (if dj = 1 then 0 else 1) + (if dk = 1 then 0 else 1)
                = 1 ∨
              (if di = 1 then 0 else 1) + (if dj = 1 then 0 else 1) + (if dk = 1 then 0 else 1)
                = 2
           then (Grid.mk (fun x => x) (fun _ => 7)).a0
             ((1 + di - 1) * (4 * 4) + (2 + dj - 1) * 4 + (1 + dk - 1))
           else 0)) :=
  ⟨by decide,
   stencil27_stencil19_neighbours 2 4 (by decide) (by decide) (Grid.mk (fun x => x) (fun _ => 7))
     1 2 1 (by decide) (by decide) (by decide) (by decide) (by decide) (by decide)⟩

/-- C20: in the sequential schedule, for `size ≥ 3`, every grid and every interior cell
`(i,j)`, one sweep of `stencil5` sets the cell to `1/8` times the sum of the pre-sweep values
of `a0` at its 4 edge-adjacent neighbours (offsets with exactly one nonzero component), and
one sweep of `stencil9` sets it to `1/8` times the sum of the pre-sweep values at its 8
surrounding neighbours (all offsets of `{-1,0,1}^2` but `(0,0)`); offset component `d - 1`
for `d = 0, 1, 2`. -/
theorem stencil5_stencil9_neighbours (P size : Nat) (hP : 1 ≤ P) (hsize : 3 ≤ size)
    (g : Grid) (i j : Nat) (hi1 : 1 ≤ i) (hi2 : i ≤ size - 2) (hj1 : 1 ≤ j)
    (hj2 : j ≤ size - 2) :
    (stencil5_copy P size (stencil5_compute P size g)).a0 (i * size + j)
      = (1 / 8) * ∑ di in Finset.range 3, ∑ dj in Finset.range 3,
          (if (if di = 1 then 0 else 1) + (if dj = 1 then 0 else 1) = 1
           then g.a0 ((i + di - 1) * size + (j + dj - 1)) else 0) ∧
    (stencil9_copy P size (stencil9_compute P size g)).a0 (i * size + j)
      = (1 / 8) * ∑ di in Finset.range 3, ∑ dj in Finset.range 3,
          (if di = 1 ∧ dj = 1 then 0 else g.a0 ((i + di - 1) * size + (j + dj - 1))) := by
  constructor
  · rw [(stencil5_sweep_spec P size hP g).1 i j hi1 (by omega) hj1 (by omega)]
    simp [Finset.sum_range_succ]
    ring
  · rw [(stencil9_sweep_spec P size hP g).1 i j hi1 (by omega) hj1 (by omega)]
    simp [Finset.sum_range_succ]
    ring

theorem stencil5_stencil9_neighbours_witness :
    (1 ≤ 2 ∧ 3 ≤ 4 ∧ 1 ≤ 1 ∧ 1 ≤ 4 - 2 ∧ 1 ≤ 2 ∧ 2 ≤ 4 - 2) ∧
    ((stencil5_copy 2 4 (stencil5_compute 2 4 (Grid.mk (fun x => x) (fun _ => 7)))).a0
        (1 * 4 + 2)
      = (1 / 8) * ∑ di in Finset.range 3, ∑ dj in Finset.range 3,
          (if (if di = 1 then 0 else 1) + (if dj = 1 then 0 else 1) = 1
           then (Grid.mk (fun x => x) (fun _ => 7)).a0 ((1 + di - 1) * 4 + (2 + dj - 1))
           else 0) ∧
    (stencil9_copy 2 4 (stencil9_compute 2 4 (Grid.mk (fun x => x) (fun _ => 7)))).a0
        (1 * 4 + 2)
      = (1 / 8) * ∑ di in Finset.range 3, ∑ dj in Finset.range 3,
          (if di = 1 ∧ dj = 1 then 0
           else (Grid.mk (fun x => x) (fun _ => 7)).a0 ((1 + di - 1) * 4 + (2 + dj - 1)))) :=
  ⟨by decide,
   stencil5_stencil9_neighbours 2 4 (by decide) (by decide) (Grid.mk (fun x => x) (fun _ => 7))
     1 2 (by decide) (by decide) (by decide) (by decide)⟩

/-! ## Stencils: who writes which cell -/

theorem stencil27_writes_rows (P size : Nat) :
    ∀ e, e ∈ stencil27_writes P size →
      ∃ i j k, (1 ≤ i ∧ i ≤ size - 2) ∧ (1 ≤ j ∧ j ≤ size - 2) ∧ (1 ≤ k ∧ k ≤ size - 2) ∧
        e.2 = i * (size * size) + j * size + k ∧ e.1 = i % P := by
  unfold stencil27_writes
  refine upc_forall_inv (fun log : List (Nat × Nat) => ∀ e, e ∈ log →
      ∃ i j k, (1 ≤ i ∧ i ≤ size - 2) ∧ (1 ≤ j ∧ j ≤ size - 2) ∧ (1 ≤ k ∧ k ≤ size - 2) ∧
        e.2 = i * (size * size) + j * size + k ∧ e.1 = i % P) P 1 (size - 2 + 1) _ _ []
    (fun e he => absurd he (List.not_mem_nil e)) ?_
  intro t i _ hc i1 i2 s hs
  refine for_loop_inv (fun log : List (Nat × Nat) => ∀ e, e ∈ log →
      ∃ i j k, (1 ≤ i ∧ i ≤ size - 2) ∧ (1 ≤ j ∧ j ≤ size - 2) ∧ (1 ≤ k ∧ k ≤ size - 2) ∧
        e.2 = i * (size * size) + j * size + k ∧ e.1 = i % P) 1 (size - 2 + 1) _ s hs ?_
  intro j j1 j2 s hs
  refine for_loop_inv (fun log : List (Nat × Nat) => ∀ e, e ∈ log →
      ∃ i j k, (1 ≤ i ∧ i ≤ size - 2) ∧ (1 ≤ j ∧ j ≤ size - 2) ∧ (1 ≤ k ∧ k ≤ size - 2) ∧
        e.2 = i * (size * size) + j * size + k ∧ e.1 = i % P) 1 (size - 2 + 1) _ s hs ?_
  intro k k1 k2 s hs e he
  rw [List.mem_append, List.mem_singleton] at he
  rcases he with he | rfl
  · exact hs e he
  · exact ⟨i, j, k, ⟨i1, by omega⟩, ⟨j1, by omega⟩, ⟨k1, by omega⟩, rfl, hc.symm⟩

theorem stencil19_writes_rows (P size : Nat) :
    ∀ e, e ∈ stencil19_writes P size →
      ∃ i j k, (1 ≤ i ∧ i ≤ size - 2) ∧ (1 ≤ j ∧ j ≤ size - 2) ∧ (1 ≤ k ∧ k ≤ size - 2) ∧
        e.2 = i * (size * size) + j * size + k ∧ e.1 = i % P := by
  unfold stencil19_writes
  refine upc_forall_inv (fun log : List (Nat × Nat) => ∀ e, e ∈ log →
      ∃ i j k, (1 ≤ i ∧ i ≤ size - 2) ∧ (1 ≤ j ∧ j ≤ size - 2) ∧ (1 ≤ k ∧ k ≤ size - 2) ∧
        e.2 = i * (size * size) + j * size + k ∧ e.1 = i % P) P 1 (size - 2 + 1) _ _ []
    (fun e he => absurd he (List.not_mem_nil e)) ?_
  intro t i _ hc i1 i2 s hs
  refine for_loop_inv (fun log : List (Nat × Nat) => ∀ e, e ∈ log →
      ∃ i j k, (1 ≤ i ∧ i ≤ size - 2) ∧ (1 ≤ j ∧ j ≤ size - 2) ∧ (1 ≤ k ∧ k ≤ size - 2) ∧
        e.2 = i * (size * size) + j * size + k ∧ e.1 = i % P) 1 (size - 2 + 1) _ s hs ?_
  intro j j1 j2 s hs
  refine for_loop_inv (fun log : List (Nat × Nat) => ∀ e, e ∈ log →
      ∃ i j k, (1 ≤ i ∧ i ≤ size - 2) ∧ (1 ≤ j ∧ j ≤ size - 2) ∧ (1 ≤ k ∧ k ≤ size - 2) ∧
        e.2 = i * (size * size) + j * size + k ∧ e.1 = i % P) 1 (size - 2 + 1) _ s hs ?_
  intro k k1 k2 s hs e he
  rw [List.mem_append, List.mem_singleton] at he
  rcases he with he | rfl
  · exact hs e he
  · exact ⟨i, j, k, ⟨i1, by omega⟩, ⟨j1, by omega⟩, ⟨k1, by omega⟩, rfl, hc.symm⟩

theorem stencil9_writes_rows (P size : Nat) :
    ∀ e, e ∈ stencil9_writes P size →
      ∃ i j, (1 ≤ i ∧ i ≤ size - 2) ∧ (1 ≤ j ∧ j ≤ size - 2) ∧
        e.2 = i * size + j ∧ e.1 = (i * size + i) % P := by
  unfold stencil9_writes
  refine upc_forall_inv (fun log : List (Nat × Nat) => ∀ e, e ∈ log →
      ∃ i j, (1 ≤ i ∧ i ≤ size - 2) ∧ (1 ≤ j ∧ j ≤ size - 2) ∧
        e.2 = i * size + j ∧ e.1 = (i * size + i) % P) P 1 (size - 2 + 1) _ _ []
    (fun e he => absurd he (List.not_mem_nil e)) ?_
  intro t i _ hc i1 i2 s hs
  refine for_loop_inv (fun log : List (Nat × Nat) => ∀ e, e ∈ log →
      ∃ i j, (1 ≤ i ∧ i ≤ size - 2) ∧ (1 ≤ j ∧ j ≤ size - 2) ∧
        e.2 = i * size + j ∧ e.1 = (i * size + i) % P) 1 (size - 2 + 1) _ s hs ?_
  intro j j1 j2 s hs e he
  rw [List.mem_append, List.mem_singleton] at he
  rcases he with he | rfl
  · exact hs e he
  · exact ⟨i, j, ⟨i1, by omega⟩, ⟨j1, by omega⟩, rfl, hc.symm⟩

theorem stencil5_writes_rows (P size : Nat) :
    ∀ e, e ∈ stencil5_writes P size →
      ∃ i j, (1 ≤ i ∧ i ≤ size - 2) ∧ (1 ≤ j ∧ j ≤ size - 2) ∧
        e.2 = i * size + j ∧ e.1 = (i * size + i) % P := by
  unfold stencil5_writes
  refine upc_forall_inv (fun log : List (Nat × Nat) => ∀ e, e ∈ log →
      ∃ i j, (1 ≤ i ∧ i ≤ size - 2) ∧ (1 ≤ j ∧ j ≤ size - 2) ∧
        e.2 = i * size + j ∧ e.1 = (i * size + i) % P) P 1 (size - 2 + 1) _ _ []
    (fun e he => absurd he (List.not_mem_nil e)) ?_
  intro t i _ hc i1 i2 s hs
  refine for_loop_inv (fun log : List (Nat × Nat) => ∀ e, e ∈ log →
      ∃ i j, (1 ≤ i ∧ i ≤ size - 2) ∧ (1 ≤ j ∧ j ≤ size - 2) ∧
        e.2 = i * size + j ∧ e.1 = (i * size + i) % P) 1 (size - 2 + 1) _ s hs ?_
  intro j j1 j2 s hs e he
  rw [List.mem_append, List.mem_singleton] at he
  rcases he with he | rfl
  · exact hs e he
  · exact ⟨i, j, ⟨i1, by omega⟩, ⟨j1, by omega⟩, rfl, hc.symm⟩

/-- C18 (counterexample): 2 threads, `size = 4`.  In `stencil27` and `stencil19` thread 1
(plane `i = 1`) stores to the cell `(1,1,2)` of linear index 22, whose owner is thread 0; in
`stencil9` and `stencil5` thread 1 (row `i = 1`, affinity of cell 5) stores to the cell
`(1,2)` of linear index 6, whose owner is thread 0. -/
theorem stencil_writes_not_owned :
    (1 ≤ 2) ∧
    ((1, 22) ∈ stencil27_writes 2 4 ∧ upc_threadof 2 22 = 0) ∧
    ((1, 22) ∈ stencil19_writes 2 4 ∧ upc_threadof 2 22 = 0) ∧
    ((1, 6) ∈ stencil9_writes 2 4 ∧ upc_threadof 2 6 = 0) ∧
    ((1, 6) ∈ stencil5_writes 2 4 ∧ upc_threadof 2 6 = 0) ∧
    ¬ (∀ e, e ∈ stencil27_writes 2 4 → upc_threadof 2 e.2 = e.1) ∧
    ¬ (∀ e, e ∈ stencil19_writes 2 4 → upc_threadof 2 e.2 = e.1) ∧
    ¬ (∀ e, e ∈ stencil9_writes 2 4 → upc_threadof 2 e.2 = e.1) ∧
    ¬ (∀ e, e ∈ stencil5_writes 2 4 → upc_threadof 2 e.2 = e.1) := by
  decide

/-- C18 (amended): in every stencil sweep a thread stores only to interior cells of the rows
(planes) that the loop's affinity expression assigns to it: every store by thread `u` goes
to a cell `(i,j,k)` (or `(i,j)`) with all coordinates in `1..size-2` and `u = i mod P` in
`stencil27` and `stencil19`, `u = (i*size+i) mod P` in `stencil9` and `stencil5`.  (The owner
of the cell, `upc_threadof` of its linear index, can be another thread.) -/
theorem stencil_writes_assigned_rows (P size : Nat) (u x : Nat) :
    ((u, x) ∈ stencil27_writes P size →
      ∃ i j k, (1 ≤ i ∧ i ≤ size - 2) ∧ (1 ≤ j ∧ j ≤ size - 2) ∧ (1 ≤ k ∧ k ≤ size - 2) ∧
        x = i * (size * size) + j * size + k ∧ u = i % P) ∧
    ((u, x) ∈ stencil19_writes P size →
      ∃ i j k, (1 ≤ i ∧ i ≤ size - 2) ∧ (1 ≤ j ∧ j ≤ size - 2) ∧ (1 ≤ k ∧ k ≤ size - 2) ∧
        x = i * (size * size) + j * size + k ∧ u = i % P) ∧
    ((u, x) ∈ stencil9_writes P size →
      ∃ i j, (1 ≤ i ∧ i ≤ size - 2) ∧ (1 ≤ j ∧ j ≤ size - 2) ∧
        x = i * size + j ∧ u = (i * size + i) % P) ∧
    ((u, x) ∈ stencil5_writes P size →
      ∃ i j, (1 ≤ i ∧ i ≤ size - 2) ∧ (1 ≤ j ∧ j ≤ size - 2) ∧
        x = i * size + j ∧ u = (i * size + i) % P) :=
  ⟨stencil27_writes_rows P size (u, x), stencil19_writes_rows P size (u, x),
   stencil9_writes_rows P size (u, x), stencil5_writes_rows P size (u, x)⟩

theorem stencil_writes_assigned_rows_witness :
    ((1, 22) ∈ stencil27_writes 2 4 →
      ∃ i j k, (1 ≤ i ∧ i ≤ 4 - 2) ∧ (1 ≤ j ∧ j ≤ 4 - 2) ∧ (1 ≤ k ∧ k ≤ 4 - 2) ∧
        22 = i * (4 * 4) + j * 4 + k ∧ 1 = i % 2) ∧
    ((1, 22) ∈ stencil19_writes 2 4 →
      ∃ i j k, (1 ≤ i ∧ i ≤ 4 - 2) ∧ (1 ≤ j ∧ j ≤ 4 - 2) ∧ (1 ≤ k ∧ k ≤ 4 - 2) ∧
        22 = i * (4 * 4) + j * 4 + k ∧ 1 = i % 2) ∧
    ((1, 22) ∈ stencil9_writes 2 4 →
      ∃ i j, (1 ≤ i ∧ i ≤ 4 - 2) ∧ (1 ≤ j ∧ j ≤ 4 - 2) ∧
        22 = i * 4 + j ∧ 1 = (i * 4 + i) % 2) ∧
    ((1, 22) ∈ stencil5_writes 2 4 →
      ∃ i j, (1 ≤ i ∧ i ≤ 4 - 2) ∧ (1 ≤ j ∧ j ≤ 4 - 2) ∧
        22 = i * 4 + j ∧ 1 = (i * 4 + i) % 2) :=
  stencil_writes_assigned_rows 2 4 1 22

/-! ## Owner-computes schedule of the dense kernels -/

/-- A loop whose body records `(MYTHREAD, i)` in a log executes every index of its range
exactly once, on the thread its affinity designates. -/
theorem upc_forall_log {σ : Type} (log : σ → List (Nat × Nat)) (THREADS lo hi : Nat)
    (aff : Nat → Nat) (body : Nat → Nat → σ → σ) (s : σ) (hT : 0 < THREADS)
    (hlog : ∀ t i s, log (body t i s) = log s ++ [(t, i)]) (h0 : log s = []) :
    (∀ i, lo ≤ i → i < hi →
      List.countP (fun e => decide (e.2 = i)) (log (upc_forall THREADS lo hi aff body s)) = 1) ∧
    (∀ e, e ∈ log (upc_forall THREADS lo hi aff body s) →
      e.1 = aff e.2 % THREADS ∧ lo ≤ e.2 ∧ e.2 < hi) := by
  constructor
  · refine upc_forall_post (fun i s => List.countP (fun e => decide (e.2 = i)) (log s) = 0)
      (fun i s => List.countP (fun e => decide (e.2 = i)) (log s) = 1)
      THREADS lo hi aff body s hT ?_ ?_ ?_ ?_
    · intro i _ _
      rw [h0]; rfl
    · intro t i _ _ _ _ s hs
      rw [hlog, List.countP_append, hs, List.countP_singleton]
      simp
    · intro t i k _ _ hne s hs
      rw [hlog, List.countP_append, hs, List.countP_singleton]
      simp [hne]
    · intro t i k _ _ hne s hs
      rw [hlog, List.countP_append, hs, List.countP_singleton]
      simp [hne]
  · refine upc_forall_inv
      (fun s => ∀ e, e ∈ log s → e.1 = aff e.2 % THREADS ∧ lo ≤ e.2 ∧ e.2 < hi)
      THREADS lo hi aff body s ?_ ?_
    · intro e he
      rw [h0] at he
      exact absurd he (List.not_mem_nil e)
    · intro t i _ hc h1 h2 s hs e he
      rw [hlog, List.mem_append, List.mem_singleton] at he
      rcases he with he | rfl
      · exact hs e he
      · exact ⟨hc.symm, h1, h2⟩

theorem mem_of_countP_one (l : List (Nat × Nat)) (i : Nat)
    (h : List.countP (fun e => decide (e.2 = i)) l = 1) : ∃ e, e ∈ l ∧ e.2 = i := by
  have hpos : 0 < List.countP (fun e => decide (e.2 = i)) l := by omega
  obtain ⟨e, he, hp⟩ := List.countP_pos_iff.mp hpos
  exact ⟨e, he, by simpa using hp⟩

/-- C11: for `P ≥ 1` dividing `N`, the `P` shard sizes `local_size = N / P` sum to `N`, and in
the parallel loop over `[0, local_size*P)` of a dense kernel every index of `[0, N)` is
executed exactly once; the index sets executed by two different threads are disjoint and
together they cover `[0, N)`. -/
theorem dense_loop_partition (P N : Nat) (hP : 1 ≤ P) (hdiv : P ∣ N) :
    (∑ _t in Finset.range P, local_size P N) = N ∧
    (∀ i, i < N → List.countP (fun e => decide (e.2 = i))
      (upc_forall_schedule P 0 (local_size P N * P) (fun i => i)) = 1) ∧
    (∀ t1 t2 i, (t1, i) ∈ upc_forall_schedule P 0 (local_size P N * P) (fun i => i) →
      (t2, i) ∈ upc_forall_schedule P 0 (local_size P N * P) (fun i => i) → t1 = t2) ∧
    (∀ i, i < N → ∃ t, t < P ∧
      (t, i) ∈ upc_forall_schedule P 0 (local_size P N * P) (fun i => i)) ∧
    (∀ t i, (t, i) ∈ upc_forall_schedule P 0 (local_size P N * P) (fun i => i) →
      t < P ∧ i < N) := by
  have hN : local_size P N * P = N := Nat.div_mul_cancel hdiv
  have key := upc_forall_log (fun l : List (Nat × Nat) => l) P 0 N (fun i => i)
    (fun MYTHREAD i log => log ++ [(MYTHREAD, i)]) [] hP (fun _ _ _ => rfl) rfl
  rw [hN]
  refine ⟨?_, fun i hi => key.1 i (Nat.zero_le _) hi, ?_, ?_, ?_⟩
  · rw [Finset.sum_const, Finset.card_range, smul_eq_mul, Nat.mul_comm]
    exact hN
  · intro t1 t2 i h1 h2
    have e1 := (key.2 _ h1).1
    have e2 := (key.2 _ h2).1
    exact e1.trans e2.symm
  · intro i hi
    obtain ⟨e, he, hei⟩ := mem_of_countP_one _ i (key.1 i (Nat.zero_le _) hi)
    have e1 := (key.2 e he).1
    refine ⟨e.1, ?_, ?_⟩
    · rw [e1]; exact Nat.mod_lt _ hP
    · rw [← hei]; exact he
  · intro t i h
    have e1 := key.2 _ h
    have e2 : t = i % P := e1.1
    exact ⟨by rw [e2]; exact Nat.mod_lt _ hP, e1.2.2⟩

theorem dense_loop_partition_witness :
    (1 ≤ 2 ∧ 2 ∣ 6) ∧
    ((∑ _t in Finset.range 2, local_size 2 6) = 6 ∧
    (∀ i, i < 6 → List.countP (fun e => decide (e.2 = i))
      (upc_forall_schedule 2 0 (local_size 2 6 * 2) (fun i => i)) = 1) ∧
    (∀ t1 t2 i, (t1, i) ∈ upc_forall_schedule 2 0 (local_size 2 6 * 2) (fun i => i) →
      (t2, i) ∈ upc_forall_schedule 2 0 (local_size 2 6 * 2) (fun i => i) → t1 = t2) ∧
    (∀ i, i < 6 → ∃ t, t < 2 ∧
      (t, i) ∈ upc_forall_schedule 2 0 (local_size 2 6 * 2) (fun i => i)) ∧
    (∀ t i, (t, i) ∈ upc_forall_schedule 2 0 (local_size 2 6 * 2) (fun i => i) →
      t < 2 ∧ i < 6)) :=
  ⟨by decide, dense_loop_partition 2 6 (by decide) (by decide)⟩

/-! ## Scalar multiplication -/

theorem scalar_product_wrap (a v : Int) : toInt32 (toUInt32 (a * toUInt32 v)) = toInt32 (a * v) := by
  unfold toInt32 toUInt32
  have h : (a * (v % 2 ^ 32)) % 2 ^ 32 = (a * v) % 2 ^ 32 := by
    rw [Int.mul_emod, Int.emod_emod_of_dvd _ (dvd_refl _), ← Int.mul_emod]
  generalize a * (v % 2 ^ 32) = x at h
  generalize a * v = y at h
  omega

theorem int_scalar_mult_log (P N : Nat) (hP : 1 ≤ P) (a : Int) (v : Nat → Int) :
    (∀ i, i < local_size P N * P →
      List.countP (fun e => decide (e.2 = i)) (int_scalar_mult P N a v).updates = 1) ∧
    (∀ e, e ∈ (int_scalar_mult P N a v).updates →
      e.1 = e.2 % P ∧ e.2 < local_size P N * P) := by
  have key := upc_forall_log (fun s : ScalarMultState => s.updates) P 0 (local_size P N * P)
    (fun i => i)
    (fun MYTHREAD i s =>
      ScalarMultState.mk
        (Function.update s.v i (toInt32 (toUInt32 (a * toUInt32 (s.v i)))))
        (s.updates ++ [(MYTHREAD, i)]))
    (ScalarMultState.mk v []) hP (fun _ _ _ => rfl) rfl
  exact ⟨fun i hi => key.1 i (Nat.zero_le _) hi, fun e he => ⟨(key.2 e he).1, (key.2 e he).2.2⟩⟩

theorem int_scalar_mult_value (P N : Nat) (hP : 1 ≤ P) (a : Int) (v : Nat → Int) :
    (∀ i, i < local_size P N * P → (int_scalar_mult P N a v).v i = toInt32 (a * v i)) ∧
    (∀ i, local_size P N * P ≤ i → (int_scalar_mult P N a v).v i = v i) := by
  constructor
  · intro i hi
    unfold int_scalar_mult
    refine upc_forall_post (fun i (s : ScalarMultState) => s.v i = v i)
      (fun i (s : ScalarMultState) => s.v i = toInt32 (a * v i)) P 0 (local_size P N * P)
      (fun i => i) _ _ hP ?_ ?_ ?_ ?_ i (Nat.zero_le _) hi
    · intro i _ _
      rfl
    · intro t i _ _ _ _ s hs
      show Function.update s.v i _ i = _
      rw [Function.update_same, scalar_product_wrap, hs]
    · intro t i k _ _ hne s hs
      show Function.update s.v i _ k = _
      rw [Function.update_noteq (Ne.symm hne)]
      exact hs
    · intro t i k _ _ hne s hs
      show Function.update s.v i _ k = _
      rw [Function.update_noteq (Ne.symm hne)]
      exact hs
  · intro i hi
    unfold int_scalar_mult
    refine upc_forall_inv (fun s : ScalarMultState => s.v i = v i) P 0 (local_size P N * P)
      (fun i => i) _ _ rfl ?_
    intro t k _ _ _ hk s hs
    show Function.update s.v k _ i = _
    rw [Function.update_noteq (by omega)]
    exact hs

/-- C13: for `P ≥ 1` threads, `N` a multiple of `P`, every scalar `a` and every vector `v`,
after the `int_scalar_mult` loop each `v[i]`, `i < N`, is `a * v_old[i]` wrapped to 32 bits;
the store to index `i` is executed exactly once, and by one thread only (thread `i % P`). -/
theorem int_scalar_mult_correct (P N : Nat) (hP : 1 ≤ P) (hdiv : P ∣ N) (a : Int)
    (v : Nat → Int) :
    (∀ i, i < N → (int_scalar_mult P N a v).v i = toInt32 (a * v i)) ∧
    (∀ i, i < N →
      List.countP (fun e => decide (e.2 = i)) (int_scalar_mult P N a v).updates = 1) ∧
    (∀ t i, (t, i) ∈ (int_scalar_mult P N a v).updates → t = i % P) := by
  have hN : local_size P N * P = N := Nat.div_mul_cancel hdiv
  have h1 := int_scalar_mult_value P N hP a v
  have h2 := int_scalar_mult_log P N hP a v
  rw [hN] at h1 h2
  exact ⟨h1.1, h2.1, fun t i h => (h2.2 _ h).1⟩

theorem int_scalar_mult_correct_witness :
    (1 ≤ 2 ∧ 2 ∣ 4) ∧
    ((∀ i : Nat, i < 4 → (int_scalar_mult 2 4 65537 (fun i => 65536 + i)).v i
        = toInt32 (65537 * (fun i : Nat => (65536 : Int) + i) i)) ∧
    (∀ i, i < 4 → List.countP (fun e => decide (e.2 = i))
        (int_scalar_mult 2 4 65537 (fun i => 65536 + i)).updates = 1) ∧
    (∀ t i, (t, i) ∈ (int_scalar_mult 2 4 65537 (fun i => 65536 + i)).updates → t = i % 2)) :=
  ⟨by decide, int_scalar_mult_correct 2 4 (by decide) (by decide) 65537 (fun i => 65536 + i)⟩

/-! ## Shard length and ownership -/

/-- C12 (counterexample): `N = 5`, `P = 2`.  The shard length is `2`, not `ceil(5/2) = 3`;
index `1` is processed by thread `1`, not by thread `floor(1/3) = 0`; and index `4` is
neither processed nor changed. -/
theorem dense_uneven_shards :
    (1 ≤ 2) ∧
    local_size 2 5 = 2 ∧ (5 + 2 - 1) / 2 = 3 ∧
    (1, 1) ∈ (int_scalar_mult 2 5 3 (fun _ => 1)).updates ∧ 1 / ((5 + 2 - 1) / 2) = 0 ∧
    (∀ e, e ∈ (int_scalar_mult 2 5 3 (fun _ => 1)).updates → e.2 ≠ 4) ∧
    (int_scalar_mult 2 5 3 (fun _ => 1)).v 4 = 1 ∧
    ¬ (local_size 2 5 = (5 + 2 - 1) / 2 ∧
       (∀ e, e ∈ (int_scalar_mult 2 5 3 (fun _ => 1)).updates →
          e.1 = e.2 / ((5 + 2 - 1) / 2)) ∧
       (∀ i, i < 5 → ∃ e, e ∈ (int_scalar_mult 2 5 3 (fun _ => 1)).updates ∧ e.2 = i)) := by
  decide

theorem div_eq_ceil_of_dvd (P N : Nat) (hP : 1 ≤ P) (hdiv : P ∣ N) :
    N / P = (N + P - 1) / P := by
  obtain ⟨q, rfl⟩ := hdiv
  rw [Nat.mul_div_cancel_left q hP]
  symm
  apply Nat.div_eq_of_lt_le
  · rw [Nat.mul_comm]; omega
  · rw [Nat.add_mul, Nat.one_mul, Nat.mul_comm]; omega

theorem div_eq_ceil_iff (P N : Nat) (hP : 1 ≤ P) : N / P = (N + P - 1) / P ↔ P ∣ N := by
  constructor
  · intro h
    apply Nat.dvd_of_mod_eq_zero
    by_contra hne
    have h1 : N / P + 1 ≤ (N + P - 1) / P := by
      rw [Nat.le_div_iff_mul_le hP]
      have h2 := Nat.div_add_mod N P
      have h3 : (N / P + 1) * P = P * (N / P) + P := by ring
      omega
    omega
  · exact div_eq_ceil_of_dvd P N hP

theorem div_mul_eq_iff (P N : Nat) : N / P * P = N ↔ P ∣ N :=
  ⟨fun h => ⟨N / P, by rw [Nat.mul_comm]; exact h.symm⟩, Nat.div_mul_cancel⟩

/-- A loop `for(i=0;i<n;i++){ arr[i] = g(i); }` that records `f i` at every iteration: the
record is `f 0, ..., f (n-1)`, the indices below `n` hold `g i` and the others are unchanged. -/
theorem fill_loop {σ α β : Type} (log : σ → List β) (arr : σ → Nat → α) (f : Nat → β)
    (g : Nat → α) (body : Nat → σ → σ) (hlog : ∀ i s, log (body i s) = log s ++ [f i])
    (harr : ∀ i s, arr (body i s) = Function.update (arr s) i (g i)) (n : Nat) (s : σ)
    (h0 : log s = []) :
    log (for_loop 0 n body s) = (List.range n).map f ∧
    (∀ i, i < n → arr (for_loop 0 n body s) i = g i) ∧
    (∀ i, n ≤ i → arr (for_loop 0 n body s) i = arr s i) := by
  induction n with
  | zero =>
    rw [for_loop_zero _ _ (Nat.le_refl _)]
    exact ⟨by simpa using h0, fun i hi => absurd hi (Nat.not_lt_zero i), fun _ _ => rfl⟩
  | succ n ih =>
    rw [for_loop_from_zero_succ, hlog, harr, ih.1]
    refine ⟨by rw [List.range_succ, List.map_append]; rfl, fun i hi => ?_, fun i hi => ?_⟩
    · rcases Nat.lt_or_ge i n with h | h
      · rw [Function.update_noteq (by omega)]
        exact ih.2.1 i h
      · have e : i = n := by omega
        subst e
        rw [Function.update_same]
    · rw [Function.update_noteq (by omega)]
      exact ih.2.2 i (by omega)

/-- The scalar `result` of `int_dot_product` is the sum over exactly the indices below
`local_size * THREADS`, modulo `2^32`, whether or not `THREADS` divides `size`. -/
theorem int_dot_product_range (P N : Nat) (hP : 1 ≤ P) (v1 v2 tmp_alloc : Nat → Int) :
    int_dot_product P N v1 v2 tmp_alloc
      = (∑ i in Finset.range (N / P * P), v1 i * v2 i) % 2 ^ 32 := by
  have hred := slot_reduction toUInt32 toUInt32_emod P (N / P * P) hP
    (fun i => toInt32 (v1 i * v2 i)) tmp_alloc
  have hrange : int_dot_product P N v1 v2 tmp_alloc % 2 ^ 32
      = int_dot_product P N v1 v2 tmp_alloc := by
    unfold int_dot_product
    obtain ⟨Q, rfl⟩ := Nat.exists_eq_add_of_le hP
    rw [Nat.add_comm 1 Q]
    simp only [@for_loop_from_zero_succ Int]
    unfold toUInt32
    exact Int.emod_emod_of_dvd _ (dvd_refl _)
  rw [← hrange]
  unfold int_dot_product
  simp only
  rw [hred]
  exact sum_emod_congr (N / P * P) _ _ (fun i _ => toInt32_emod _)

/-- C12 (amended): for every `N` and `P ≥ 1` the shard length is `local_size = floor(N/P)`,
which is `ceil(N/P)` exactly when `P` divides `N`; `local_size * P ≤ N`, with equality
exactly when `P` divides `N`.  In `int_scalar_mult` and `int_dot_product` the fill loop of
thread 0 stores to the indices `0, 1, ..., local_size*P - 1` in turn and to no other, and
the parallel loop works on every index below `local_size*P` exactly once, on thread
`i mod P` (cyclic layout), and on no index from `local_size*P` on: `int_scalar_mult`
leaves those elements unchanged and the `result` of `int_dot_product` is the sum over the
indices below `local_size*P` (modulo `2^32`). -/
theorem dense_shards (P N : Nat) (hP : 1 ≤ P) (a : Int) (kiss : Nat → Int)
    (v v_alloc v1 v2 v1_alloc v2_alloc tmp_alloc : Nat → Int) :
    local_size P N = N / P ∧
    (local_size P N = (N + P - 1) / P ↔ P ∣ N) ∧
    local_size P N * P ≤ N ∧
    (local_size P N * P = N ↔ P ∣ N) ∧
    (int_scalar_mult_fill P N kiss v_alloc).updates
      = (List.range (local_size P N * P)).map (fun i => (0, i)) ∧
    (∀ i, i < local_size P N * P → (int_scalar_mult_fill P N kiss v_alloc).v i = kiss i) ∧
    (∀ i, local_size P N * P ≤ i → (int_scalar_mult_fill P N kiss v_alloc).v i = v_alloc i) ∧
    (∀ i, i < local_size P N * P →
      List.countP (fun e => decide (e.2 = i)) (int_scalar_mult P N a v).updates = 1) ∧
    (∀ e, e ∈ (int_scalar_mult P N a v).updates →
      e.1 = upc_threadof P e.2 ∧ e.2 < local_size P N * P) ∧
    (∀ i, i < local_size P N * P → (int_scalar_mult P N a v).v i = toInt32 (a * v i)) ∧
    (∀ i, local_size P N * P ≤ i → (int_scalar_mult P N a v).v i = v i) ∧
    (int_dot_product_fill P N kiss v1_alloc v2_alloc).updates
      = (List.range (local_size P N * P)).map (fun i => (0, i)) ∧
    (∀ i, i < local_size P N * P →
      (int_dot_product_fill P N kiss v1_alloc v2_alloc).v1 i = kiss (2 * i) ∧
      (int_dot_product_fill P N kiss v1_alloc v2_alloc).v2 i = kiss (2 * i + 1)) ∧
    (∀ i, local_size P N * P ≤ i →
      (int_dot_product_fill P N kiss v1_alloc v2_alloc).v1 i = v1_alloc i ∧
      (int_dot_product_fill P N kiss v1_alloc v2_alloc).v2 i = v2_alloc i) ∧
    (∀ i, i < local_size P N * P →
      List.countP (fun e => decide (e.2 = i)) (int_dot_product_visits P N) = 1) ∧
    (∀ e, e ∈ int_dot_product_visits P N →
      e.1 = upc_threadof P e.2 ∧ e.2 < local_size P N * P) ∧
    int_dot_product P N v1 v2 tmp_alloc
      = (∑ i in Finset.range (local_size P N * P), v1 i * v2 i) % 2 ^ 32 := by
  have h2 := int_scalar_mult_log P N hP a v
  have h3 := int_scalar_mult_value P N hP a v
  have f1 := fill_loop (fun s : ScalarMultState => s.updates) (fun s => s.v)
    (fun i => ((0 : Nat), i)) kiss
    (fun i s => ScalarMultState.mk (Function.update s.v i (kiss i)) (s.updates ++ [(0, i)]))
    (fun _ _ => rfl) (fun _ _ => rfl) (local_size P N * P) (ScalarMultState.mk v_alloc []) rfl
  have g1 := fill_loop (fun s : DotFillState => s.updates) (fun s => s.v1)
    (fun i => ((0 : Nat), i)) (fun i => kiss (2 * i))
    (fun i s => DotFillState.mk (Function.update s.v1 i (kiss (2 * i)))
      (Function.update s.v2 i (kiss (2 * i + 1))) (s.updates ++ [(0, i)]))
    (fun _ _ => rfl) (fun _ _ => rfl) (local_size P N * P)
    (DotFillState.mk v1_alloc v2_alloc []) rfl
  have g2 := fill_loop (fun s : DotFillState => s.updates) (fun s => s.v2)
    (fun i => ((0 : Nat), i)) (fun i => kiss (2 * i + 1))
    (fun i s => DotFillState.mk (Function.update s.v1 i (kiss (2 * i)))
      (Function.update s.v2 i (kiss (2 * i + 1))) (s.updates ++ [(0, i)]))
    (fun _ _ => rfl) (fun _ _ => rfl) (local_size P N * P)
    (DotFillState.mk v1_alloc v2_alloc []) rfl
  have key := upc_forall_log (fun l : List (Nat × Nat) => l) P 0 (local_size P N * P)
    (fun i => i) (fun MYTHREAD i log => log ++ [(MYTHREAD, i)]) [] hP (fun _ _ _ => rfl) rfl
  exact ⟨rfl, div_eq_ceil_iff P N hP, Nat.div_mul_le_self N P, div_mul_eq_iff P N,
    f1.1, f1.2.1, f1.2.2, h2.1, h2.2, h3.1, h3.2,
    g1.1, fun i hi => ⟨g1.2.1 i hi, g2.2.1 i hi⟩, fun i hi => ⟨g1.2.2 i hi, g2.2.2 i hi⟩,
    fun i hi => key.1 i (Nat.zero_le _) hi,
    fun e he => ⟨(key.2 e he).1, (key.2 e he).2.2⟩,
    int_dot_product_range P N hP v1 v2 tmp_alloc⟩

theorem dense_shards_witness :
    (1 ≤ 2) ∧
    (local_size 2 5 = 5 / 2 ∧
    (local_size 2 5 = (5 + 2 - 1) / 2 ↔ 2 ∣ 5) ∧
    local_size 2 5 * 2 ≤ 5 ∧
    (local_size 2 5 * 2 = 5 ↔ 2 ∣ 5) ∧
    (int_scalar_mult_fill 2 5 (fun k => (k : Int) + 10) (fun _ => 9)).updates
      = (List.range (local_size 2 5 * 2)).map (fun i => (0, i)) ∧
    (∀ i, i < local_size 2 5 * 2 → (int_scalar_mult_fill 2 5 (fun k => (k : Int) + 10) (fun _ => 9)).v i = (fun k => (k : Int) + 10) i) ∧
    (∀ i, local_size 2 5 * 2 ≤ i → (int_scalar_mult_fill 2 5 (fun k => (k : Int) + 10) (fun _ => 9)).v i = (fun _ => 9) i) ∧
    (∀ i, i < local_size 2 5 * 2 →
      List.countP (fun e => decide (e.2 = i)) (int_scalar_mult 2 5 3 (fun _ => 1)).updates = 1) ∧
    (∀ e, e ∈ (int_scalar_mult 2 5 3 (fun _ => 1)).updates →
      e.1 = upc_threadof 2 e.2 ∧ e.2 < local_size 2 5 * 2) ∧
    (∀ i, i < local_size 2 5 * 2 → (int_scalar_mult 2 5 3 (fun _ => 1)).v i = toInt32 (3 * (fun _ => 1) i)) ∧
    (∀ i, local_size 2 5 * 2 ≤ i → (int_scalar_mult 2 5 3 (fun _ => 1)).v i = (fun _ => 1) i) ∧
    (int_dot_product_fill 2 5 (fun k => (k : Int) + 10) (fun _ => 7) (fun _ => 8)).updates
      = (List.range (local_size 2 5 * 2)).map (fun i => (0, i)) ∧
    (∀ i, i < local_size 2 5 * 2 →
      (int_dot_product_fill 2 5 (fun k => (k : Int) + 10) (fun _ => 7) (fun _ => 8)).v1 i = (fun k => (k : Int) + 10) (2 * i) ∧
      (int_dot_product_fill 2 5 (fun k => (k : Int) + 10) (fun _ => 7) (fun _ => 8)).v2 i = (fun k => (k : Int) + 10) (2 * i + 1)) ∧
    (∀ i, local_size 2 5 * 2 ≤ i →
      (int_dot_product_fill 2 5 (fun k => (k : Int) + 10) (fun _ => 7) (fun _ => 8)).v1 i = (fun _ => 7) i ∧
      (int_dot_product_fill 2 5 (fun k => (k : Int) + 10) (fun _ => 7) (fun _ => 8)).v2 i = (fun _ => 8) i) ∧
    (∀ i, i < local_size 2 5 * 2 →
      List.countP (fun e => decide (e.2 = i)) (int_dot_product_visits 2 5) = 1) ∧
    (∀ e, e ∈ int_dot_product_visits 2 5 →
      e.1 = upc_threadof 2 e.2 ∧ e.2 < local_size 2 5 * 2) ∧
    int_dot_product 2 5 (fun i => (i : Int) + 1) (fun _ => 2) (fun _ => 5)
      = (∑ i in Finset.range (local_size 2 5 * 2), (fun i => (i : Int) + 1) i * (fun _ => 2) i) % 2 ^ 32) :=
  ⟨by decide, dense_shards 2 5 (by decide) 3 (fun k => (k : Int) + 10) (fun _ => 1) (fun _ => 9)
    (fun i => (i : Int) + 1) (fun _ => 2) (fun _ => 7) (fun _ => 8) (fun _ => 5)⟩

/-! ## Sparse kernels: CSR ingestion -/

/-- C17 (code evaluated at the failing input): header `5 3 4` (a 3 x 3 matrix with 5
nonzeros).  The `col_idx` buffer is allocated with `n = 3` elements, not `nz = 5`, and the
ingestion stores to `col_idx[3]` and `col_idx[4]`, outside the buffer. -/
theorem spmv_col_idx_too_short :
    (spmv_alloc 5 3 4).col_idx = 3 ∧ (spmv_alloc 5 3 4).values = 5 ∧
    (spmv_ingest 5 3 4 (fun _ => 1)
      (fun p => [0, 0, 0, 0, 0, 0, 1, 1, 2, 0, 0, 2, 3, 5].getD p 0) (fun _ => 0) (fun _ => 0)
      (fun _ => 0)).in_bounds = false := by
  decide

/-! ## Sparse kernels: the CSC derivation -/

theorem csr_to_csc_eq (m : Nat) (row_csr_idx col_csr_idx : Nat → Nat) (A_csr : Nat → ℚ)
    (B_alloc : Nat → ℚ) (row_csc_alloc col_csc_alloc : Nat → Nat) :
    csr_to_csc m row_csr_idx col_csr_idx A_csr B_alloc row_csc_alloc col_csc_alloc
      = for_loop 0 m (csc_scan_column m row_csr_idx col_csr_idx A_csr)
          (CscBuild.mk B_alloc row_csc_alloc (Function.update col_csc_alloc 0 0) 0 0 1 0) :=
  rfl

theorem cscHolds_append (s : CscBuild) (L : List (Nat × ℚ)) (h : CscHolds s L) (j : Nat)
    (a : ℚ) (cc : Nat → Nat) (nzc e1 e2 : Nat) :
    CscHolds (CscBuild.mk (Function.update s.B_csc s.count a)
      (Function.update s.row_csc_idx s.count j) cc (s.count + 1) nzc e1 e2) (L ++ [(j, a)]) := by
  obtain ⟨h1, h2⟩ := h
  refine ⟨by simp [h1], fun p hp => ?_⟩
  rw [List.length_append, List.length_singleton] at hp
  show (L ++ [(j, a)])[p]? = some (Function.update s.row_csc_idx s.count j p,
    Function.update s.B_csc s.count a p)
  rcases Nat.lt_or_ge p L.length with hlt | hge
  · rw [List.getElem?_append_left hlt, Function.update_noteq (by omega),
      Function.update_noteq (by omega)]
    exact h2 p hlt
  · have e : p = L.length := by omega
    subst e
    rw [List.getElem?_append_right (Nat.le_refl _), Nat.sub_self, ← h1, Function.update_same,
      Function.update_same]
    rfl

theorem cscHolds_frame (s : CscBuild) (L : List (Nat × ℚ)) (h : CscHolds s L) (cc : Nat → Nat)
    (nzc e1 e2 : Nat) : CscHolds (CscBuild.mk s.B_csc s.row_csc_idx cc s.count nzc e1 e2) L := h

theorem csr_row_column_succ (col_idx : Nat → Nat) (values : Nat → ℚ) (c j lo n : Nat) :
    csr_row_column col_idx values c j lo (n + 1)
      = csr_row_column col_idx values c j lo n ++
          (if col_idx (lo + n) = c then [(j, values (lo + n))] else []) := by
  unfold csr_row_column
  rw [List.range_succ, List.map_append, List.filter_append, List.map_append]
  congr 1
  by_cases h : col_idx (lo + n) = c <;> simp [h]

/-- The `k` loop over one row appends the nonzeros of the row that lie in column `i`. -/
theorem csc_scan_entries (col_csr_idx : Nat → Nat) (A_csr : Nat → ℚ) (i j lo n : Nat)
    (s : CscBuild) (L : List (Nat × ℚ)) (h : CscHolds s L) (hnz : s.nz_count = lo) :
    CscHolds (for_loop lo (lo + n) (csc_scan_entry col_csr_idx A_csr i j) s)
        (L ++ csr_row_column col_csr_idx A_csr i j lo n) ∧
    (for_loop lo (lo + n) (csc_scan_entry col_csr_idx A_csr i j) s).nz_count = lo + n ∧
    (for_loop lo (lo + n) (csc_scan_entry col_csr_idx A_csr i j) s).col_csc_idx
      = s.col_csc_idx := by
  induction n with
  | zero =>
    rw [for_loop_zero _ _ (Nat.le_of_eq (Nat.add_zero lo))]
    refine ⟨?_, hnz, rfl⟩
    simpa [csr_row_column] using h
  | succ n ih =>
    rw [for_loop_succ, csr_row_column_succ]
    obtain ⟨ih1, ih2, ih3⟩ := ih
    generalize for_loop lo (lo + n) (csc_scan_entry col_csr_idx A_csr i j) s = t at ih1 ih2 ih3
    unfold csc_scan_entry
    by_cases hc : col_csr_idx (lo + n) = i
    · simp only [if_pos hc]
      refine ⟨?_, by show t.nz_count + 1 = _; omega, ih3⟩
      rw [← List.append_assoc, ← ih2]
      exact cscHolds_append t _ ih1 j _ _ _ _ _
    · simp only [if_neg hc, List.append_nil]
      exact ⟨cscHolds_frame t _ ih1 _ _ _ _, by show t.nz_count + 1 = _; omega, ih3⟩

theorem csc_scan_entries_range (col_csr_idx : Nat → Nat) (A_csr : Nat → ℚ) (i j lo hi : Nat)
    (hle : lo ≤ hi) (s : CscBuild) (L : List (Nat × ℚ)) (h : CscHolds s L)
    (hnz : s.nz_count = lo) :
    CscHolds (for_loop lo hi (csc_scan_entry col_csr_idx A_csr i j) s)
        (L ++ csr_row_column col_csr_idx A_csr i j lo (hi - lo)) ∧
    (for_loop lo hi (csc_scan_entry col_csr_idx A_csr i j) s).nz_count = hi ∧
    (for_loop lo hi (csc_scan_entry col_csr_idx A_csr i j) s).col_csc_idx = s.col_csc_idx := by
  obtain ⟨n, rfl⟩ := Nat.exists_eq_add_of_le hle
  rw [Nat.add_sub_cancel_left]
  exact csc_scan_entries col_csr_idx A_csr i j lo n s L h hnz

theorem flatMap_range_succ {α : Type} (f : Nat → List α) (n : Nat) :
    (List.range (n + 1)).flatMap f = (List.range n).flatMap f ++ f n := by
  rw [List.range_succ, List.flatMap_append]
  simp

/-- The `j` loop over the first `J` rows appends, row by row, the nonzeros that lie in
column `i`, and records `count` in `col_csc_idx[i+1]`. -/
theorem csc_scan_rows (m : Nat) (row_csr_idx col_csr_idx : Nat → Nat) (A_csr : Nat → ℚ)
    (hmono : ∀ j, j < m → row_csr_idx j ≤ row_csr_idx (j + 1)) (i J : Nat) (hJ : J ≤ m)
    (s : CscBuild) (L : List (Nat × ℚ)) (h : CscHolds s L)
    (hnz : s.nz_count = row_csr_idx 0) :
    CscHolds (for_loop 0 J (csc_scan_row row_csr_idx col_csr_idx A_csr i) s)
        (L ++ (List.range J).flatMap (fun j =>
          csr_row_column col_csr_idx A_csr i j (row_csr_idx j)
            (row_csr_idx (j + 1) - row_csr_idx j))) ∧
    (for_loop 0 J (csc_scan_row row_csr_idx col_csr_idx A_csr i) s).nz_count
      = row_csr_idx J ∧
    (∀ c, c ≠ i + 1 →
      (for_loop 0 J (csc_scan_row row_csr_idx col_csr_idx A_csr i) s).col_csc_idx c
        = s.col_csc_idx c) ∧
    (0 < J →
      (for_loop 0 J (csc_scan_row row_csr_idx col_csr_idx A_csr i) s).col_csc_idx (i + 1)
        = (for_loop 0 J (csc_scan_row row_csr_idx col_csr_idx A_csr i) s).count) := by
  induction J with
  | zero =>
    rw [for_loop_zero _ _ (Nat.le_refl _)]
    refine ⟨?_, hnz, fun _ _ => rfl, fun h => absurd h (Nat.lt_irrefl 0)⟩
    simpa using h
  | succ J ih =>
    obtain ⟨ih1, ih2, ih3, _⟩ := ih (by omega)
    rw [for_loop_from_zero_succ, flatMap_range_succ, ← List.append_assoc]
    generalize for_loop 0 J (csc_scan_row row_csr_idx col_csr_idx A_csr i) s = t
      at ih1 ih2 ih3
    have hk := csc_scan_entries_range col_csr_idx A_csr i J (row_csr_idx J)
      (row_csr_idx (J + 1)) (hmono J (by omega))
      (CscBuild.mk t.B_csc t.row_csc_idx t.col_csc_idx t.count t.nz_count
        (max t.offsets_extent (J + 2)) t.entries_extent) _
      (cscHolds_frame t _ ih1 _ _ _ _) ih2
    unfold csc_scan_row
    simp only
    generalize for_loop (row_csr_idx J) (row_csr_idx (J + 1))
      (csc_scan_entry col_csr_idx A_csr i J)
      (CscBuild.mk t.B_csc t.row_csc_idx t.col_csc_idx t.count t.nz_count
        (max t.offsets_extent (J + 2)) t.entries_extent) = u at hk
    obtain ⟨hk1, hk2, hk3⟩ := hk
    refine ⟨cscHolds_frame u _ hk1 _ _ _ _, hk2, fun c hc => ?_, fun _ => ?_⟩
    · show Function.update u.col_csc_idx (i + 1) u.count c = _
      rw [Function.update_noteq hc, hk3]
      exact ih3 c hc
    · show Function.update u.col_csc_idx (i + 1) u.count (i + 1) = u.count
      rw [Function.update_same]

/-- The `i` loop over the first `I` columns stores, column by column, the CSR nonzeros of
each column, and `col_csc_idx[c]` is the number of entries stored before column `c`. -/
theorem csc_scan_columns (m : Nat) (row_csr_idx col_csr_idx : Nat → Nat) (A_csr : Nat → ℚ)
    (h0 : row_csr_idx 0 = 0) (hmono : ∀ j, j < m → row_csr_idx j ≤ row_csr_idx (j + 1))
    (B_alloc : Nat → ℚ) (row_csc_alloc col_csc_alloc : Nat → Nat) (I : Nat) (hI : I ≤ m) :
    CscHolds (for_loop 0 I (csc_scan_column m row_csr_idx col_csr_idx A_csr)
        (CscBuild.mk B_alloc row_csc_alloc (Function.update col_csc_alloc 0 0) 0 0 1 0))
      ((List.range I).flatMap (csr_column m row_csr_idx col_csr_idx A_csr)) ∧
    ∀ c, c ≤ I →
      (for_loop 0 I (csc_scan_column m row_csr_idx col_csr_idx A_csr)
        (CscBuild.mk B_alloc row_csc_alloc (Function.update col_csc_alloc 0 0) 0 0 1 0)).col_csc_idx c
        = ((List.range c).flatMap (csr_column m row_csr_idx col_csr_idx A_csr)).length := by
  induction I with
  | zero =>
    rw [for_loop_zero _ _ (Nat.le_refl _)]
    refine ⟨⟨rfl, fun p hp => absurd hp (Nat.not_lt_zero p)⟩, fun c hc => ?_⟩
    have e : c = 0 := by omega
    subst e
    show Function.update col_csc_alloc 0 0 0 = _
    rw [Function.update_same]
    rfl
  | succ I ih =>
    obtain ⟨ih1, ih2⟩ := ih (by omega)
    rw [for_loop_from_zero_succ, flatMap_range_succ]
    generalize for_loop 0 I (csc_scan_column m row_csr_idx col_csr_idx A_csr)
      (CscBuild.mk B_alloc row_csc_alloc (Function.update col_csc_alloc 0 0) 0 0 1 0) = t
      at ih1 ih2
    have hr := csc_scan_rows m row_csr_idx col_csr_idx A_csr hmono I m (Nat.le_refl m)
      (CscBuild.mk t.B_csc t.row_csc_idx t.col_csc_idx t.count 0 t.offsets_extent
        t.entries_extent) _
      (cscHolds_frame t _ ih1 _ _ _ _) h0.symm
    unfold csc_scan_column
    generalize for_loop 0 m (csc_scan_row row_csr_idx col_csr_idx A_csr I)
      (CscBuild.mk t.B_csc t.row_csc_idx t.col_csc_idx t.count 0 t.offsets_extent
        t.entries_extent) = u at hr
    obtain ⟨hr1, _, hr3, hr4⟩ := hr
    refine ⟨hr1, fun c hc => ?_⟩
    rcases Nat.lt_or_ge c (I + 1) with hlt | hge
    · rw [hr3 c (by omega)]
      exact ih2 c (by omega)
    · have e : c = I + 1 := by omega
      subst e
      rw [hr4 (by omega), hr1.1, flatMap_range_succ]
      rfl

theorem flatMap_range_getElem {α : Type} (f : Nat → List α) (m c d : Nat) (hc : c < m)
    (hd : d < (f c).length) :
    ((List.range m).flatMap f)[((List.range c).flatMap f).length + d]? = (f c)[d]? := by
  induction m with
  | zero => exact absurd hc (Nat.not_lt_zero c)
  | succ m ih =>
    rw [flatMap_range_succ]
    rcases Nat.lt_or_ge c m with hlt | hge
    · have h1 := ih hlt
      have hlen : ((List.range c).flatMap f).length + d < ((List.range m).flatMap f).length := by
        have h2 : ((List.range m).flatMap f)[((List.range c).flatMap f).length + d]?
            = some ((f c).get ⟨d, hd⟩) := by
          rw [h1]
          exact List.getElem?_eq_getElem hd
        exact (List.getElem?_eq_some_iff.mp h2).1
      rw [List.getElem?_append_left hlen]
      exact h1
    · have e : c = m := by omega
      subst e
      rw [List.getElem?_append_right (Nat.le_add_right _ _), Nat.add_sub_cancel_left]

theorem length_flatMap_range {α : Type} (f : Nat → List α) (n : Nat) :
    ((List.range n).flatMap f).length = ∑ c in Finset.range n, (f c).length := by
  induction n with
  | zero => rfl
  | succ n ih => rw [flatMap_range_succ, List.length_append, ih, Finset.sum_range_succ]

theorem filter_count_partition (g : Nat → Nat) (m : Nat) (l : List Nat)
    (h : ∀ k, k ∈ l → g k < m) :
    (∑ c in Finset.range m, (l.filter (fun k => decide (g k = c))).length) = l.length := by
  induction l with
  | nil => simp
  | cons a l ih =>
    have h1 : ∀ c, ((a :: l).filter (fun k => decide (g k = c))).length
        = (l.filter (fun k => decide (g k = c))).length + (if g a = c then 1 else 0) := by
      intro c
      by_cases hc : g a = c <;> simp [List.filter_cons, hc]
    simp only [h1]
    rw [Finset.sum_add_distrib, ih (fun k hk => h k (List.mem_cons_of_mem a hk)),
      Finset.sum_ite_eq]
    simp [h a (List.mem_cons_self a l)]

theorem row_offsets_mono (m : Nat) (row : Nat → Nat) (hmono : ∀ j, j < m → row j ≤ row (j + 1)) :
    ∀ j, j ≤ m → row j ≤ row m := by
  induction m with
  | zero =>
    intro j hj
    have e : j = 0 := by omega
    rw [e]
  | succ m ih =>
    intro j hj
    rcases Nat.lt_or_ge j (m + 1) with hlt | hge
    · exact Nat.le_trans (ih (fun j hj => hmono j (by omega)) j (by omega)) (hmono m (by omega))
    · have e : j = m + 1 := by omega
      rw [e]

theorem row_offsets_telescope (m : Nat) (row : Nat → Nat)
    (hmono : ∀ j, j < m → row j ≤ row (j + 1)) :
    (∑ j in Finset.range m, (row (j + 1) - row j)) = row m - row 0 := by
  induction m with
  | zero => simp
  | succ m ih =>
    rw [Finset.sum_range_succ, ih (fun j hj => hmono j (by omega))]
    have h1 := row_offsets_mono m row (fun j hj => hmono j (by omega)) 0 (Nat.zero_le _)
    have h2 := hmono m (by omega)
    omega

/-- Every CSR nonzero lies in exactly one column: the column lists together hold `nz`
entries. -/
theorem csr_columns_length (m : Nat) (row_idx col_idx : Nat → Nat) (values : Nat → ℚ)
    (h0 : row_idx 0 = 0) (hmono : ∀ j, j < m → row_idx j ≤ row_idx (j + 1))
    (hcol : ∀ k, k < row_idx m → col_idx k < m) :
    ((List.range m).flatMap (csr_column m row_idx col_idx values)).length = row_idx m := by
  rw [length_flatMap_range]
  have h1 : ∀ c, (csr_column m row_idx col_idx values c).length
      = ∑ j in Finset.range m,
          (((List.range (row_idx (j + 1) - row_idx j)).map (fun d => row_idx j + d)).filter
            (fun k => decide (col_idx k = c))).length := by
    intro c
    unfold csr_column
    rw [length_flatMap_range]
    apply Finset.sum_congr rfl
    intro j _
    unfold csr_row_column
    rw [List.length_map]
  simp only [h1]
  rw [Finset.sum_comm]
  have h2 : ∀ j, j ∈ Finset.range m →
      (∑ c in Finset.range m,
        (((List.range (row_idx (j + 1) - row_idx j)).map (fun d => row_idx j + d)).filter
          (fun k => decide (col_idx k = c))).length) = row_idx (j + 1) - row_idx j := by
    intro j hj
    have hj2 : j < m := Finset.mem_range.mp hj
    rw [filter_count_partition col_idx m]
    · rw [List.length_map, List.length_range]
    · intro k hk
      rw [List.mem_map] at hk
      obtain ⟨d, hd, rfl⟩ := hk
      rw [List.mem_range] at hd
      apply hcol
      have h3 := row_offsets_mono m row_idx hmono (j + 1) (by omega)
      have h4 := hmono j hj2
      omega
  rw [Finset.sum_congr rfl h2, row_offsets_telescope m row_idx hmono, h0]
  rfl

/-- The rows of the nonzeros of one column are listed in non-decreasing order. -/
theorem csr_column_rows_sorted (m : Nat) (row_idx col_idx : Nat → Nat) (values : Nat → ℚ)
    (c : Nat) :
    ((csr_column m row_idx col_idx values c).map Prod.fst).Pairwise (fun a b => a ≤ b) := by
  rw [List.pairwise_map]
  unfold csr_column
  rw [List.pairwise_flatMap]
  have hfst : ∀ j (x : Nat × ℚ),
      x ∈ csr_row_column col_idx values c j (row_idx j) (row_idx (j + 1) - row_idx j) →
      x.1 = j := by
    intro j x hx
    unfold csr_row_column at hx
    rw [List.mem_map] at hx
    obtain ⟨k, _, rfl⟩ := hx
    rfl
  constructor
  · intro j _
    rw [List.pairwise_iff_forall_sublist]
    intro a b hab
    have ha := hfst j a (hab.subset (List.mem_cons_self a [b]))
    have hb := hfst j b (hab.subset (List.mem_cons_of_mem a (List.mem_singleton_self b)))
    omega
  · refine List.Pairwise.imp ?_ (List.pairwise_lt_range m)
    intro j1 j2 hlt x hx y hy
    rw [hfst j1 x hx, hfst j2 y hy]
    exact Nat.le_of_lt hlt

theorem csc_column_eq (m : Nat) (row_csr_idx col_csr_idx : Nat → Nat) (A_csr : Nat → ℚ)
    (h0 : row_csr_idx 0 = 0) (hmono : ∀ j, j < m → row_csr_idx j ≤ row_csr_idx (j + 1))
    (B_alloc : Nat → ℚ) (row_csc_alloc col_csc_alloc : Nat → Nat) (c : Nat) (hc : c < m) :
    csc_column (csr_to_csc m row_csr_idx col_csr_idx A_csr B_alloc row_csc_alloc col_csc_alloc) c
      = csr_column m row_csr_idx col_csr_idx A_csr c := by
  obtain ⟨hrep, hoff⟩ := csc_scan_columns m row_csr_idx col_csr_idx A_csr h0 hmono B_alloc
    row_csc_alloc col_csc_alloc m (Nat.le_refl m)
  rw [← csr_to_csc_eq] at hrep hoff
  generalize csr_to_csc m row_csr_idx col_csr_idx A_csr B_alloc row_csc_alloc col_csc_alloc
    = csc at hrep hoff ⊢
  unfold csc_column
  rw [hoff (c + 1) (by omega), hoff c (by omega), flatMap_range_succ, List.length_append,
    Nat.add_sub_cancel_left]
  apply List.ext_getElem?
  intro d
  rcases Nat.lt_or_ge d (csr_column m row_csr_idx col_csr_idx A_csr c).length with hd | hd
  · have hget := flatMap_range_getElem (csr_column m row_csr_idx col_csr_idx A_csr) m c d hc hd
    have hsome : (csr_column m row_csr_idx col_csr_idx A_csr c)[d]?
        = some ((csr_column m row_csr_idx col_csr_idx A_csr c).get ⟨d, hd⟩) :=
      List.getElem?_eq_getElem hd
    have hlt := (List.getElem?_eq_some_iff.mp (hget.trans hsome)).1
    rw [List.getElem?_map, List.getElem?_range hd, ← hget, hrep.2 _ hlt]
    rfl
  · rw [List.getElem?_eq_none (by rw [List.length_map, List.length_range]; exact hd),
      List.getElem?_eq_none hd]

/-- Content of the CSC arrays, indices taken at face value: for every square CSR matrix with
`m` rows (`row_ptr[0] = 0`, `row_ptr` non-decreasing, `nz = row_ptr[m]`, every column index
below `m`), the derivation in `double_spgemm` leaves `col_csc_idx[0] = 0`, `col_csc_idx`
non-decreasing and `col_csc_idx[m] = nz`, and for every column `c` the entries `k` in
`[col_csc_idx[c], col_csc_idx[c+1])` are exactly the `(row, value)` pairs of the CSR nonzeros
with column index `c`, in storage order, which is non-decreasing in the row.  The buffer
lengths this needs are the subject of `csr_to_csc_offsets_extent`. -/
theorem csr_to_csc_correct (m : Nat) (row_csr_idx col_csr_idx : Nat → Nat) (A_csr : Nat → ℚ)
    (B_alloc : Nat → ℚ) (row_csc_alloc col_csc_alloc : Nat → Nat)
    (h0 : row_csr_idx 0 = 0) (hmono : ∀ j, j < m → row_csr_idx j ≤ row_csr_idx (j + 1))
    (hcol : ∀ k, k < row_csr_idx m → col_csr_idx k < m) :
    (csr_to_csc m row_csr_idx col_csr_idx A_csr B_alloc row_csc_alloc
      col_csc_alloc).col_csc_idx 0 = 0 ∧
    (∀ c, c < m →
      (csr_to_csc m row_csr_idx col_csr_idx A_csr B_alloc row_csc_alloc
        col_csc_alloc).col_csc_idx c ≤
      (csr_to_csc m row_csr_idx col_csr_idx A_csr B_alloc row_csc_alloc
        col_csc_alloc).col_csc_idx (c + 1)) ∧
    (csr_to_csc m row_csr_idx col_csr_idx A_csr B_alloc row_csc_alloc
      col_csc_alloc).col_csc_idx m = row_csr_idx m ∧
    (∀ c, c < m →
      csc_column (csr_to_csc m row_csr_idx col_csr_idx A_csr B_alloc row_csc_alloc
        col_csc_alloc) c = csr_column m row_csr_idx col_csr_idx A_csr c) ∧
    (∀ c, c < m →
      ((csc_column (csr_to_csc m row_csr_idx col_csr_idx A_csr B_alloc row_csc_alloc
        col_csc_alloc) c).map Prod.fst).Pairwise (fun a b => a ≤ b)) := by
  obtain ⟨_, hoff⟩ := csc_scan_columns m row_csr_idx col_csr_idx A_csr h0 hmono B_alloc
    row_csc_alloc col_csc_alloc m (Nat.le_refl m)
  rw [← csr_to_csc_eq] at hoff
  refine ⟨?_, fun c hc => ?_, ?_, fun c hc => ?_, fun c hc => ?_⟩
  · rw [hoff 0 (Nat.zero_le _)]
    rfl
  · rw [hoff c (by omega), hoff (c + 1) (by omega), flatMap_range_succ, List.length_append]
    exact Nat.le_add_right _ _
  · rw [hoff m (Nat.le_refl _)]
    exact csr_columns_length m row_csr_idx col_csr_idx A_csr h0 hmono hcol
  · exact csc_column_eq m row_csr_idx col_csr_idx A_csr h0 hmono B_alloc row_csc_alloc
      col_csc_alloc c hc
  · rw [csc_column_eq m row_csr_idx col_csr_idx A_csr h0 hmono B_alloc row_csc_alloc
      col_csc_alloc c hc]
    exact csr_column_rows_sorted m row_csr_idx col_csr_idx A_csr c

theorem csr_to_csc_correct_witness :
    ((fun i : Nat => [0, 2, 3].getD i 3) 0 = 0 ∧
     (∀ j, j < 2 → (fun i : Nat => [0, 2, 3].getD i 3) j
        ≤ (fun i : Nat => [0, 2, 3].getD i 3) (j + 1)) ∧
     (∀ k, k < (fun i : Nat => [0, 2, 3].getD i 3) 2 →
        (fun k : Nat => [0, 1, 1].getD k 0) k < 2)) ∧
    ((csr_to_csc 2 (fun i => [0, 2, 3].getD i 3) (fun k => [0, 1, 1].getD k 0)
        (fun k => (k : ℚ) + 1) (fun _ => 0) (fun _ => 9) (fun _ => 9)).col_csc_idx 0 = 0 ∧
    (∀ c, c < 2 →
      (csr_to_csc 2 (fun i => [0, 2, 3].getD i 3) (fun k => [0, 1, 1].getD k 0)
        (fun k => (k : ℚ) + 1) (fun _ => 0) (fun _ => 9) (fun _ => 9)).col_csc_idx c ≤
      (csr_to_csc 2 (fun i => [0, 2, 3].getD i 3) (fun k => [0, 1, 1].getD k 0)
        (fun k => (k : ℚ) + 1) (fun _ => 0) (fun _ => 9) (fun _ => 9)).col_csc_idx (c + 1)) ∧
    (csr_to_csc 2 (fun i => [0, 2, 3].getD i 3) (fun k => [0, 1, 1].getD k 0)
        (fun k => (k : ℚ) + 1) (fun _ => 0) (fun _ => 9) (fun _ => 9)).col_csc_idx 2
      = (fun i : Nat => [0, 2, 3].getD i 3) 2 ∧
    (∀ c, c < 2 →
      csc_column (csr_to_csc 2 (fun i => [0, 2, 3].getD i 3) (fun k => [0, 1, 1].getD k 0)
        (fun k => (k : ℚ) + 1) (fun _ => 0) (fun _ => 9) (fun _ => 9)) c
      = csr_column 2 (fun i => [0, 2, 3].getD i 3) (fun k => [0, 1, 1].getD k 0)
        (fun k => (k : ℚ) + 1) c) ∧
    (∀ c, c < 2 →
      ((csc_column (csr_to_csc 2 (fun i => [0, 2, 3].getD i 3) (fun k => [0, 1, 1].getD k 0)
        (fun k => (k : ℚ) + 1) (fun _ => 0) (fun _ => 9) (fun _ => 9)) c).map
          Prod.fst).Pairwise (fun a b => a ≤ b))) :=
  ⟨by decide,
   csr_to_csc_correct 2 (fun i => [0, 2, 3].getD i 3) (fun k => [0, 1, 1].getD k 0)
     (fun k => (k : ℚ) + 1) (fun _ => 0) (fun _ => 9) (fun _ => 9) (by decide) (by decide)
     (by decide)⟩

/-! ### Buffer lengths of the CSC derivation -/

theorem csc_scan_entry_offsets (col_csr_idx : Nat → Nat) (A_csr : Nat → ℚ) (i j k : Nat)
    (s : CscBuild) :
    (csc_scan_entry col_csr_idx A_csr i j k s).offsets_extent = s.offsets_extent := by
  unfold csc_scan_entry
  by_cases h : col_csr_idx k = i
  · simp only [if_pos h]
  · simp only [if_neg h]

theorem csc_scan_row_offsets (row_csr_idx col_csr_idx : Nat → Nat) (A_csr : Nat → ℚ)
    (i j : Nat) (s : CscBuild) :
    (csc_scan_row row_csr_idx col_csr_idx A_csr i j s).offsets_extent
      = max (max s.offsets_extent (j + 2)) (i + 2) := by
  unfold csc_scan_row
  simp only
  have h := for_loop_inv
    (fun t : CscBuild => t.offsets_extent = max s.offsets_extent (j + 2))
    (row_csr_idx j) (row_csr_idx (j + 1)) (csc_scan_entry col_csr_idx A_csr i j)
    (CscBuild.mk s.B_csc s.row_csc_idx s.col_csc_idx s.count s.nz_count
      (max s.offsets_extent (j + 2)) s.entries_extent) rfl
    (fun k _ _ t ht => (csc_scan_entry_offsets col_csr_idx A_csr i j k t).trans ht)
  rw [h]

theorem csc_scan_column_offsets (m : Nat) (row_csr_idx col_csr_idx : Nat → Nat)
    (A_csr : Nat → ℚ) (i : Nat) (hi : i < m) (s : CscBuild) (hs : s.offsets_extent ≤ m + 1) :
    (csc_scan_column m row_csr_idx col_csr_idx A_csr i s).offsets_extent = m + 1 := by
  unfold csc_scan_column
  obtain ⟨n, rfl⟩ : ∃ n, m = n + 1 := ⟨m - 1, by omega⟩
  rw [for_loop_from_zero_succ, csc_scan_row_offsets]
  have h := for_loop_inv (fun t : CscBuild => t.offsets_extent ≤ n + 1 + 1) 0 n
    (csc_scan_row row_csr_idx col_csr_idx A_csr i)
    (CscBuild.mk s.B_csc s.row_csc_idx s.col_csc_idx s.count 0 s.offsets_extent
      s.entries_extent) hs
    (fun j _ hj t ht => by
      show (csc_scan_row row_csr_idx col_csr_idx A_csr i j t).offsets_extent ≤ n + 1 + 1
      have ht2 : t.offsets_extent ≤ n + 1 + 1 := ht
      rw [csc_scan_row_offsets]; omega)
  omega

/-- The derivation reads `row_csr_idx` and stores to `col_csc_idx` at the indices `0 .. m`:
for a matrix with at least one row, these two arrays need `m + 1` elements. -/
theorem csr_to_csc_offsets_extent (m : Nat) (hm : 1 ≤ m) (row_csr_idx col_csr_idx : Nat → Nat)
    (A_csr : Nat → ℚ) (B_alloc : Nat → ℚ) (row_csc_alloc col_csc_alloc : Nat → Nat) :
    (csr_to_csc m row_csr_idx col_csr_idx A_csr B_alloc row_csc_alloc
      col_csc_alloc).offsets_extent = m + 1 := by
  rw [csr_to_csc_eq]
  obtain ⟨n, rfl⟩ : ∃ n, m = n + 1 := ⟨m - 1, by omega⟩
  rw [for_loop_from_zero_succ]
  apply csc_scan_column_offsets (n + 1) row_csr_idx col_csr_idx A_csr n (Nat.lt_succ_self n)
  refine for_loop_inv (fun t : CscBuild => t.offsets_extent ≤ n + 1 + 1) 0 n
    (csc_scan_column (n + 1) row_csr_idx col_csr_idx A_csr) _ ?_ ?_
  · show 1 ≤ n + 1 + 1
    omega
  · intro i _ hi t ht
    show (csc_scan_column (n + 1) row_csr_idx col_csr_idx A_csr i t).offsets_extent ≤ n + 1 + 1
    rw [csc_scan_column_offsets (n + 1) row_csr_idx col_csr_idx A_csr i (by omega) t ht]

/-- Whenever `*nz ≤ m` (identity and diagonal matrices, for instance) the derivation
accesses `row_csr_idx` and `col_csc_idx` outside their `*nz` elements. -/
theorem csr_to_csc_overrun (m nz : Nat) (hm : 1 ≤ m) (hnz : nz ≤ m)
    (row_csr_idx col_csr_idx : Nat → Nat)
    (A_csr : Nat → ℚ) (B_alloc : Nat → ℚ) (row_csc_alloc col_csc_alloc : Nat → Nat) :
    csc_in_bounds nz (csr_to_csc m row_csr_idx col_csr_idx A_csr B_alloc row_csc_alloc
      col_csc_alloc) = false := by
  unfold csc_in_bounds spgemm_alloc
  rw [csr_to_csc_offsets_extent m hm]
  simp
  omega

/-- C14 (code evaluated at the failing input): the identity of order 2 (`nz = 2`, row offsets
`0 1 2`, column indices `0 1`).  `row_csr_idx` and `col_csc_idx` are allocated with
`*nz = 2` elements, but the derivation reads `row_csr_idx[2]` and stores `col_csc_idx[2]`
(the value `2` that the claim expects in `col_csc_idx[m]`): the two arrays are used up to
index 2, outside their buffers, while the per-nonzero arrays stay within 2 elements. -/
theorem csc_offsets_overrun :
    spgemm_alloc 2 = 2 ∧
    (csr_to_csc 2 (fun i => i) (fun k => k) (fun _ => 1) (fun _ => 0) (fun _ => 9)
      (fun _ => 9)).offsets_extent = 3 ∧
    (csr_to_csc 2 (fun i => i) (fun k => k) (fun _ => 1) (fun _ => 0) (fun _ => 9)
      (fun _ => 9)).entries_extent = 2 ∧
    csc_in_bounds 2 (csr_to_csc 2 (fun i => i) (fun k => k) (fun _ => 1) (fun _ => 0)
      (fun _ => 9) (fun _ => 9)) = false ∧
    (csr_to_csc 2 (fun i => i) (fun k => k) (fun _ => 1) (fun _ => 0) (fun _ => 9)
      (fun _ => 9)).col_csc_idx 2 = 2 := by
  decide

/-! ## Stencils: the indices a sweep reads and writes -/

theorem stencil27_reads_lt (size i j k : Nat) (hi1 : 1 ≤ i) (hi2 : i ≤ size - 2) (hj1 : 1 ≤ j) (hj2 : j ≤ size - 2) (hk1 : 1 ≤ k) (hk2 : k ≤ size - 2) :
    ∀ x, x ∈ stencil27_reads size i j k → x < size * size * size := by
  intro x hx
  simp only [stencil27_reads, List.mem_cons, List.mem_singleton, List.not_mem_nil, or_false] at hx
  rcases hx with rfl | rfl | rfl | rfl | rfl | rfl | rfl | rfl | rfl | rfl | rfl | rfl | rfl | rfl | rfl | rfl | rfl | rfl | rfl | rfl | rfl | rfl | rfl | rfl | rfl | rfl <;>
    exact idx3_lt size _ _ _ (by omega) (by omega) (by omega)

/-- The value one sweep of `stencil27` leaves in an interior cell is the sum of `a0` over the
indices read, times the factor. -/
theorem stencil27_sweep_reads (P size : Nat) (hP : 1 ≤ P) (g : Grid) (i j k : Nat)
    (hi1 : 1 ≤ i) (hi2 : i ≤ size - 2) (hj1 : 1 ≤ j) (hj2 : j ≤ size - 2) (hk1 : 1 ≤ k) (hk2 : k ≤ size - 2) :
    (stencil27_copy P size (stencil27_compute P size g)).a0 (i * (size * size) + j * size + k)
      = ((stencil27_reads size i j k).map g.a0).sum * (1 / 26) := by
  rw [(stencil27_sweep_spec P size hP g).1 i j k hi1 (by omega) hj1 (by omega) hk1 (by omega)]
  simp only [stencil27_reads, List.map_cons, List.map_nil, List.sum_cons, List.sum_nil]
  ring

theorem stencil19_reads_lt (size i j k : Nat) (hi1 : 1 ≤ i) (hi2 : i ≤ size - 2) (hj1 : 1 ≤ j) (hj2 : j ≤ size - 2) (hk1 : 1 ≤ k) (hk2 : k ≤ size - 2) :
    ∀ x, x ∈ stencil19_reads size i j k → x < size * size * size := by
  intro x hx
  simp only [stencil19_reads, List.mem_cons, List.mem_singleton, List.not_mem_nil, or_false] at hx
  rcases hx with rfl | rfl | rfl | rfl | rfl | rfl | rfl | rfl | rfl | rfl | rfl | rfl | rfl | rfl | rfl | rfl | rfl | rfl <;>
    exact idx3_lt size _ _ _ (by omega) (by omega) (by omega)

/-- The value one sweep of `stencil19` leaves in an interior cell is the sum of `a0` over the
indices read, times the factor. -/
theorem stencil19_sweep_reads (P size : Nat) (hP : 1 ≤ P) (g : Grid) (i j k : Nat)
    (hi1 : 1 ≤ i) (hi2 : i ≤ size - 2) (hj1 : 1 ≤ j) (hj2 : j ≤ size - 2) (hk1 : 1 ≤ k) (hk2 : k ≤ size - 2) :
    (stencil19_copy P size (stencil19_compute P size g)).a0 (i * (size * size) + j * size + k)
      = ((stencil19_reads size i j k).map g.a0).sum * (1 / 18) := by
  rw [(stencil19_sweep_spec P size hP g).1 i j k hi1 (by omega) hj1 (by omega) hk1 (by omega)]
  simp only [stencil19_reads, List.map_cons, List.map_nil, List.sum_cons, List.sum_nil]
  ring

theorem stencil9_reads_lt (size i j : Nat) (hi1 : 1 ≤ i) (hi2 : i ≤ size - 2) (hj1 : 1 ≤ j) (hj2 : j ≤ size - 2) :
    ∀ x, x ∈ stencil9_reads size i j → x < size * size := by
  intro x hx
  simp only [stencil9_reads, List.mem_cons, List.mem_singleton, List.not_mem_nil, or_false] at hx
  rcases hx with rfl | rfl | rfl | rfl | rfl | rfl | rfl | rfl <;>
    exact idx2_lt size _ _ (by omega) (by omega)

/-- The value one sweep of `stencil9` leaves in an interior cell is the sum of `a0` over the
indices read, times the factor. -/
theorem stencil9_sweep_reads (P size : Nat) (hP : 1 ≤ P) (g : Grid) (i j : Nat)
    (hi1 : 1 ≤ i) (hi2 : i ≤ size - 2) (hj1 : 1 ≤ j) (hj2 : j ≤ size - 2) :
    (stencil9_copy P size (stencil9_compute P size g)).a0 (i * size + j)
      = ((stencil9_reads size i j).map g.a0).sum * (1 / 8) := by
  rw [(stencil9_sweep_spec P size hP g).1 i j hi1 (by omega) hj1 (by omega)]
  simp only [stencil9_reads, List.map_cons, List.map_nil, List.sum_cons, List.sum_nil]
  ring

theorem stencil5_reads_lt (size i j : Nat) (hi1 : 1 ≤ i) (hi2 : i ≤ size - 2) (hj1 : 1 ≤ j) (hj2 : j ≤ size - 2) :
    ∀ x, x ∈ stencil5_reads size i j → x < size * size := by
  intro x hx
  simp only [stencil5_reads, List.mem_cons, List.mem_singleton, List.not_mem_nil, or_false] at hx
  rcases hx with rfl | rfl | rfl | rfl <;>
    exact idx2_lt size _ _ (by omega) (by omega)

/-- The value one sweep of `stencil5` leaves in an interior cell is the sum of `a0` over the
indices read, times the factor. -/
theorem stencil5_sweep_reads (P size : Nat) (hP : 1 ≤ P) (g : Grid) (i j : Nat)
    (hi1 : 1 ≤ i) (hi2 : i ≤ size - 2) (hj1 : 1 ≤ j) (hj2 : j ≤ size - 2) :
    (stencil5_copy P size (stencil5_compute P size g)).a0 (i * size + j)
      = ((stencil5_reads size i j).map g.a0).sum * (1 / 8) := by
  rw [(stencil5_sweep_spec P size hP g).1 i j hi1 (by omega) hj1 (by omega)]
  simp only [stencil5_reads, List.map_cons, List.map_nil, List.sum_cons, List.sum_nil]
  ring

/-- C22: for every `size ≥ 3` the map `(i,j,k) ↦ i*size² + j*size + k` is injective on
`[0,size)³` with values below `size³`, and for every interior cell every index the 27-point
and 19-point sweeps read (the lists `stencil27_reads`, `stencil19_reads`, whose `a0` values
make up the stored result) or write (the cell's own index) is below `size³`; likewise
`(i,j) ↦ i*size + j` is injective on `[0,size)²` and every index the 9-point and 5-point
sweeps read or write for an interior cell is below `size²`. -/
theorem stencil_index_safety (size : Nat) (hsize : 3 ≤ size) :
    (∀ i j k i2 j2 k2, i < size → j < size → k < size → i2 < size → j2 < size → k2 < size →
      i * (size * size) + j * size + k = i2 * (size * size) + j2 * size + k2 →
      i = i2 ∧ j = j2 ∧ k = k2) ∧
    (∀ i j k, i < size → j < size → k < size → i * (size * size) + j * size + k < size ^ 3) ∧
    (∀ i j k, 1 ≤ i → i ≤ size - 2 → 1 ≤ j → j ≤ size - 2 → 1 ≤ k → k ≤ size - 2 →
      (∀ x, x ∈ stencil27_reads size i j k → x < size ^ 3) ∧
      (∀ x, x ∈ stencil19_reads size i j k → x < size ^ 3) ∧
      i * (size * size) + j * size + k < size ^ 3 ∧
      (∀ P g, 1 ≤ P →
        (stencil27_copy P size (stencil27_compute P size g)).a0
            (i * (size * size) + j * size + k)
          = ((stencil27_reads size i j k).map g.a0).sum * (1 / 26) ∧
        (stencil19_copy P size (stencil19_compute P size g)).a0
            (i * (size * size) + j * size + k)
          = ((stencil19_reads size i j k).map g.a0).sum * (1 / 18))) ∧
    (∀ i j i2 j2, i < size → j < size → i2 < size → j2 < size →
      i * size + j = i2 * size + j2 → i = i2 ∧ j = j2) ∧
    (∀ i j, i < size → j < size → i * size + j < size ^ 2) ∧
    (∀ i j, 1 ≤ i → i ≤ size - 2 → 1 ≤ j → j ≤ size - 2 →
      (∀ x, x ∈ stencil9_reads size i j → x < size ^ 2) ∧
      (∀ x, x ∈ stencil5_reads size i j → x < size ^ 2) ∧
      i * size + j < size ^ 2 ∧
      (∀ P g, 1 ≤ P →
        (stencil9_copy P size (stencil9_compute P size g)).a0 (i * size + j)
          = ((stencil9_reads size i j).map g.a0).sum * (1 / 8) ∧
        (stencil5_copy P size (stencil5_compute P size g)).a0 (i * size + j)
          = ((stencil5_reads size i j).map g.a0).sum * (1 / 8))) := by
  have e3 : size ^ 3 = size * size * size := by ring
  have e2 : size ^ 2 = size * size := by ring
  rw [e3, e2]
  refine ⟨?_, ?_, ?_, ?_, ?_, ?_⟩
  · intro i j k i2 j2 k2 _ hj hk _ hj2 hk2 h
    exact idx3_inj size i j k i2 j2 k2 hj hk hj2 hk2 h
  · intro i j k hi hj hk
    exact idx3_lt size i j k hi hj hk
  · intro i j k hi1 hi2 hj1 hj2 hk1 hk2
    exact ⟨stencil27_reads_lt size i j k hi1 hi2 hj1 hj2 hk1 hk2,
      stencil19_reads_lt size i j k hi1 hi2 hj1 hj2 hk1 hk2,
      idx3_lt size i j k (by omega) (by omega) (by omega),
      fun P g hP => ⟨stencil27_sweep_reads P size hP g i j k hi1 hi2 hj1 hj2 hk1 hk2,
        stencil19_sweep_reads P size hP g i j k hi1 hi2 hj1 hj2 hk1 hk2⟩⟩
  · intro i j i2 j2 _ hj _ hj2 h
    exact idx2_inj size i j i2 j2 hj hj2 h
  · intro i j hi hj
    exact idx2_lt size i j hi hj
  · intro i j hi1 hi2 hj1 hj2
    exact ⟨stencil9_reads_lt size i j hi1 hi2 hj1 hj2,
      stencil5_reads_lt size i j hi1 hi2 hj1 hj2,
      idx2_lt size i j (by omega) (by omega),
      fun P g hP => ⟨stencil9_sweep_reads P size hP g i j hi1 hi2 hj1 hj2,
        stencil5_sweep_reads P size hP g i j hi1 hi2 hj1 hj2⟩⟩

theorem stencil_index_safety_witness :
    (3 ≤ 4) ∧
    ((∀ i j k i2 j2 k2, i < 4 → j < 4 → k < 4 → i2 < 4 → j2 < 4 → k2 < 4 →
      i * (4 * 4) + j * 4 + k = i2 * (4 * 4) + j2 * 4 + k2 →
      i = i2 ∧ j = j2 ∧ k = k2) ∧
    (∀ i j k, i < 4 → j < 4 → k < 4 → i * (4 * 4) + j * 4 + k < 4 ^ 3) ∧
    (∀ i j k, 1 ≤ i → i ≤ 4 - 2 → 1 ≤ j → j ≤ 4 - 2 → 1 ≤ k → k ≤ 4 - 2 →
      (∀ x, x ∈ stencil27_reads 4 i j k → x < 4 ^ 3) ∧
      (∀ x, x ∈ stencil19_reads 4 i j k → x < 4 ^ 3) ∧
      i * (4 * 4) + j * 4 + k < 4 ^ 3 ∧
      (∀ P g, 1 ≤ P →
        (stencil27_copy P 4 (stencil27_compute P 4 g)).a0
            (i * (4 * 4) + j * 4 + k)
          = ((stencil27_reads 4 i j k).map g.a0).sum * (1 / 26) ∧
        (stencil19_copy P 4 (stencil19_compute P 4 g)).a0
            (i * (4 * 4) + j * 4 + k)
          = ((stencil19_reads 4 i j k).map g.a0).sum * (1 / 18))) ∧
    (∀ i j i2 j2, i < 4 → j < 4 → i2 < 4 → j2 < 4 →
      i * 4 + j = i2 * 4 + j2 → i = i2 ∧ j = j2) ∧
    (∀ i j, i < 4 → j < 4 → i * 4 + j < 4 ^ 2) ∧
    (∀ i j, 1 ≤ i → i ≤ 4 - 2 → 1 ≤ j → j ≤ 4 - 2 →
      (∀ x, x ∈ stencil9_reads 4 i j → x < 4 ^ 2) ∧
      (∀ x, x ∈ stencil5_reads 4 i j → x < 4 ^ 2) ∧
      i * 4 + j < 4 ^ 2 ∧
      (∀ P g, 1 ≤ P →
        (stencil9_copy P 4 (stencil9_compute P 4 g)).a0 (i * 4 + j)
          = ((stencil9_reads 4 i j).map g.a0).sum * (1 / 8) ∧
        (stencil5_copy P 4 (stencil5_compute P 4 g)).a0 (i * 4 + j)
          = ((stencil5_reads 4 i j).map g.a0).sum * (1 / 8)))) :=
  ⟨by decide, stencil_index_safety 4 (by decide)⟩

/-! ## Stencils: value bounds -/

theorem list_sum_bounds (l : List ℚ) (M : ℚ) (h : ∀ v, v ∈ l → 0 ≤ v ∧ v ≤ M) :
    0 ≤ l.sum ∧ l.sum ≤ l.length * M := by
  induction l with
  | nil => simp
  | cons a l ih =>
    have ha := h a (List.mem_cons_self a l)
    have hl := ih (fun v hv => h v (List.mem_cons_of_mem a hv))
    rw [List.sum_cons, List.length_cons]
    push_cast
    constructor
    · linarith [ha.1, hl.1]
    · linarith [ha.2, hl.2]

theorem list_sum_lt (l : List ℚ) (h : ∀ v, v ∈ l → v < 1) (hne : 0 < l.length) :
    l.sum < l.length := by
  induction l with
  | nil => exact absurd hne (Nat.lt_irrefl 0)
  | cons a l ih =>
    have ha := h a (List.mem_cons_self a l)
    rw [List.sum_cons, List.length_cons]
    push_cast
    rcases Nat.eq_zero_or_pos l.length with h0 | hpos
    · have hnil : l = [] := List.length_eq_zero.mp h0
      subst hnil
      simpa using ha
    · have hl := ih (fun v hv => h v (List.mem_cons_of_mem a hv)) hpos
      linarith

/-- A sum of `n` values of `[0, M]` with weight `fac`, where `n * fac ≤ 1`, lies in
`[0, M]`. -/
theorem weighted_sum_bounds (n : Nat) (fac M : ℚ) (hfac : 0 ≤ fac) (hw : (n : ℚ) * fac ≤ 1)
    (hM : 0 ≤ M) (l : List ℚ) (hlen : l.length = n) (h : ∀ v, v ∈ l → 0 ≤ v ∧ v ≤ M) :
    0 ≤ l.sum * fac ∧ l.sum * fac ≤ M := by
  have hb := list_sum_bounds l M h
  rw [hlen] at hb
  constructor
  · exact mul_nonneg hb.1 hfac
  · calc l.sum * fac ≤ ((n : ℚ) * M) * fac := mul_le_mul_of_nonneg_right hb.2 hfac
      _ = M * ((n : ℚ) * fac) := by ring
      _ ≤ M * 1 := mul_le_mul_of_nonneg_left hw hM
      _ = M := mul_one M

/-- A sum of `n > 0` values of `[0, 1)` with weight `fac`, where `n * fac ≤ 1`, lies in
`[0, 1)`. -/
theorem weighted_sum_unit (n : Nat) (fac : ℚ) (hn : 0 < n) (hfac : 0 ≤ fac)
    (hw : (n : ℚ) * fac ≤ 1) (l : List ℚ) (hlen : l.length = n)
    (h : ∀ v, v ∈ l → 0 ≤ v ∧ v < 1) :
    0 ≤ l.sum * fac ∧ l.sum * fac < 1 := by
  have hb := list_sum_bounds l 1 (fun v hv => ⟨(h v hv).1, le_of_lt (h v hv).2⟩)
  have hs := list_sum_lt l (fun v hv => (h v hv).2) (by omega)
  rw [hlen] at hs
  refine ⟨mul_nonneg hb.1 hfac, ?_⟩
  rcases eq_or_lt_of_le hfac with h0 | hpos
  · rw [← h0, mul_zero]
    exact zero_lt_one
  · calc l.sum * fac < (n : ℚ) * fac := mul_lt_mul_of_pos_right hs hpos
      _ ≤ 1 := hw

theorem in_update (In : ℚ → Prop) (cells : Nat) (a : Nat → ℚ) (h : ∀ x, x < cells → In (a x))
    (idx : Nat) (v : ℚ) (hv : In v) : ∀ x, x < cells → In (Function.update a idx v x) := by
  intro x hx
  by_cases e : x = idx
  · rw [e, Function.update_same]
    exact hv
  · rw [Function.update_noteq e]
    exact h x hx

/-- One sweep of `stencil27` keeps every cell of `a0` inside a set of values that is closed
under the weighted sum of 26 of its members. -/
theorem stencil27_sweep_in (P size : Nat) (hP : 1 ≤ P) (In : ℚ → Prop)
    (hIn : ∀ l : List ℚ, l.length = 26 → (∀ v, v ∈ l → In v) → In (l.sum * (1 / 26)))
    (g : Grid) (h : ∀ x, x < size * size * size → In (g.a0 x)) :
    ∀ x, x < size * size * size →
      In ((stencil27_copy P size (stencil27_compute P size g)).a0 x) := by
  intro x hx
  by_cases hint : ∃ i j k, (1 ≤ i ∧ i ≤ size - 2) ∧ (1 ≤ j ∧ j ≤ size - 2) ∧
      (1 ≤ k ∧ k ≤ size - 2) ∧ x = i * (size * size) + j * size + k
  · obtain ⟨i, j, k, ⟨i1, i2⟩, ⟨j1, j2⟩, ⟨k1, k2⟩, rfl⟩ := hint
    rw [stencil27_sweep_reads P size hP g i j k i1 i2 j1 j2 k1 k2]
    apply hIn
    · rw [List.length_map]
      rfl
    · intro v hv
      rw [List.mem_map] at hv
      obtain ⟨y, hy, rfl⟩ := hv
      exact h y (stencil27_reads_lt size i j k i1 i2 j1 j2 k1 k2 y hy)
  · rw [(stencil27_sweep_spec P size hP g).2 x (fun i j k i1 i2 j1 j2 k1 k2 e =>
      hint ⟨i, j, k, ⟨i1, by omega⟩, ⟨j1, by omega⟩, ⟨k1, by omega⟩, e⟩)]
    exact h x hx

/-- After the initialisation and any number of sweeps of `stencil27` every cell of `a0` lies in a
set of values that holds 0 and the seeds and is closed under the weighted sum. -/
theorem stencil27_run_in (P size k : Nat) (hP : 1 ≤ P) (In : ℚ → Prop)
    (hIn : ∀ l : List ℚ, l.length = 26 → (∀ v, v ∈ l → In v) → In (l.sum * (1 / 26)))
    (h0 : In 0) (rnd : Nat → Nat → ℚ) (hrnd : ∀ t c, In (rnd t c)) (g : Grid) :
    ∀ x, x < size * size * size → In ((stencil27_run P size k rnd g).a0 x) := by
  have hinit : ∀ x, x < size * size * size → In ((stencil27_init P size rnd g).a0 x) := by
    unfold stencil27_init
    exact for_loop_inv (fun s : Grid => ∀ x, x < size * size * size → In (s.a0 x)) 0 P _ _
      (fun x hx => by rw [zero_all P (size * size * size) hP g x hx]; exact h0)
      (fun t _ _ s hs =>
        for3_inv (fun s : Grid => ∀ x, x < size * size * size → In (s.a0 x)) 1 (size - 2 + 1) 1
          (size - 2 + 1) 1 (size - 2 + 1)
          (fun i j k (g : Grid) =>
            Grid.mk (Function.update g.a0 (i * (size * size) + j * size + k)
              (rnd t (i * (size * size) + j * size + k))) g.a1) s hs
          (fun i j k _ _ _ _ _ _ s hs => in_update In _ s.a0 hs _ _ (hrnd _ _)))
  unfold stencil27_run
  exact for_loop_inv (fun s : Grid => ∀ x, x < size * size * size → In (s.a0 x)) 0 k _ _ hinit
    (fun _ _ _ s hs => stencil27_sweep_in P size hP In hIn s hs)

/-- One sweep of `stencil19` keeps every cell of `a0` inside a set of values that is closed
under the weighted sum of 18 of its members. -/
theorem stencil19_sweep_in (P size : Nat) (hP : 1 ≤ P) (In : ℚ → Prop)
    (hIn : ∀ l : List ℚ, l.length = 18 → (∀ v, v ∈ l → In v) → In (l.sum * (1 / 18)))
    (g : Grid) (h : ∀ x, x < size * size * size → In (g.a0 x)) :
    ∀ x, x < size * size * size →
      In ((stencil19_copy P size (stencil19_compute P size g)).a0 x) := by
  intro x hx
  by_cases hint : ∃ i j k, (1 ≤ i ∧ i ≤ size - 2) ∧ (1 ≤ j ∧ j ≤ size - 2) ∧
      (1 ≤ k ∧ k ≤ size - 2) ∧ x = i * (size * size) + j * size + k
  · obtain ⟨i, j, k, ⟨i1, i2⟩, ⟨j1, j2⟩, ⟨k1, k2⟩, rfl⟩ := hint
    rw [stencil19_sweep_reads P size hP g i j k i1 i2 j1 j2 k1 k2]
    apply hIn
    · rw [List.length_map]
      rfl
    · intro v hv
      rw [List.mem_map] at hv
      obtain ⟨y, hy, rfl⟩ := hv
      exact h y (stencil19_reads_lt size i j k i1 i2 j1 j2 k1 k2 y hy)
  · rw [(stencil19_sweep_spec P size hP g).2 x (fun i j k i1 i2 j1 j2 k1 k2 e =>
      hint ⟨i, j, k, ⟨i1, by omega⟩, ⟨j1, by omega⟩, ⟨k1, by omega⟩, e⟩)]
    exact h x hx

/-- After the initialisation and any number of sweeps of `stencil19` every cell of `a0` lies in a
set of values that holds 0 and the seeds and is closed under the weighted sum. -/
theorem stencil19_run_in (P size k : Nat) (hP : 1 ≤ P) (In : ℚ → Prop)
    (hIn : ∀ l : List ℚ, l.length = 18 → (∀ v, v ∈ l → In v) → In (l.sum * (1 / 18)))
    (h0 : In 0) (rnd : Nat → Nat → ℚ) (hrnd : ∀ t c, In (rnd t c)) (g : Grid) :
    ∀ x, x < size * size * size → In ((stencil19_run P size k rnd g).a0 x) := by
  have hinit : ∀ x, x < size * size * size → In ((stencil19_init P size rnd g).a0 x) := by
    unfold stencil19_init
    exact nest3_inv (fun s : Grid => ∀ x, x < size * size * size → In (s.a0 x)) P 1 (size - 2 + 1) 1
      (size - 2 + 1) 1 (size - 2 + 1) _
      (fun t i j k (g : Grid) =>
        Grid.mk (Function.update g.a0 (i * (size * size) + j * size + k)
          (rnd t (i * (size * size) + j * size + k))) g.a1) _
      (fun x hx => by rw [zero_all P (size * size * size) hP g x hx]; exact h0)
      (fun t i j k _ _ _ _ _ _ s hs => in_update In _ s.a0 hs _ _ (hrnd _ _))
  unfold stencil19_run
  exact for_loop_inv (fun s : Grid => ∀ x, x < size * size * size → In (s.a0 x)) 0 k _ _ hinit
    (fun _ _ _ s hs => stencil19_sweep_in P size hP In hIn s hs)

/-- One sweep of `stencil9` keeps every cell of `a0` inside a set of values that is closed
under the weighted sum of 8 of its members. -/
theorem stencil9_sweep_in (P size : Nat) (hP : 1 ≤ P) (In : ℚ → Prop)
    (hIn : ∀ l : List ℚ, l.length = 8 → (∀ v, v ∈ l → In v) → In (l.sum * (1 / 8)))
    (g : Grid) (h : ∀ x, x < size * size → In (g.a0 x)) :
    ∀ x, x < size * size →
      In ((stencil9_copy P size (stencil9_compute P size g)).a0 x) := by
  intro x hx
  by_cases hint : ∃ i j, (1 ≤ i ∧ i ≤ size - 2) ∧ (1 ≤ j ∧ j ≤ size - 2) ∧
      x = i * size + j
  · obtain ⟨i, j, ⟨i1, i2⟩, ⟨j1, j2⟩, rfl⟩ := hint
    rw [stencil9_sweep_reads P size hP g i j i1 i2 j1 j2]
    apply hIn
    · rw [List.length_map]
      rfl
    · intro v hv
      rw [List.mem_map] at hv
      obtain ⟨y, hy, rfl⟩ := hv
      exact h y (stencil9_reads_lt size i j i1 i2 j1 j2 y hy)
  · rw [(stencil9_sweep_spec P size hP g).2 x (fun i j i1 i2 j1 j2 e =>
      hint ⟨i, j, ⟨i1, by omega⟩, ⟨j1, by omega⟩, e⟩)]
    exact h x hx

/-- After the initialisation and any number of sweeps of `stencil9` every cell of `a0` lies in a
set of values that holds 0 and the seeds and is closed under the weighted sum. -/
theorem stencil9_run_in (P size k : Nat) (hP : 1 ≤ P) (In : ℚ → Prop)
    (hIn : ∀ l : List ℚ, l.length = 8 → (∀ v, v ∈ l → In v) → In (l.sum * (1 / 8)))
    (h0 : In 0) (rnd : Nat → Nat → ℚ) (hrnd : ∀ t c, In (rnd t c)) (g : Grid) :
    ∀ x, x < size * size → In ((stencil9_run P size k rnd g).a0 x) := by
  have hinit : ∀ x, x < size * size → In ((stencil9_init P size rnd g).a0 x) := by
    unfold stencil9_init
    exact nest2_inv (fun s : Grid => ∀ x, x < size * size → In (s.a0 x)) P 1 (size - 2 + 1) 1
      (size - 2 + 1) _
      (fun t i j (g : Grid) =>
        Grid.mk (Function.update g.a0 (i * size + j) (rnd t (i * size + j))) g.a1) _
      (fun x hx => by rw [zero_all P (size * size) hP g x hx]; exact h0)
      (fun t i j _ _ _ _ s hs => in_update In _ s.a0 hs _ _ (hrnd _ _))
  unfold stencil9_run
  exact for_loop_inv (fun s : Grid => ∀ x, x < size * size → In (s.a0 x)) 0 k _ _ hinit
    (fun _ _ _ s hs => stencil9_sweep_in P size hP In hIn s hs)

/-- One sweep of `stencil5` keeps every cell of `a0` inside a set of values that is closed
under the weighted sum of 4 of its members. -/
theorem stencil5_sweep_in (P size : Nat) (hP : 1 ≤ P) (In : ℚ → Prop)
    (hIn : ∀ l : List ℚ, l.length = 4 → (∀ v, v ∈ l → In v) → In (l.sum * (1 / 8)))
    (g : Grid) (h : ∀ x, x < size * size → In (g.a0 x)) :
    ∀ x, x < size * size →
      In ((stencil5_copy P size (stencil5_compute P size g)).a0 x) := by
  intro x hx
  by_cases hint : ∃ i j, (1 ≤ i ∧ i ≤ size - 2) ∧ (1 ≤ j ∧ j ≤ size - 2) ∧
      x = i * size + j
  · obtain ⟨i, j, ⟨i1, i2⟩, ⟨j1, j2⟩, rfl⟩ := hint
    rw [stencil5_sweep_reads P size hP g i j i1 i2 j1 j2]
    apply hIn
    · rw [List.length_map]
      rfl
    · intro v hv
      rw [List.mem_map] at hv
      obtain ⟨y, hy, rfl⟩ := hv
      exact h y (stencil5_reads_lt size i j i1 i2 j1 j2 y hy)
  · rw [(stencil5_sweep_spec P size hP g).2 x (fun i j i1 i2 j1 j2 e =>
      hint ⟨i, j, ⟨i1, by omega⟩, ⟨j1, by omega⟩, e⟩)]
    exact h x hx

/-- After the initialisation and any number of sweeps of `stencil5` every cell of `a0` lies in a
set of values that holds 0 and the seeds and is closed under the weighted sum. -/
theorem stencil5_run_in (P size k : Nat) (hP : 1 ≤ P) (In : ℚ → Prop)
    (hIn : ∀ l : List ℚ, l.length = 4 → (∀ v, v ∈ l → In v) → In (l.sum * (1 / 8)))
    (h0 : In 0) (rnd : Nat → Nat → ℚ) (hrnd : ∀ t c, In (rnd t c)) (g : Grid) :
    ∀ x, x < size * size → In ((stencil5_run P size k rnd g).a0 x) := by
  have hinit : ∀ x, x < size * size → In ((stencil5_init P size rnd g).a0 x) := by
    unfold stencil5_init
    exact nest2_inv (fun s : Grid => ∀ x, x < size * size → In (s.a0 x)) P 1 (size - 2 + 1) 1
      (size - 2 + 1) _
      (fun t i j (g : Grid) =>
        Grid.mk (Function.update g.a0 (i * size + j) (rnd t (i * size + j))) g.a1) _
      (fun x hx => by rw [zero_all P (size * size) hP g x hx]; exact h0)
      (fun t i j _ _ _ _ s hs => in_update In _ s.a0 hs _ _ (hrnd _ _))
  unfold stencil5_run
  exact for_loop_inv (fun s : Grid => ∀ x, x < size * size → In (s.a0 x)) 0 k _ _ hinit
    (fun _ _ _ s hs => stencil5_sweep_in P size hP In hIn s hs)

/-- C23: for each of the four stencil shapes, `P ≥ 1` threads, every size and every bound
`M ≥ 0`: if before a sweep every cell of `a0` lies in `[0, M]`, then after the sweep every
cell of `a0` lies in `[0, M]` again; and a grid seeded with values of `[0, 1)` has every
cell of `a0` in `[0, 1)` after the initialisation and after each of the `REPS` sweeps.  (The
cells of a cubic grid are the indices below `size³`, those of a planar grid the indices
below `size²`.) -/
theorem stencil_values_bounded (P size k : Nat) (hP : 1 ≤ P) (hk : k ≤ REPS) (M : ℚ)
    (hM : 0 ≤ M) (g : Grid)
    (h3 : ∀ x, x < size * size * size → 0 ≤ g.a0 x ∧ g.a0 x ≤ M)
    (h2 : ∀ x, x < size * size → 0 ≤ g.a0 x ∧ g.a0 x ≤ M)
    (rnd : Nat → Nat → ℚ) (hrnd : ∀ t c, 0 ≤ rnd t c ∧ rnd t c < 1) (alloc : Grid) :
    (∀ x, x < size * size * size →
      0 ≤ (stencil27_copy P size (stencil27_compute P size g)).a0 x ∧
      (stencil27_copy P size (stencil27_compute P size g)).a0 x ≤ M) ∧
    (∀ x, x < size * size * size →
      0 ≤ (stencil19_copy P size (stencil19_compute P size g)).a0 x ∧
      (stencil19_copy P size (stencil19_compute P size g)).a0 x ≤ M) ∧
    (∀ x, x < size * size →
      0 ≤ (stencil9_copy P size (stencil9_compute P size g)).a0 x ∧
      (stencil9_copy P size (stencil9_compute P size g)).a0 x ≤ M) ∧
    (∀ x, x < size * size →
      0 ≤ (stencil5_copy P size (stencil5_compute P size g)).a0 x ∧
      (stencil5_copy P size (stencil5_compute P size g)).a0 x ≤ M) ∧
    (∀ x, x < size * size * size →
      0 ≤ (stencil27_run P size k rnd alloc).a0 x ∧ (stencil27_run P size k rnd alloc).a0 x < 1) ∧
    (∀ x, x < size * size * size →
      0 ≤ (stencil19_run P size k rnd alloc).a0 x ∧ (stencil19_run P size k rnd alloc).a0 x < 1) ∧
    (∀ x, x < size * size →
      0 ≤ (stencil9_run P size k rnd alloc).a0 x ∧ (stencil9_run P size k rnd alloc).a0 x < 1) ∧
    (∀ x, x < size * size →
      0 ≤ (stencil5_run P size k rnd alloc).a0 x ∧ (stencil5_run P size k rnd alloc).a0 x < 1) := by
  refine ⟨?_, ?_, ?_, ?_, ?_, ?_, ?_, ?_⟩
  · exact stencil27_sweep_in P size hP (fun v => 0 ≤ v ∧ v ≤ M)
      (weighted_sum_bounds 26 (1 / 26) M (by norm_num) (by norm_num) hM) g h3
  · exact stencil19_sweep_in P size hP (fun v => 0 ≤ v ∧ v ≤ M)
      (weighted_sum_bounds 18 (1 / 18) M (by norm_num) (by norm_num) hM) g h3
  · exact stencil9_sweep_in P size hP (fun v => 0 ≤ v ∧ v ≤ M)
      (weighted_sum_bounds 8 (1 / 8) M (by norm_num) (by norm_num) hM) g h2
  · exact stencil5_sweep_in P size hP (fun v => 0 ≤ v ∧ v ≤ M)
      (weighted_sum_bounds 4 (1 / 8) M (by norm_num) (by norm_num) hM) g h2
  · exact stencil27_run_in P size k hP (fun v => 0 ≤ v ∧ v < 1)
      (weighted_sum_unit 26 (1 / 26) (by norm_num) (by norm_num) (by norm_num))
      (by norm_num) rnd hrnd alloc
  · exact stencil19_run_in P size k hP (fun v => 0 ≤ v ∧ v < 1)
      (weighted_sum_unit 18 (1 / 18) (by norm_num) (by norm_num) (by norm_num))
      (by norm_num) rnd hrnd alloc
  · exact stencil9_run_in P size k hP (fun v => 0 ≤ v ∧ v < 1)
      (weighted_sum_unit 8 (1 / 8) (by norm_num) (by norm_num) (by norm_num))
      (by norm_num) rnd hrnd alloc
  · exact stencil5_run_in P size k hP (fun v => 0 ≤ v ∧ v < 1)
      (weighted_sum_unit 4 (1 / 8) (by norm_num) (by norm_num) (by norm_num))
      (by norm_num) rnd hrnd alloc

theorem grid_ramp_bounds (n : Nat) :
    ∀ x : Nat, x < n → n ≤ 64 →
      0 ≤ (Grid.mk (fun x => (x : ℚ) / 64) (fun _ => 7)).a0 x ∧
      (Grid.mk (fun x => (x : ℚ) / 64) (fun _ => 7)).a0 x ≤ 1 := by
  intro x hx hn
  show (0 : ℚ) ≤ (x : ℚ) / 64 ∧ (x : ℚ) / 64 ≤ 1
  have h1 : (x : ℚ) ≤ 64 := by exact_mod_cast (by omega : x ≤ 64)
  have h0 : (0 : ℚ) ≤ (x : ℚ) := Nat.cast_nonneg x
  constructor
  · positivity
  · rw [div_le_one (by norm_num)]
    exact h1

theorem seed_mod_bounds :
    ∀ t c : Nat, 0 ≤ (fun _ c => ((c % 7 : Nat) : ℚ) / 7) t c ∧
      (fun _ c => ((c % 7 : Nat) : ℚ) / 7) t c < 1 := by
  intro t c
  show (0 : ℚ) ≤ ((c % 7 : Nat) : ℚ) / 7 ∧ ((c % 7 : Nat) : ℚ) / 7 < 1
  have h1 : ((c % 7 : Nat) : ℚ) < 7 := by exact_mod_cast Nat.mod_lt c (by norm_num)
  constructor
  · positivity
  · rw [div_lt_one (by norm_num)]
    exact h1

theorem stencil_values_bounded_witness :
    (1 ≤ 2 ∧ 3 ≤ REPS ∧ (0 : ℚ) ≤ 1 ∧
      (∀ x : Nat, x < 4 * 4 * 4 →
        0 ≤ (Grid.mk (fun x => (x : ℚ) / 64) (fun _ => 7)).a0 x ∧
        (Grid.mk (fun x => (x : ℚ) / 64) (fun _ => 7)).a0 x ≤ 1) ∧
      (∀ x : Nat, x < 4 * 4 →
        0 ≤ (Grid.mk (fun x => (x : ℚ) / 64) (fun _ => 7)).a0 x ∧
        (Grid.mk (fun x => (x : ℚ) / 64) (fun _ => 7)).a0 x ≤ 1) ∧
      (∀ t c : Nat, 0 ≤ (fun _ c => ((c % 7 : Nat) : ℚ) / 7) t c ∧
        (fun _ c => ((c % 7 : Nat) : ℚ) / 7) t c < 1)) ∧
    ((∀ x, x < 4 * 4 * 4 →
      0 ≤ (stencil27_copy 2 4 (stencil27_compute 2 4 (Grid.mk (fun x => (x : ℚ) / 64) (fun _ => 7)))).a0 x ∧
      (stencil27_copy 2 4 (stencil27_compute 2 4 (Grid.mk (fun x => (x : ℚ) / 64) (fun _ => 7)))).a0 x ≤ 1) ∧
    (∀ x, x < 4 * 4 * 4 →
      0 ≤ (stencil19_copy 2 4 (stencil19_compute 2 4 (Grid.mk (fun x => (x : ℚ) / 64) (fun _ => 7)))).a0 x ∧
      (stencil19_copy 2 4 (stencil19_compute 2 4 (Grid.mk (fun x => (x : ℚ) / 64) (fun _ => 7)))).a0 x ≤ 1) ∧
    (∀ x, x < 4 * 4 →
      0 ≤ (stencil9_copy 2 4 (stencil9_compute 2 4 (Grid.mk (fun x => (x : ℚ) / 64) (fun _ => 7)))).a0 x ∧
      (stencil9_copy 2 4 (stencil9_compute 2 4 (Grid.mk (fun x => (x : ℚ) / 64) (fun _ => 7)))).a0 x ≤ 1) ∧
    (∀ x, x < 4 * 4 →
      0 ≤ (stencil5_copy 2 4 (stencil5_compute 2 4 (Grid.mk (fun x => (x : ℚ) / 64) (fun _ => 7)))).a0 x ∧
      (stencil5_copy 2 4 (stencil5_compute 2 4 (Grid.mk (fun x => (x : ℚ) / 64) (fun _ => 7)))).a0 x ≤ 1) ∧
    (∀ x, x < 4 * 4 * 4 →
      0 ≤ (stencil27_run 2 4 3 (fun _ c => ((c % 7 : Nat) : ℚ) / 7) (Grid.mk (fun _ => 7) (fun _ => 7))).a0 x ∧ (stencil27_run 2 4 3 (fun _ c => ((c % 7 : Nat) : ℚ) / 7) (Grid.mk (fun _ => 7) (fun _ => 7))).a0 x < 1) ∧
    (∀ x, x < 4 * 4 * 4 →
      0 ≤ (stencil19_run 2 4 3 (fun _ c => ((c % 7 : Nat) : ℚ) / 7) (Grid.mk (fun _ => 7) (fun _ => 7))).a0 x ∧ (stencil19_run 2 4 3 (fun _ c => ((c % 7 : Nat) : ℚ) / 7) (Grid.mk (fun _ => 7) (fun _ => 7))).a0 x < 1) ∧
    (∀ x, x < 4 * 4 →
      0 ≤ (stencil9_run 2 4 3 (fun _ c => ((c % 7 : Nat) : ℚ) / 7) (Grid.mk (fun _ => 7) (fun _ => 7))).a0 x ∧ (stencil9_run 2 4 3 (fun _ c => ((c % 7 : Nat) : ℚ) / 7) (Grid.mk (fun _ => 7) (fun _ => 7))).a0 x < 1) ∧
    (∀ x, x < 4 * 4 →
      0 ≤ (stencil5_run 2 4 3 (fun _ c => ((c % 7 : Nat) : ℚ) / 7) (Grid.mk (fun _ => 7) (fun _ => 7))).a0 x ∧ (stencil5_run 2 4 3 (fun _ c => ((c % 7 : Nat) : ℚ) / 7) (Grid.mk (fun _ => 7) (fun _ => 7))).a0 x < 1)) :=
  ⟨⟨by decide, by decide, by norm_num, fun x hx => grid_ramp_bounds (4 * 4 * 4) x hx (by decide),
      fun x hx => grid_ramp_bounds (4 * 4) x hx (by decide), seed_mod_bounds⟩,
   stencil_values_bounded 2 4 3 (by decide) (by decide) 1 (by norm_num)
     (Grid.mk (fun x => (x : ℚ) / 64) (fun _ => 7))
     (fun x hx => grid_ramp_bounds (4 * 4 * 4) x hx (by decide))
     (fun x hx => grid_ramp_bounds (4 * 4) x hx (by decide))
     (fun _ c => ((c % 7 : Nat) : ℚ) / 7) seed_mod_bounds
     (Grid.mk (fun _ => 7) (fun _ => 7))⟩

/-! ## Sparse kernels: accumulation across repetitions -/

/-- Kernel `double_spgemm` never resets `C` between repetitions: repetition `r` runs the
multiply loop on the `C` left by the first `r` repetitions. -/
theorem double_spgemm_next_rep (r m_hdr : Nat) (hr : r ≠ ULONG_MAX) (hr1 : r + 1 ≠ ULONG_MAX)
    (row_csr_idx col_csr_idx : Nat → Nat) (A_csr : Nat → ℚ) (B_alloc : Nat → ℚ)
    (row_csc_alloc col_csc_alloc : Nat → Nat) (temp_alloc : Nat → Nat → Nat → ℚ) :
    double_spgemm (r + 1) m_hdr row_csr_idx col_csr_idx A_csr B_alloc row_csc_alloc
        col_csc_alloc temp_alloc
      = spgemm_rep (m_hdr - 1) (m_hdr - 1) row_csr_idx col_csr_idx A_csr
          (csr_to_csc (m_hdr - 1) row_csr_idx col_csr_idx A_csr B_alloc row_csc_alloc
            col_csc_alloc)
          (temp_alloc r)
          (double_spgemm r m_hdr row_csr_idx col_csr_idx A_csr B_alloc row_csc_alloc
            col_csc_alloc temp_alloc) := by
  unfold double_spgemm
  simp only [if_neg hr, if_neg hr1]
  rw [for_loop_from_zero_succ]

/-- C21 (code evaluated at the failing inputs): the 2 x 2 matrix with the single nonzero
`A[0,1] = 1` (row offsets `[0,1,1]`), the temporary blocks of repetition `rep` filled with
`rep + 7`: `double_spgemm` leaves `C[0*2+0] = 7` after one repetition and `15` after
two, whereas `(A B)[0,0] = 0`; and `float_spmatvec_product` on the identity of order 1
with the block of `b` holding `7` ends one repetition with `b[0] = 17/2`, whereas
`(A x)[0] = 3/2`. -/
theorem sparse_accumulation_not_multiple :
    double_spgemm 1 3 (fun i => if i = 0 then 0 else 1) (fun _ => 1) (fun _ => 1)
      (fun _ => 0) (fun _ => 0) (fun _ => 0) (fun rep _ _ => (rep : ℚ) + 7) (0 + 0 * 2) = 7 ∧
    double_spgemm 2 3 (fun i => if i = 0 then 0 else 1) (fun _ => 1) (fun _ => 1)
      (fun _ => 0) (fun _ => 0) (fun _ => 0) (fun rep _ _ => (rep : ℚ) + 7) (0 + 0 * 2) = 15 ∧
    (∑ k in Finset.range 2,
      csr_entry (fun i => if i = 0 then 0 else 1) (fun _ => 1) (fun _ => 1) 0 k *
      csc_entry (csr_to_csc 2 (fun i => if i = 0 then 0 else 1) (fun _ => 1) (fun _ => 1)
        (fun _ => 0) (fun _ => 0) (fun _ => 0)) k 0) = 0 ∧
    (float_spmatvec_product 1 2 (fun i => i) (fun k => k) (fun _ => 1)
      (fun _ => 0) (fun _ => 7)).b 0 = 17 / 2 ∧
    csr_row_dot (fun i => i) (fun k => k) (fun _ => 1)
      (float_spmatvec_product 1 2 (fun i => i) (fun k => k) (fun _ => 1)
        (fun _ => 0) (fun _ => 7)).x 0 = 3 / 2 := by
  have h := csc_single_entry
  refine ⟨?_, ?_, ?_, ?_, ?_⟩
  · unfold double_spgemm
    simp only [show (1 : Nat) ≠ ULONG_MAX by unfold ULONG_MAX; norm_num, if_false,
      show 3 - 1 = 2 from rfl]
    generalize csr_to_csc 2 (fun i => if i = 0 then 0 else 1) (fun _ => 1) (fun _ => 1)
      (fun _ => 0) (fun _ => 0) (fun _ => 0) = csc at h
    simp [spgemm_rep, for_loop, List.range_succ, Function.update, h.1, h.2.1, h.2.2.1,
      h.2.2.2]
  · unfold double_spgemm
    simp only [show (2 : Nat) ≠ ULONG_MAX by unfold ULONG_MAX; norm_num, if_false,
      show 3 - 1 = 2 from rfl]
    generalize csr_to_csc 2 (fun i => if i = 0 then 0 else 1) (fun _ => 1) (fun _ => 1)
      (fun _ => 0) (fun _ => 0) (fun _ => 0) = csc at h
    simp [spgemm_rep, for_loop, List.range_succ, Function.update, h.1, h.2.1, h.2.2.1,
      h.2.2.2]
    norm_num
  · generalize csr_to_csc 2 (fun i => if i = 0 then 0 else 1) (fun _ => 1) (fun _ => 1)
      (fun _ => 0) (fun _ => 0) (fun _ => 0) = csc at h
    simp [csr_entry, csc_entry, Finset.sum_range_succ, h.1, h.2.1]
  · simp [float_spmatvec_product, ULONG_MAX, for_loop, List.range_succ, Function.update]
    norm_num
  · simp [csr_row_dot, float_spmatvec_product, ULONG_MAX, for_loop, List.range_succ,
      Function.update]

/-! ## Sparse kernels: ingestion order and the rows of the SpMV -/

end Adept
